import Mathlib

/-!
# Dashboard aggregation of `src/services/auditorias.service.js`

Shallow embedding of `listarDashboard` and a verification of its contract.

Modelling conventions.
* A JavaScript `Map` is an insertion-ordered association list (`JSMap`); an
  object stored in a map and mutated through the reference returned by `get`
  is modelled by `JSMap.update`.
* A JavaScript number is an IEEE 754 double, represented by the rational it denotes;
  `+`, `/` and `*` round their exact result to the nearest double (`fl`).  `Math.round`
  rounds half up.
* `null` is `none`.  The month index `new Date(d).getMonth()` is `some m` with
  `m < 12` for a valid date and `none` (the number `NaN`) for an invalid one.
-/

namespace RtoAuditorias

/-! ## Data model -/

/-- Answer statuses accepted by `salvarProgressoAuditoria` (`validStatus`). -/
inductive Status
  | CF
  | NC
  | PC
  | NE
deriving DecidableEq, Repr

/-- The `Date` built by `new Date(dt_auditoria)`, as far as `getMonth` observes it. -/
inductive JSDate
  | valid (ano : Nat) (mes : Fin 12) (dia : Nat)
  | invalid
deriving DecidableEq, Repr

/-- Month index of `Date.prototype.getMonth`: 0-based month, `none` for `NaN`. -/
def JSDate.getMonth : JSDate → Option Nat
  | .valid _ mes _ => some mes.val
  | .invalid => none

/-- One row of `AuditoriasModel.listarDashboard`, with the columns read by the service. -/
structure Row where
  auditoria_id : Nat
  dt_auditoria : JSDate
  topico_id : Option Nat
  nome_tema : String
  pergunta_id : Option Nat
  st_pergunta : Option Status
deriving DecidableEq, Repr

/-! ## JavaScript `Map` -/

/-- Insertion-ordered map. -/
abbrev JSMap (κ ν : Type) := List (κ × ν)

/-- The method `Map.prototype.get`; `none` is `undefined`. -/
def JSMap.get {κ ν : Type} [DecidableEq κ] : JSMap κ ν → κ → Option ν
  | [], _ => none
  | (k', v) :: m, k => if k' = k then some v else JSMap.get m k

/-- The method `Map.prototype.has`. -/
def JSMap.has {κ ν : Type} [DecidableEq κ] (m : JSMap κ ν) (k : κ) : Bool :=
  (JSMap.get m k).isSome

/-- The method `Map.prototype.set`: overwrite in place, or append a new key at the end. -/
def JSMap.set {κ ν : Type} [DecidableEq κ] : JSMap κ ν → κ → ν → JSMap κ ν
  | [], k, v => [(k, v)]
  | (k', v') :: m, k, v => if k' = k then (k, v) :: m else (k', v') :: JSMap.set m k v

/-- Mutation of the object stored under `k`, through the reference returned by `get`. -/
def JSMap.update {κ ν : Type} [DecidableEq κ] : JSMap κ ν → κ → (ν → ν) → JSMap κ ν
  | [], _, _ => []
  | (k', v) :: m, k, f =>
    if k' = k then (k', f v) :: m else (k', v) :: JSMap.update m k f

/-- The values in insertion order: `Array.from(map.values())` and `map.forEach`. -/
def JSMap.values {κ ν : Type} (m : JSMap κ ν) : List ν := m.map Prod.snd

/-- The keys in insertion order. -/
def JSMap.keys {κ ν : Type} (m : JSMap κ ν) : List κ := m.map Prod.fst

/-! ## Grouping step (lines 157-181) -/

/-- Element of `perguntas`: `{ id, st_pergunta }`. -/
structure Pergunta where
  id : Option Nat
  st_pergunta : Option Status
deriving DecidableEq, Repr

/-- Value of `auditoria.topicos`: `{ id, nome_tema, perguntas }`. -/
structure Topico where
  id : Option Nat
  nome_tema : String
  perguntas : List Pergunta
deriving DecidableEq, Repr

/-- Value of `auditoriasAgrupadas`: `{ id, dt_auditoria, topicos }`. -/
structure Auditoria where
  id : Nat
  dt_auditoria : JSDate
  topicos : JSMap (Option Nat) Topico
deriving DecidableEq, Repr

/-- Lines 168-180: the effect of one row on the `topicos` map of its audit. -/
def agruparTopico (topicos : JSMap (Option Nat) Topico) (row : Row) :
    JSMap (Option Nat) Topico :=
  let topicos1 :=
    if !(JSMap.has topicos row.topico_id) then
      JSMap.set topicos row.topico_id
        { id := row.topico_id, nome_tema := row.nome_tema, perguntas := [] }
    else topicos
  JSMap.update topicos1 row.topico_id (fun topico =>
    if !(topico.perguntas.any (fun p => decide (p.id = row.pergunta_id))) then
      { topico with
        perguntas := topico.perguntas ++
          [{ id := row.pergunta_id, st_pergunta := row.st_pergunta }] }
    else topico)

/-- Lines 158-181: the body of `dadosBrutos.forEach`. -/
def agruparRow (auditoriasAgrupadas : JSMap Nat Auditoria) (row : Row) :
    JSMap Nat Auditoria :=
  let auditoriaId := row.auditoria_id
  let agrupadas1 :=
    if !(JSMap.has auditoriasAgrupadas auditoriaId) then
      JSMap.set auditoriasAgrupadas auditoriaId
        { id := auditoriaId, dt_auditoria := row.dt_auditoria, topicos := [] }
    else auditoriasAgrupadas
  JSMap.update agrupadas1 auditoriaId (fun auditoria =>
    { auditoria with topicos := agruparTopico auditoria.topicos row })

/-- Lines 157-184: `auditoriasAgrupadas` after the loop over `dadosBrutos`. -/
def auditoriasAgrupadas (dadosBrutos : List Row) : JSMap Nat Auditoria :=
  dadosBrutos.foldl agruparRow []

/-- Line 184: `Array.from(auditoriasAgrupadas.values())`. -/
def auditoriasConsolidadas (dadosBrutos : List Row) : List Auditoria :=
  JSMap.values (auditoriasAgrupadas dadosBrutos)

/-! ## JavaScript numbers

A JavaScript number is an IEEE 754 binary64 value ("double").  A double is represented by the
rational it denotes; `+`, `/` and `*` return the double nearest to the exact result (ties to
the even significand).  The sums and counters of the service start at 0 and grow by at most 1
per step, and its quotients divide such a sum by such a counter, so every number it computes
is 0 or lies far inside the normal range of doubles: the exponent is left unbounded and there
is neither overflow, nor a subnormal, nor a `NaN`. -/

/-- Round to the nearest integer, a tie to the even one. -/
def roundEven (x : ℚ) : Int :=
  if x - ⌊x⌋ < 1 / 2 then ⌊x⌋
  else if 1 / 2 < x - ⌊x⌋ then ⌊x⌋ + 1
  else if ⌊x⌋ % 2 = 0 then ⌊x⌋ else ⌊x⌋ + 1

/-- The spacing of the doubles from `2 ^ e` to `2 ^ (e + 1)`, where `e = ⌊log₂ x⌋`: 53
significant bits. -/
def ulp (x : ℚ) : ℚ := (2 : ℚ) ^ (Int.log 2 x - 52)

/-- The double nearest to a non-negative `x`. -/
def flPos (x : ℚ) : ℚ := roundEven (x / ulp x) * ulp x

/-- The double nearest to `x` (round to nearest, ties to even). -/
def fl (x : ℚ) : ℚ := if x < 0 then -flPos (-x) else flPos x

/-- JavaScript `+` on numbers. -/
def jsAdd (a b : ℚ) : ℚ := fl (a + b)

/-- JavaScript `*` on numbers. -/
def jsMul (a b : ℚ) : ℚ := fl (a * b)

/-- JavaScript `/` at a place where the divisor is known to be positive. -/
def dividir (a n : ℚ) (_h : 0 < n) : ℚ := fl (a / n)

/-! ## Scoring and accumulation (lines 186-244) -/

/-- Accumulator `{ soma, count }`. -/
structure Acc where
  soma : ℚ
  count : ℚ
deriving DecidableEq

/-- Value of `processosTabela`: `{ id, nome_tema, resultados }`. -/
structure Processo where
  id : Option Nat
  nome_tema : String
  resultados : JSMap (Option Nat) Acc
deriving DecidableEq

/-- Lines 211-221: one question's contribution to
`(somaPontosTopico, perguntasConsideradasTopico)`. -/
def pontuarPergunta (acc : ℚ × ℚ) (pergunta : Pergunta) : ℚ × ℚ :=
  match pergunta.st_pergunta with
  | some Status.CF => (jsAdd acc.1 1, jsAdd acc.2 1)
  | some Status.PC => (jsAdd acc.1 (1 / 2), jsAdd acc.2 1)
  | some Status.NC => (acc.1, jsAdd acc.2 1)
  | _ => acc

/-- Lines 208-223: `percentualTopico`, `none` for `null`. -/
def percentualTopico (topico : Topico) : Option ℚ :=
  let pontos := topico.perguntas.foldl pontuarPergunta (0, 0)
  if h : pontos.2 > 0 then some (dividir pontos.1 pontos.2 h) else none

/-- The variables the loop over `auditoria.topicos` writes. -/
structure EstadoAuditoria where
  processosTabela : JSMap (Option Nat) Processo
  somaPercentuaisAuditoria : ℚ
  countTopicosAuditoria : ℚ

/-- Lines 198-236: the body of `auditoria.topicos.forEach`. -/
def processarTopico (mesIndex : Option Nat) (st : EstadoAuditoria) (topico : Topico) :
    EstadoAuditoria :=
  let tabela1 :=
    if !(JSMap.has st.processosTabela topico.id) then
      JSMap.set st.processosTabela topico.id
        { id := topico.id, nome_tema := topico.nome_tema, resultados := [] }
    else st.processosTabela
  match percentualTopico topico with
  | some pct =>
    { processosTabela :=
        JSMap.update tabela1 topico.id (fun processo =>
          let resultados1 :=
            if !(JSMap.has processo.resultados mesIndex) then
              JSMap.set processo.resultados mesIndex { soma := 0, count := 0 }
            else processo.resultados
          { processo with
            resultados := JSMap.update resultados1 mesIndex (fun r =>
              { soma := jsAdd r.soma pct, count := jsAdd r.count 1 }) })
      somaPercentuaisAuditoria := jsAdd st.somaPercentuaisAuditoria pct
      countTopicosAuditoria := jsAdd st.countTopicosAuditoria 1 }
  | none => { st with processosTabela := tabela1 }

/-- The two tables `processosTabela` and `resultadosMensaisTabela`. -/
structure Tabelas where
  processosTabela : JSMap (Option Nat) Processo
  resultadosMensaisTabela : JSMap (Option Nat) Acc

/-- Lines 189-244: the body of `auditoriasConsolidadas.forEach`. -/
def processarAuditoria (tab : Tabelas) (auditoria : Auditoria) : Tabelas :=
  let mesIndex := auditoria.dt_auditoria.getMonth
  let mensais1 :=
    if !(JSMap.has tab.resultadosMensaisTabela mesIndex) then
      JSMap.set tab.resultadosMensaisTabela mesIndex { soma := 0, count := 0 }
    else tab.resultadosMensaisTabela
  let st := (JSMap.values auditoria.topicos).foldl (processarTopico mesIndex)
    { processosTabela := tab.processosTabela
      somaPercentuaisAuditoria := 0
      countTopicosAuditoria := 0 }
  if h : st.countTopicosAuditoria > 0 then
    let mediaAuditoria := dividir st.somaPercentuaisAuditoria st.countTopicosAuditoria h
    { processosTabela := st.processosTabela
      resultadosMensaisTabela := JSMap.update mensais1 mesIndex (fun r =>
        { soma := jsAdd r.soma mediaAuditoria, count := jsAdd r.count 1 }) }
  else
    { processosTabela := st.processosTabela, resultadosMensaisTabela := mensais1 }

/-- Lines 186-244: both tables after the loop over the consolidated audits. -/
def tabelas (dadosBrutos : List Row) : Tabelas :=
  (auditoriasConsolidadas dadosBrutos).foldl processarAuditoria
    { processosTabela := [], resultadosMensaisTabela := [] }

/-! ## Output shaping (lines 246-273) -/

/-- Line 246. -/
def meses : List String :=
  ["jan", "fev", "mar", "abr", "mai", "jun", "jul", "ago", "set", "out", "nov", "dez"]

/-- `Math.round`: the nearest integer, halves towards `+∞` (exact on a double). -/
def mathRound (x : ℚ) : Int := ⌊x + 1 / 2⌋

/-- `String.prototype.toUpperCase` on the ASCII month abbreviations. -/
def toUpperCase (s : String) : String := String.mk (s.data.map Char.toUpper)

/-- Line 247: `String(ano).substring(2)`. -/
def anoStr (ano : Nat) : String := String.mk ((toString ano).data.drop 2)

/-- Lines 256 and 263:
`r && r.count > 0 ? Math.round((r.soma / r.count) * 100) : null`. -/
def formatarResultado (r : Option Acc) : Option Int :=
  match r with
  | some r =>
    if h : r.count > 0 then some (mathRound (jsMul (dividir r.soma r.count h) 100)) else none
  | none => none

/-- The object `objResultado`: `id`, `nome_tema` and the month fields in the order they are set. -/
structure ProcessoFormatado where
  id : Option Nat
  nome_tema : String
  campos : List (String × Option Int)
deriving DecidableEq, Repr

/-- Element of `resultadosMensais`: `{ mes, resultado }`. -/
structure ResultadoMensal where
  mes : String
  resultado : Option Int
deriving DecidableEq, Repr

/-- The returned object `{ processos, resultadosMensais }`. -/
structure Dashboard where
  processos : List ProcessoFormatado
  resultadosMensais : List ResultadoMensal
deriving DecidableEq, Repr

/-- Lines 249-259: the callback of `Array.from(processosTabela.values()).map`. -/
def formatarProcesso (processo : Processo) : ProcessoFormatado :=
  { id := processo.id
    nome_tema := processo.nome_tema
    campos := meses.enum.map (fun im =>
      (im.2, formatarResultado (JSMap.get processo.resultados (some im.1)))) }

/-- Lines 261-268: `resultadosMensaisFormatados`. -/
def resultadosMensaisFormatados (resultadosMensaisTabela : JSMap (Option Nat) Acc)
    (ano : Nat) : List ResultadoMensal :=
  meses.enum.map (fun im =>
    { mes := toUpperCase im.2 ++ "/" ++ anoStr ano
      resultado := formatarResultado (JSMap.get resultadosMensaisTabela (some im.1)) })

/-- Lines 150-274: `listarDashboard` on the rows `dadosBrutos` returned by the model. -/
def listarDashboard (dadosBrutos : List Row) (ano : Nat) : Dashboard :=
  if dadosBrutos.length = 0 then
    { processos := [], resultadosMensais := [] }
  else
    let tab := tabelas dadosBrutos
    { processos := (JSMap.values tab.processosTabela).map formatarProcesso
      resultadosMensais := resultadosMensaisFormatados tab.resultadosMensaisTabela ano }

/-- Property read `objResultado[mes]`; `none` when the object has no such field. -/
def ProcessoFormatado.campo (p : ProcessoFormatado) (mes : String) : Option (Option Int) :=
  (p.campos.find? (fun c => c.1 = mes)).map Prod.snd


/-! ## Auxiliary definitions -/

/-- The pattern `if (!m.has(k)) m.set(k, init); update(m.get(k))`. -/
def JSMap.upsert {κ ν : Type} [DecidableEq κ] (m : JSMap κ ν) (k : κ) (init : ν) (f : ν → ν) :
    JSMap κ ν :=
  JSMap.update (if !(JSMap.has m k) then JSMap.set m k init else m) k f

/-- Key list after one more key has been seen. -/
def inserirChave {κ : Type} [DecidableEq κ] (ks : List κ) (k : κ) : List κ :=
  if k ∈ ks then ks else ks ++ [k]

/-- Keys in order of first occurrence. -/
def chaves {κ : Type} [DecidableEq κ] (ks : List κ) : List κ := ks.foldl inserirChave []

/-- State of one key after a run of upserts: the first element initialises, all update. -/
def estadoChave {α ν : Type} (init : α → ν) (upd : ν → α → ν) : List α → Option ν
  | [] => none
  | y :: ys => some ((y :: ys).foldl upd (init y))

/-- Line 161-165: the audit object created for the first row of an audit. -/
def novaAuditoria (row : Row) : Auditoria :=
  { id := row.auditoria_id, dt_auditoria := row.dt_auditoria, topicos := [] }

/-- Line 169-173: the topic object created for the first row of a topic. -/
def novoTopico (row : Row) : Topico :=
  { id := row.topico_id, nome_tema := row.nome_tema, perguntas := [] }

/-- Lines 175-180: the effect of one row on the `perguntas` array of its topic. -/
def juntarPergunta (perguntas : List Pergunta) (row : Row) : List Pergunta :=
  if !(perguntas.any (fun p => decide (p.id = row.pergunta_id))) then
    perguntas ++ [{ id := row.pergunta_id, st_pergunta := row.st_pergunta }]
  else perguntas

/-- The rows of one audit, in input order. -/
def linhasAuditoria (rows : List Row) (A : Nat) : List Row :=
  rows.filter (fun r => decide (r.auditoria_id = A))

/-- The rows of one topic of one audit, in input order. -/
def linhasTopico (rows : List Row) (A : Nat) (T : Option Nat) : List Row :=
  (linhasAuditoria rows A).filter (fun r => decide (r.topico_id = T))

/-- The topic object the grouping step builds for topic `T` of audit `A`. -/
def topicoAgrupado (rows : List Row) (A : Nat) (T : Option Nat) : Topico :=
  { id := T
    nome_tema := ((linhasTopico rows A T).head?.map (fun r => r.nome_tema)).getD ""
    perguntas := (linhasTopico rows A T).foldl juntarPergunta [] }

/-- The `topicos` map the grouping step builds for audit `A`. -/
def topicosAgrupados (rows : List Row) (A : Nat) : JSMap (Option Nat) Topico :=
  (linhasAuditoria rows A).foldl agruparTopico []

/-- The date stored for audit `A`: that of its first row. -/
def dataAuditoria (rows : List Row) (A : Nat) : JSDate :=
  ((linhasAuditoria rows A).head?.map (fun r => r.dt_auditoria)).getD JSDate.invalid

/-- The audit object the grouping step builds for audit `A`. -/
def auditoriaAgrupada (rows : List Row) (A : Nat) : Auditoria :=
  { id := A, dt_auditoria := dataAuditoria rows A, topicos := topicosAgrupados rows A }

/-- Lines 200-204: the table entry created for the first occurrence of a topic. -/
def novoProcesso (topico : Topico) : Processo :=
  { id := topico.id, nome_tema := topico.nome_tema, resultados := [] }

/-- Lines 230-231 and 241-242: `r.soma += x; r.count++`. -/
def somar (r : Acc) (x : ℚ) : Acc := { soma := jsAdd r.soma x, count := jsAdd r.count 1 }

/-- The accumulator `{ soma: 0, count: 0 }`. -/
def accZero : Acc := { soma := 0, count := 0 }

/-- Lines 225-232: the effect of one topic of an audit of month `mesIndex` on its table entry. -/
def atualizarProcesso (mesIndex : Option Nat) (processo : Processo) (topico : Topico) :
    Processo :=
  match percentualTopico topico with
  | some pct =>
    { processo with
      resultados := JSMap.upsert processo.resultados mesIndex accZero (fun r => somar r pct) }
  | none => processo

/-- Lines 199-232: the effect of one (month, topic) pair on `processosTabela`. -/
def passoProcessos (tabela : JSMap (Option Nat) Processo) (mt : Option Nat × Topico) :
    JSMap (Option Nat) Processo :=
  JSMap.upsert tabela mt.2.id (novoProcesso mt.2) (fun p => atualizarProcesso mt.1 p mt.2)

/-- The (month, topic) pairs in the order the two nested loops visit them. -/
def paresMesTopico (auditorias : List Auditoria) : List (Option Nat × Topico) :=
  auditorias.flatMap (fun a =>
    (JSMap.values a.topicos).map (fun t => (a.dt_auditoria.getMonth, t)))

/-- The non-null `percentualTopico` values of one audit, in iteration order. -/
def percentuaisAuditoria (auditoria : Auditoria) : List ℚ :=
  (JSMap.values auditoria.topicos).filterMap percentualTopico

/-- The accumulator after `soma += x; count++` for every `x` of a list, from
`{ soma: 0, count: 0 }`. -/
def acumulado (l : List ℚ) : Acc := l.foldl somar accZero

/-- The quotient `soma / count` of an accumulator, `none` when `count` is 0. -/
def mediaDe (r : Acc) : Option ℚ :=
  if h : r.count > 0 then some (dividir r.soma r.count h) else none

/-- Lines 238-239: `mediaAuditoria`, `none` when `countTopicosAuditoria` is 0. -/
def mediaAuditoria (auditoria : Auditoria) : Option ℚ :=
  mediaDe (acumulado (percentuaisAuditoria auditoria))

/-- Lines 192-194 and 238-243: the effect of one audit on `resultadosMensaisTabela`. -/
def passoMensais (tabela : JSMap (Option Nat) Acc) (auditoria : Auditoria) :
    JSMap (Option Nat) Acc :=
  JSMap.upsert tabela auditoria.dt_auditoria.getMonth accZero (fun r =>
    match mediaAuditoria auditoria with
    | some m => somar r m
    | none => r)

/-- Adding the defined values of `g` over a list to an accumulator. -/
def acumular {α : Type} (g : α → Option ℚ) (r : Acc) (x : α) : Acc :=
  match g x with
  | some s => somar r s
  | none => r

/-- The rounded percentage of the mean of a list, `none` for the empty list. -/
def percentualMedio (l : List ℚ) : Option Int :=
  formatarResultado (some (acumulado l))

/-- The accumulator of topic `T` and month `M` in `processosTabela`, zero when absent. -/
def accCelula (T M : Option Nat) (tabela : JSMap (Option Nat) Processo) : Acc :=
  ((JSMap.get tabela T).bind (fun p => JSMap.get p.resultados M)).getD accZero

/-- The score a (month, topic) pair contributes to the cell of topic `T` and month `M`. -/
def contribuicaoCelula (T M : Option Nat) (mt : Option Nat × Topico) : Option ℚ :=
  if mt.2.id = T ∧ mt.1 = M then percentualTopico mt.2 else none

/-- The average an audit contributes to the overall result of month `M`. -/
def contribuicaoMensal (M : Option Nat) (a : Auditoria) : Option ℚ :=
  if a.dt_auditoria.getMonth = M then mediaAuditoria a else none

/-! ## The specification's definitions (spec §3 and §4.2), stated on the row list

Sums, quotients and means are those of exact arithmetic. -/

/-- Spec §4.2 step 1: keep the first element of every key ("first occurrence wins"). -/
def Spec.primeirasPor {α κ : Type} [DecidableEq κ] (key : α → κ) (xs : List α) : List α :=
  xs.foldl (fun acc x => if acc.any (fun y => decide (key y = key x)) then acc else acc ++ [x]) []

/-- The distinct questions of topic `T` in audit `A`: one row per question id. -/
def Spec.perguntasDistintas (rows : List Row) (T : Option Nat) (A : Nat) : List Row :=
  Spec.primeirasPor (fun r => r.pergunta_id)
    (rows.filter (fun r => decide (r.auditoria_id = A ∧ r.topico_id = T)))

/-- The number of rows of `qs` answered with status `s`. -/
def Spec.contar (s : Status) (qs : List Row) : Nat :=
  qs.countP (fun r => decide (r.st_pergunta = some s))

/-- Spec §3 TopicScore: `(#CF + 0.5 * #PC) / (#CF + #PC + #NC)` over the distinct questions of
`T` in `A`, `none` (null) when none of them is answered CF, PC or NC. -/
def Spec.TopicScore (rows : List Row) (T : Option Nat) (A : Nat) : Option ℚ :=
  let qs := Spec.perguntasDistintas rows T A
  let cf := Spec.contar Status.CF qs
  let pc := Spec.contar Status.PC qs
  let nc := Spec.contar Status.NC qs
  if cf + pc + nc = 0 then none
  else some (((cf : ℚ) + (1 / 2) * (pc : ℚ)) / ((cf : ℚ) + (pc : ℚ) + (nc : ℚ)))

/-- Arithmetic mean of a list of numbers. -/
def Spec.media (l : List ℚ) : ℚ := l.sum / (l.length : ℚ)

/-- The distinct audit ids of the rows. -/
def Spec.auditorias (rows : List Row) : List Nat :=
  (rows.map (fun r => r.auditoria_id)).dedup

/-- The month index of audit `A`: that of the date its rows carry (read from its first row). -/
def Spec.mesAuditoria (rows : List Row) (A : Nat) : Option Nat :=
  (rows.find? (fun r => decide (r.auditoria_id = A))).bind (fun r => r.dt_auditoria.getMonth)

/-- The audits dated in month `M`. -/
def Spec.auditoriasDoMes (rows : List Row) (M : Nat) : List Nat :=
  (Spec.auditorias rows).filter (fun A => decide (Spec.mesAuditoria rows A = some M))

/-- Spec §3 MonthBucket: the (topic, month) cell, the rounded percentage of the mean of the
non-null TopicScores of the audits of the month, `none` (null) when there is none. -/
def Spec.celula (rows : List Row) (T : Option Nat) (M : Nat) : Option Int :=
  let scores := (Spec.auditoriasDoMes rows M).filterMap (Spec.TopicScore rows T)
  if scores = [] then none else some (mathRound (100 * Spec.media scores))

/-- The distinct topic ids of audit `A`. -/
def Spec.topicos (rows : List Row) (A : Nat) : List (Option Nat) :=
  ((rows.filter (fun r => decide (r.auditoria_id = A))).map (fun r => r.topico_id)).dedup

/-- Spec §4.2 step 3: the audit's own average, the unrounded mean of its non-null
TopicScores, `none` when the audit has no eligible topic. -/
def Spec.mediaAuditoria (rows : List Row) (A : Nat) : Option ℚ :=
  let scores := (Spec.topicos rows A).filterMap (fun T => Spec.TopicScore rows T A)
  if scores = [] then none else some (Spec.media scores)

/-- Spec §3 MonthlyOverall: the rounded percentage of the mean of the audit averages of the
eligible audits of the month, `none` (null) when there is none. -/
def Spec.resultadoMensal (rows : List Row) (M : Nat) : Option Int :=
  let medias := (Spec.auditoriasDoMes rows M).filterMap (Spec.mediaAuditoria rows)
  if medias = [] then none else some (mathRound (100 * Spec.media medias))

/-! ## Reading the output -/

/-- The entry of `processos` for topic id `T`. -/
def Dashboard.processo (d : Dashboard) (T : Option Nat) : Option ProcessoFormatado :=
  d.processos.find? (fun p => decide (p.id = T))

/-- The cell `processos[T][meses[M]]`; `none` when there is no such entry or field. -/
def Dashboard.celula (d : Dashboard) (T : Option Nat) (M : Nat) : Option (Option Int) :=
  (d.processo T).bind (fun p => (meses[M]?).bind (fun mes => p.campo mes))

/-- The value `resultadosMensais[M].resultado`; `none` when there is no such entry. -/
def Dashboard.resultado (d : Dashboard) (M : Nat) : Option (Option Int) :=
  (d.resultadosMensais[M]?).map (fun r => r.resultado)

/-- The `Pergunta` object pushed for a row. -/
def perguntaDe (row : Row) : Pergunta :=
  { id := row.pergunta_id, st_pergunta := row.st_pergunta }

/-! ## Concrete inputs -/

/-- A row of audit `A` dated the 15th of month `mes` of 2024, for topic `T` and question `q`. -/
def linha (A : Nat) (mes : Fin 12) (T q : Nat) (st : Option Status) : Row :=
  { auditoria_id := A
    dt_auditoria := JSDate.valid 2024 mes 15
    topico_id := some T
    nome_tema := "Tema"
    pergunta_id := some q
    st_pergunta := st }

/-- One audit in January whose topic 1 has the answers CF, PC, NC. -/
def linhasCFPCNC : List Row :=
  [linha 1 0 1 1 (some Status.CF), linha 1 0 1 2 (some Status.PC), linha 1 0 1 3 (some Status.NC)]

/-- Two audits in March: audit 1 has one topic scoring 4/5, audit 2 has two topics scoring
1/5 and 1, so the audit averages are 4/5 and 3/5. -/
def linhasDuasAuditorias : List Row :=
  [linha 1 2 1 1 (some Status.CF), linha 1 2 1 2 (some Status.CF), linha 1 2 1 3 (some Status.CF),
   linha 1 2 1 4 (some Status.CF), linha 1 2 1 5 (some Status.NC),
   linha 2 2 1 1 (some Status.CF), linha 2 2 1 2 (some Status.NC), linha 2 2 1 3 (some Status.NC),
   linha 2 2 1 4 (some Status.NC), linha 2 2 1 5 (some Status.NC),
   linha 2 2 2 6 (some Status.CF)]

/-- The upper-cased month abbreviations. -/
def mesesMaiusculos : List String :=
  ["JAN", "FEV", "MAR", "ABR", "MAI", "JUN", "JUL", "AGO", "SET", "OUT", "NOV", "DEZ"]

/-- A percentage value of the output: `null`, or an integer from 0 to 100. -/
def percentualValido (o : Option Int) : Prop :=
  o = none ∨ ∃ n : Int, o = some n ∧ 0 ≤ n ∧ n ≤ 100

/-- The status counts as an answer: CF, PC or NC. -/
def respondida (st : Option Status) : Prop :=
  st = some Status.CF ∨ st = some Status.PC ∨ st = some Status.NC

/-- The linking ids of a row: audit, topic and question. -/
def Row.chave (r : Row) : Nat × Option Nat × Option Nat :=
  (r.auditoria_id, r.topico_id, r.pergunta_id)

/-- One audit in January whose topic 1 has the answers NE, NE. -/
def linhasNENE : List Row :=
  [linha 1 0 1 1 (some Status.NE), linha 1 0 1 2 (some Status.NE)]

/-- One audit in January whose topic 1 has the answers NC, NC and whose topic 2 is
unanswered. -/
def linhasNC : List Row :=
  [linha 1 0 1 1 (some Status.NC), linha 1 0 1 2 (some Status.NC), linha 1 0 2 3 none]

instance (st : Option Status) : Decidable (respondida st) := by
  unfold respondida
  infer_instance

/-- A row carries both linking ids, topic and question. -/
def Row.bemFormada (r : Row) : Bool := r.topico_id.isSome && r.pergunta_id.isSome

/-- An answered audit followed by the row of an audit without topic, question and answer. -/
def linhasComOrfa : List Row :=
  [linha 1 0 1 1 (some Status.CF),
   { auditoria_id := 2
     dt_auditoria := JSDate.valid 2024 0 20
     topico_id := none
     nome_tema := ""
     pergunta_id := none
     st_pergunta := none }]

/-- Rows of two audits interleaved, topic 2 carrying a different name in each audit. -/
def linhasIntercaladas : List Row :=
  [{ linha 1 0 1 1 (some Status.CF) with nome_tema := "Um" },
   { linha 2 0 2 2 (some Status.CF) with nome_tema := "Nome B" },
   { linha 1 0 2 3 (some Status.CF) with nome_tema := "Nome A" }]

/-- The rows regrouped by audit: audits in order of first appearance, the rows of each audit
in input order. -/
def Spec.porAuditoria (rows : List Row) : List Row :=
  (chaves (rows.map (fun r => r.auditoria_id))).flatMap (fun A =>
    rows.filter (fun r => decide (r.auditoria_id = A)))

/-- Rows in which the third repeats the audit, topic and question ids of the first with
another answer. -/
def linhasRepetidas : List Row :=
  [linha 1 0 1 1 (some Status.CF), linha 1 0 1 2 (some Status.PC), linha 1 0 1 1 (some Status.NC)]

/-- All rows of one audit carry the same date. -/
def mesmaData (rows : List Row) : Prop :=
  ∀ r ∈ rows, ∀ r' ∈ rows, r.auditoria_id = r'.auditoria_id → r.dt_auditoria = r'.dt_auditoria

/-- All rows of one topic carry the same name. -/
def mesmoNome (rows : List Row) : Prop :=
  ∀ r ∈ rows, ∀ r' ∈ rows, r.topico_id = r'.topico_id → r.nome_tema = r'.nome_tema

/-- Rows of two audits in January and March. -/
def linhasMistas : List Row :=
  [linha 1 0 1 1 (some Status.CF), linha 2 2 2 3 (some Status.PC), linha 1 0 1 2 (some Status.NC),
   linha 2 2 1 1 (some Status.NE)]

/-- The rows of `linhasMistas` in another order. -/
def linhasMistasPermutadas : List Row :=
  [linha 2 2 2 3 (some Status.PC), linha 2 2 1 1 (some Status.NE), linha 1 0 1 2 (some Status.NC),
   linha 1 0 1 1 (some Status.CF)]

/-- All non-null TopicScores of all audits of month `M`, audit by audit. -/
def Spec.scoresDoMes (rows : List Row) (M : Nat) : List ℚ :=
  (Spec.auditoriasDoMes rows M).flatMap (fun A =>
    (Spec.topicos rows A).filterMap (fun T => Spec.TopicScore rows T A))

/-- The flat alternative the spec warns against (§9): the rounded percentage of the mean of
all non-null TopicScores of the month, without the per-audit average. -/
def Spec.resultadoPlano (rows : List Row) (M : Nat) : Option Int :=
  let scores := Spec.scoresDoMes rows M
  if scores = [] then none else some (mathRound (100 * Spec.media scores))

/-- The last two decimal digits of a year, as a string. -/
def ultimosDoisDigitos (ano : Nat) : String :=
  String.mk [Nat.digitChar (ano / 10 % 10), Nat.digitChar (ano % 10)]

/-- The rows of a January audit 3 whose answers are NE or absent. -/
def linhasSemResposta : List Row :=
  [linha 3 0 1 1 (some Status.NE), linha 3 0 4 7 none]

/-- The rows of a February audit whose answers are NE or absent. -/
def linhasFevereiroSemResposta : List Row :=
  [linha 5 1 1 1 (some Status.NE), linha 5 1 2 2 none]

/-! ## Detail assembler `listaAuditoriaPorID` (lines 73-147) -/

/-- JavaScript truthiness of an id: `null`, `undefined` and the number 0 are falsy. -/
def truthy (id : Option Nat) : Bool :=
  match id with
  | some n => n != 0
  | none => false

/-- One row of `AuditoriasModel.listaAuditoriaPorID`, with the columns read by the service;
the display orders are numbers. -/
structure LinhaDetalhe where
  id_auditoria : Option Nat
  dt_auditoria : JSDate
  observacao : String
  nome_auditor : String
  st_auditoria : String
  id_cliente : Option Nat
  nome_cliente : String
  cnpj : String
  cliente_responsavel : String
  cliente_telefone : String
  id_topico : Option Nat
  nome_tema : String
  requisitos : String
  ordem_topico : Int
  id_pergunta : Option Nat
  descricao_pergunta : String
  ordem_pergunta : Int
  st_pergunta : Option Status
  comentario : Option String
  caminhos_fotos : Option String
deriving DecidableEq, Repr

/-- Lines 89-95: `auditoriaInfo`. -/
structure AuditoriaInfo where
  id : Option Nat
  dt_auditoria : JSDate
  observacao : String
  auditorResponsavel : String
  st_auditoria : String
deriving DecidableEq, Repr

/-- Lines 96-102: `clienteInfo`. -/
structure ClienteInfo where
  id : Option Nat
  razao_social : String
  cnpj : String
  responsavel : String
  telefone : String
deriving DecidableEq, Repr

/-- Lines 126-130: element of `perguntas`: `{ id, descricao_pergunta, ordem_pergunta }`. -/
structure PerguntaDetalhe where
  id : Option Nat
  descricao_pergunta : String
  ordem_pergunta : Int
deriving DecidableEq, Repr

/-- Lines 115-121: value of `topicosMap`:
`{ id, nome_tema, requisitos, ordem_topico, perguntas }`. -/
structure TopicoDetalhe where
  id : Option Nat
  nome_tema : String
  requisitos : String
  ordem_topico : Int
  perguntas : List PerguntaDetalhe
deriving DecidableEq, Repr

/-- Lines 88-107: the object `resultado`; the three plain objects keyed by question id are
association lists read with `JSMap.get` (an absent key reads `undefined`). -/
structure Detalhe where
  auditoriaInfo : AuditoriaInfo
  clienteInfo : ClienteInfo
  topicos : List TopicoDetalhe
  respostas : JSMap (Option Nat) Status
  observacoes : JSMap (Option Nat) String
  fotos : JSMap (Option Nat) (List String)
deriving DecidableEq, Repr

/-- The pieces of a character list between its commas. -/
def splitVirgula : List Char → List (List Char)
  | [] => [[]]
  | c :: cs =>
    if c = ',' then [] :: splitVirgula cs
    else
      match splitVirgula cs with
      | h :: t => (c :: h) :: t
      | [] => [[c]]

/-- The call `s.split(',')`. -/
def jsSplit (s : String) : List String := (splitVirgula s.data).map String.mk

/-- Line 137: `row.comentario || ''`. -/
def comentarioOuVazio (comentario : Option String) : String :=
  match comentario with
  | some c => if c = "" then "" else c
  | none => ""

/-- Line 138: `row.caminhos_fotos ? row.caminhos_fotos.split(',') : []`. -/
def fotosDe (caminhos_fotos : Option String) : List String :=
  match caminhos_fotos with
  | some c => if c = "" then [] else jsSplit c
  | none => []

/-- The variables the loop over `dados` writes: `topicosMap` and the three objects of
`resultado`. -/
structure EstadoDetalhe where
  topicosMap : JSMap (Option Nat) TopicoDetalhe
  respostas : JSMap (Option Nat) Status
  observacoes : JSMap (Option Nat) String
  fotos : JSMap (Option Nat) (List String)
deriving DecidableEq

/-- Line 112: the row is not skipped, both linking ids are truthy. -/
def LinhaDetalhe.valida (row : LinhaDetalhe) : Bool :=
  truthy row.id_topico && truthy row.id_pergunta

/-- Lines 114-122: `topicosMap` once the topic of the row is present. -/
def garantirTopico (topicosMap : JSMap (Option Nat) TopicoDetalhe) (row : LinhaDetalhe) :
    JSMap (Option Nat) TopicoDetalhe :=
  if !(JSMap.has topicosMap row.id_topico) then
    JSMap.set topicosMap row.id_topico
      { id := row.id_topico
        nome_tema := row.nome_tema
        requisitos := row.requisitos
        ordem_topico := row.ordem_topico
        perguntas := [] }
  else topicosMap

/-- Lines 124-125: `!topicoAtual.perguntas.some(p => p.id === row.id_pergunta)`, where
`topicoAtual` is `topicosMap.get(row.id_topico)` after lines 114-122. -/
def perguntaNova (topicosMap : JSMap (Option Nat) TopicoDetalhe) (row : LinhaDetalhe) : Bool :=
  match JSMap.get (garantirTopico topicosMap row) row.id_topico with
  | some topicoAtual => !(topicoAtual.perguntas.any (fun p => decide (p.id = row.id_pergunta)))
  | none => false

/-- Lines 111-140: the body of `dados.forEach`. -/
def processarRow (st : EstadoDetalhe) (row : LinhaDetalhe) : EstadoDetalhe :=
  if !(truthy row.id_topico) || !(truthy row.id_pergunta) then st
  else
    let st1 : EstadoDetalhe :=
      if perguntaNova st.topicosMap row then
        { topicosMap :=
            JSMap.update (garantirTopico st.topicosMap row) row.id_topico (fun topicoAtual =>
              { topicoAtual with
                perguntas := topicoAtual.perguntas ++
                  [{ id := row.id_pergunta
                     descricao_pergunta := row.descricao_pergunta
                     ordem_pergunta := row.ordem_pergunta }] })
          respostas := st.respostas
          observacoes := JSMap.set st.observacoes row.id_pergunta ""
          fotos := JSMap.set st.fotos row.id_pergunta [] }
      else { st with topicosMap := garantirTopico st.topicosMap row }
    match row.st_pergunta with
    | some s =>
      { st1 with
        respostas := JSMap.set st1.respostas row.id_pergunta s
        observacoes := JSMap.set st1.observacoes row.id_pergunta
          (comentarioOuVazio row.comentario)
        fotos := JSMap.set st1.fotos row.id_pergunta (fotosDe row.caminhos_fotos) }
    | none => st1

/-- Lines 143-144: `Array.prototype.sort` with the comparator `(a, b) => ordem(a) - ordem(b)`
on numbers: the stable ascending sort. -/
def sortPorOrdem {α : Type} (ordem : α → Int) (l : List α) : List α :=
  l.insertionSort (fun a b => ordem a ≤ ordem b)

/-- Line 144: the callback `t => t.perguntas.sort(...)`, which sorts `t.perguntas` in place. -/
def ordenarPerguntas (t : TopicoDetalhe) : TopicoDetalhe :=
  { t with perguntas := sortPorOrdem (fun p => p.ordem_pergunta) t.perguntas }

/-- The state of the loop before the first row: empty `topicosMap`, `respostas`,
`observacoes` and `fotos`. -/
def estadoInicial : EstadoDetalhe :=
  { topicosMap := [], respostas := [], observacoes := [], fotos := [] }

/-- Lines 73-147: `listaAuditoriaPorID` on the rows `dados` returned by the model;
`none` is `null`. -/
def listaAuditoriaPorID (dados : List LinhaDetalhe) : Option Detalhe :=
  match dados with
  | [] => none
  | infoRow :: _ =>
    if !(truthy infoRow.id_auditoria) || !(truthy infoRow.id_cliente) then none
    else
      let st := dados.foldl processarRow estadoInicial
      some
        { auditoriaInfo :=
            { id := infoRow.id_auditoria
              dt_auditoria := infoRow.dt_auditoria
              observacao := infoRow.observacao
              auditorResponsavel := infoRow.nome_auditor
              st_auditoria := infoRow.st_auditoria }
          clienteInfo :=
            { id := infoRow.id_cliente
              razao_social := infoRow.nome_cliente
              cnpj := infoRow.cnpj
              responsavel := infoRow.cliente_responsavel
              telefone := infoRow.cliente_telefone }
          topicos :=
            (sortPorOrdem (fun t => t.ordem_topico) (JSMap.values st.topicosMap)).map
              ordenarPerguntas
          respostas := st.respostas
          observacoes := st.observacoes
          fotos := st.fotos }

/-- A row of audit 7 and client 3 for topic `T` (display order `oT`) and question `q`
(display order `oq`). -/
def linhaDetalhe (T : Nat) (oT : Int) (q : Nat) (oq : Int) (st : Option Status)
    (comentario caminhos : Option String) : LinhaDetalhe :=
  { id_auditoria := some 7
    dt_auditoria := JSDate.valid 2024 0 15
    observacao := "geral"
    nome_auditor := "Ana"
    st_auditoria := "A"
    id_cliente := some 3
    nome_cliente := "Cliente"
    cnpj := "00"
    cliente_responsavel := "Rui"
    cliente_telefone := "11"
    id_topico := some T
    nome_tema := "Tema"
    requisitos := "Req"
    ordem_topico := oT
    id_pergunta := some q
    descricao_pergunta := "Pergunta"
    ordem_pergunta := oq
    st_pergunta := st
    comentario := comentario
    caminhos_fotos := caminhos }

/-- Rows for topic ids 2 and 1 with display orders 2 and 1. -/
def linhasTopicos21 : List LinhaDetalhe :=
  [linhaDetalhe 2 2 5 1 (some Status.CF) (some "ok") (some "a.jpg,b.jpg"),
   linhaDetalhe 1 1 4 2 none (some "ignorado") (some "c.jpg"),
   linhaDetalhe 1 1 3 1 (some Status.NC) none none]

/-- Lines 115-121: the topic object created for the first valid row of a topic. -/
def novoTopicoDetalhe (row : LinhaDetalhe) : TopicoDetalhe :=
  { id := row.id_topico
    nome_tema := row.nome_tema
    requisitos := row.requisitos
    ordem_topico := row.ordem_topico
    perguntas := [] }

/-- Lines 126-130: the question object pushed for a row. -/
def perguntaDetalheDe (row : LinhaDetalhe) : PerguntaDetalhe :=
  { id := row.id_pergunta
    descricao_pergunta := row.descricao_pergunta
    ordem_pergunta := row.ordem_pergunta }

/-- Lines 125-130: the effect of a valid row on the `perguntas` array of its topic. -/
def juntarPerguntaDetalhe (perguntas : List PerguntaDetalhe) (row : LinhaDetalhe) :
    List PerguntaDetalhe :=
  if !(perguntas.any (fun p => decide (p.id = row.id_pergunta))) then
    perguntas ++ [perguntaDetalheDe row]
  else perguntas

/-- Lines 114-130: the effect of a valid row on `topicosMap`. -/
def passoTopicoDetalhe (topicosMap : JSMap (Option Nat) TopicoDetalhe) (row : LinhaDetalhe) :
    JSMap (Option Nat) TopicoDetalhe :=
  JSMap.upsert topicosMap row.id_topico (novoTopicoDetalhe row)
    (fun t => { t with perguntas := juntarPerguntaDetalhe t.perguntas row })

/-- The valid rows (both linking ids truthy), in input order. -/
def linhasValidas (dados : List LinhaDetalhe) : List LinhaDetalhe :=
  dados.filter (fun r => r.valida)

/-- The valid rows of topic `T`, in input order. -/
def linhasValidasTopico (dados : List LinhaDetalhe) (T : Option Nat) : List LinhaDetalhe :=
  (linhasValidas dados).filter (fun r => decide (r.id_topico = T))

/-- The topic object the loop builds for topic `T`, before sorting. -/
def topicoDetalheDe (dados : List LinhaDetalhe) (T : Option Nat) : TopicoDetalhe :=
  { id := T
    nome_tema := ((linhasValidasTopico dados T).head?.map (fun r => r.nome_tema)).getD ""
    requisitos := ((linhasValidasTopico dados T).head?.map (fun r => r.requisitos)).getD ""
    ordem_topico := ((linhasValidasTopico dados T).head?.map (fun r => r.ordem_topico)).getD 0
    perguntas := (linhasValidasTopico dados T).foldl juntarPerguntaDetalhe [] }

/-- The loop state after the rows `dados`. -/
def estadoFinal (dados : List LinhaDetalhe) : EstadoDetalhe :=
  dados.foldl processarRow estadoInicial

/-- Every question of `topicosMap` has an entry in `observacoes` and in `fotos`. -/
def entradasPresentes (st : EstadoDetalhe) : Prop :=
  ∀ T t, JSMap.get st.topicosMap T = some t → ∀ p ∈ t.perguntas,
    (JSMap.get st.observacoes p.id).isSome = true ∧ (JSMap.get st.fotos p.id).isSome = true

/-! ## `overallResult` of `front-rto/src/pages/ResumoRto.jsx` (lines 107-116) -/

/-- Lines 107-116: `overallResult`; `dadosConsolidados` is `null` (`none`) until the dashboard
is loaded, `typeof r === 'number'` keeps the non-null `resultado` values.  The `resultado`
values are integers, so `sum` is an integer and the mean `sum / length` is taken exactly. -/
def overallResult (dadosConsolidados : Option Dashboard) : Option Int :=
  match dadosConsolidados with
  | none => none
  | some dados =>
    let validResults := (dados.resultadosMensais.map (fun r => r.resultado)).filterMap id
    if validResults.length > 0 then
      let sum : Int := validResults.foldl (fun acc curr => acc + curr) 0
      some (mathRound ((sum : ℚ) / (validResults.length : ℚ)))
    else none

/-- The `resultado` values of a dashboard that are numbers. -/
def Spec.resultadosNumericos (d : Dashboard) : List Int :=
  d.resultadosMensais.filterMap (fun r => r.resultado)

/-- A dashboard whose numeric monthly results are 70 and 61. -/
def dashboardExemplo : Dashboard :=
  { processos := []
    resultadosMensais :=
      [{ mes := "JAN/24", resultado := some 70 }, { mes := "FEV/24", resultado := none },
       { mes := "MAR/24", resultado := some 61 }] }

/-! ## Concrete rows for the detail assembler -/

/-- A first row lacking both the audit id and the client id. -/
def linhasSemIds : List LinhaDetalhe :=
  [{ linhaDetalhe 1 1 1 1 none none none with id_auditoria := none, id_cliente := none }]

/-- Three rows with equal display orders; the first mentions topic 2 but lacks the question
id. -/
def linhasOrdemIgual : List LinhaDetalhe :=
  [{ linhaDetalhe 2 1 9 1 none none none with id_pergunta := none },
   linhaDetalhe 1 1 1 1 none none none,
   linhaDetalhe 2 1 2 1 none none none]

/-- Two rows of topic 1 with different names; the first lacks the question id. -/
def linhasNomeDiferente : List LinhaDetalhe :=
  [{ linhaDetalhe 1 1 9 1 none none none with id_pergunta := none, nome_tema := "X" },
   { linhaDetalhe 1 1 1 1 none none none with nome_tema := "Y" }]

/-- Question 1 under topic 1 and under topic 2, with different texts. -/
def linhasPerguntaDoisTopicos : List LinhaDetalhe :=
  [{ linhaDetalhe 1 1 1 1 none none none with descricao_pergunta := "A" },
   { linhaDetalhe 2 2 1 1 none none none with descricao_pergunta := "B" }]

/-- Rows of which the second lacks the topic id and the third has question id 0. -/
def linhasComInvalidas : List LinhaDetalhe :=
  [linhaDetalhe 1 1 1 1 (some Status.CF) none none,
   { linhaDetalhe 1 1 2 2 (some Status.NC) none none with id_topico := none },
   linhaDetalhe 1 1 0 3 (some Status.PC) none none]

/-- The row has a topic id and a question id (neither is `null`). -/
def LinhaDetalhe.temIds (row : LinhaDetalhe) : Bool :=
  row.id_topico.isSome && row.id_pergunta.isSome

/-- The result of `listaAuditoriaPorID` on `linhasTopicos21`. -/
def detalheTopicos21 : Detalhe :=
  (listaAuditoriaPorID linhasTopicos21).get (by decide)

/-- A single row whose first row has the audit id but no client id. -/
def linhasSoAuditoria : List LinhaDetalhe :=
  [{ linhaDetalhe 1 1 1 1 (some Status.CF) none none with id_cliente := none }]

/-- A single row whose client id is the number 0. -/
def linhasClienteZero : List LinhaDetalhe :=
  [{ linhaDetalhe 1 1 1 1 (some Status.CF) none none with id_cliente := some 0 }]

/-- An id is falsy: `null` (or `undefined`), or the number 0. -/
def idFalsy (id : Option Nat) : Prop := id = none ∨ id = some 0

instance (id : Option Nat) : Decidable (idFalsy id) := by
  unfold idFalsy
  infer_instance

/-- The month cell `p[meses[M]]` of one entry of `processos`; `none` when there is no such
field. -/
def ProcessoFormatado.celula (p : ProcessoFormatado) (M : Nat) : Option (Option Int) :=
  (meses[M]?).bind (fun mes => p.campo mes)

/-! ## Improving one answer -/

/-- Lines 212-220: the points an answer adds to `somaPontosTopico`. -/
def pontosStatus (st : Option Status) : ℚ :=
  match st with
  | some Status.CF => 1
  | some Status.PC => 1 / 2
  | _ => 0

/-- Replacing the answer `antes` by `depois` improves it: NC by PC or CF, or PC by CF. -/
def melhora (antes : Option Status) (depois : Status) : Prop :=
  (antes = some Status.NC ∧ (depois = Status.PC ∨ depois = Status.CF)) ∨
    (antes = some Status.PC ∧ depois = Status.CF)

instance (antes : Option Status) (depois : Status) : Decidable (melhora antes depois) := by
  unfold melhora
  infer_instance

/-- The row with its answer replaced by `s`. -/
def Row.comStatus (r : Row) (s : Status) : Row := { r with st_pergunta := some s }

/-- An output value is not lowered and a number is not turned into `null`. -/
def naoDiminui (antes depois : Option Int) : Prop :=
  antes = none ∨ ∃ a b, antes = some a ∧ depois = some b ∧ a ≤ b

/-- An intermediate score stays `null`, or stays a number that is not lowered. -/
def mesmoOuMaior (antes depois : Option ℚ) : Prop :=
  (antes = none ∧ depois = none) ∨ ∃ a b, antes = some a ∧ depois = some b ∧ a ≤ b

/-- A change of the rows that keeps ids and date, never lowers the points of an answer and
keeps whether it counts as an answer. -/
def melhoraLinhas (f : Row → Row) : Prop :=
  ∀ x, (f x).auditoria_id = x.auditoria_id ∧ (f x).dt_auditoria = x.dt_auditoria ∧
    (f x).topico_id = x.topico_id ∧ (f x).pergunta_id = x.pergunta_id ∧
    pontosStatus x.st_pergunta ≤ pontosStatus (f x).st_pergunta ∧
    (respondida (f x).st_pergunta ↔ respondida x.st_pergunta)

/-- Replace the row `r` by `r'` and leave every other row. -/
def trocar (r r' : Row) (x : Row) : Row := if x = r then r' else x

/-! ## The specification's formulas evaluated in double arithmetic, in the service's order -/

/-- Lines 211-221 on the answer of one question: `+= 1` for CF, `+= 0.5` for PC, and the
counter `++` for CF, PC and NC. -/
def Spec.pontuarDouble (acc : ℚ × ℚ) (st : Option Status) : ℚ × ℚ :=
  match st with
  | some Status.CF => (jsAdd acc.1 1, jsAdd acc.2 1)
  | some Status.PC => (jsAdd acc.1 (1 / 2), jsAdd acc.2 1)
  | some Status.NC => (acc.1, jsAdd acc.2 1)
  | _ => acc

/-- TopicScore in doubles: points and count accumulated over the distinct questions of `T`
in `A`, in input order, then divided; `none` (null) when no question is answered CF, PC or
NC. -/
def Spec.TopicScoreDouble (rows : List Row) (T : Option Nat) (A : Nat) : Option ℚ :=
  let pontos := ((Spec.perguntasDistintas rows T A).map (fun r => r.st_pergunta)).foldl
    Spec.pontuarDouble (0, 0)
  if 0 < pontos.2 then some (fl (pontos.1 / pontos.2)) else none

/-- The double sum of a list: the elements added one by one, from 0. -/
def Spec.somaDouble (l : List ℚ) : ℚ := l.foldl jsAdd 0

/-- The double counter after one `++` per element of a list, from 0. -/
def Spec.contagemDouble (l : List ℚ) : ℚ := l.foldl (fun c _ => jsAdd c 1) 0

/-- The double mean of a list, `none` for the empty list. -/
def Spec.mediaDouble (l : List ℚ) : Option ℚ :=
  if l = [] then none else some (fl (Spec.somaDouble l / Spec.contagemDouble l))

/-- The rounded percentage `Math.round(mean * 100)` of a list, `none` for the empty list. -/
def Spec.percentualDouble (l : List ℚ) : Option Int :=
  (Spec.mediaDouble l).map (fun m => mathRound (fl (m * 100)))

/-- The audits dated in month `M`, in order of first appearance in the rows. -/
def Spec.auditoriasPorOrdem (rows : List Row) (M : Nat) : List Nat :=
  (chaves (rows.map (fun r => r.auditoria_id))).filter
    (fun A => decide (Spec.mesAuditoria rows A = some M))

/-- The topic ids of audit `A`, in order of first appearance in the rows. -/
def Spec.topicosPorOrdem (rows : List Row) (A : Nat) : List (Option Nat) :=
  chaves ((rows.filter (fun r => decide (r.auditoria_id = A))).map (fun r => r.topico_id))

/-- The audit's own average in doubles: the double mean of its non-null TopicScores, topics
in order of first appearance. -/
def Spec.mediaAuditoriaDouble (rows : List Row) (A : Nat) : Option ℚ :=
  Spec.mediaDouble ((Spec.topicosPorOrdem rows A).filterMap
    (fun T => Spec.TopicScoreDouble rows T A))

/-- The (topic, month) cell in doubles: the rounded percentage of the double mean of the
non-null TopicScores of the audits of the month, audits in order of first appearance. -/
def Spec.celulaDouble (rows : List Row) (T : Option Nat) (M : Nat) : Option Int :=
  Spec.percentualDouble ((Spec.auditoriasPorOrdem rows M).filterMap
    (Spec.TopicScoreDouble rows T))

/-- The monthly overall in doubles: the rounded percentage of the double mean of the audit
averages of the eligible audits of the month, audits in order of first appearance. -/
def Spec.resultadoMensalDouble (rows : List Row) (M : Nat) : Option Int :=
  Spec.percentualDouble ((Spec.auditoriasPorOrdem rows M).filterMap
    (Spec.mediaAuditoriaDouble rows))

/-- On these rows no rounding error surfaces: every cell and every monthly result of
`listarDashboard` equals the value of the specification's formula in exact arithmetic. -/
def semErroDeArredondamento (rows : List Row) (ano : Nat) : Prop :=
  (∀ T ∈ rows.map (fun r => r.topico_id), ∀ M, M < 12 →
      (listarDashboard rows ano).celula T M = some (Spec.celula rows T M)) ∧
    ∀ M, M < 12 → (listarDashboard rows ano).resultado M = some (Spec.resultadoMensal rows M)

instance (rows : List Row) (ano : Nat) : Decidable (semErroDeArredondamento rows ano) := by
  unfold semErroDeArredondamento
  infer_instance

/-! ## Concrete inputs on which double rounding shows -/

/-- One January audit whose topic 1 has 11 answers CF, one PC and 8 NC: the exact score is
23/40, the exact percentage 57.5. -/
def linhasMeioPonto : List Row :=
  (List.range 11).map (fun q => linha 1 0 1 (q + 1) (some Status.CF)) ++
    [linha 1 0 1 12 (some Status.PC)] ++
    (List.range 8).map (fun q => linha 1 0 1 (q + 13) (some Status.NC))

/-- Two January audits with one topic each: audit 1 scores 1/4 (one CF, three NC), audit 2
scores 9/10 (nine CF, one NC); the exact mean is 23/40. -/
def linhasQuartoNoveDecimos : List Row :=
  [linha 1 0 1 1 (some Status.CF), linha 1 0 1 2 (some Status.NC),
   linha 1 0 1 3 (some Status.NC), linha 1 0 1 4 (some Status.NC)] ++
    (List.range 9).map (fun q => linha 2 0 1 (q + 1) (some Status.CF)) ++
    [linha 2 0 1 10 (some Status.NC)]

/-- The rows of a January audit `A` whose topic 1 has `cf` answers CF and `nc` answers NC. -/
def linhasAuditoriaCFNC (A cf nc : Nat) : List Row :=
  (List.range cf).map (fun q => linha A 0 1 (q + 1) (some Status.CF)) ++
    (List.range nc).map (fun q => linha A 0 1 (cf + q + 1) (some Status.NC))

/-- Three January audits scoring 2/3, 7/8 and 1/3 for topic 1, in the order 1, 2, 3. -/
def linhasTresAuditorias : List Row :=
  linhasAuditoriaCFNC 1 2 1 ++ linhasAuditoriaCFNC 2 7 1 ++ linhasAuditoriaCFNC 3 1 2

/-- The rows of `linhasTresAuditorias` with the audits in the order 1, 3, 2. -/
def linhasTresAuditoriasPermutadas : List Row :=
  linhasAuditoriaCFNC 1 2 1 ++ linhasAuditoriaCFNC 3 1 2 ++ linhasAuditoriaCFNC 2 7 1

/-! ## Lemmas -/

section JSMapLemmas

variable {κ ν : Type} [DecidableEq κ]

theorem JSMap.get_set (m : JSMap κ ν) (k k' : κ) (v : ν) :
    JSMap.get (JSMap.set m k v) k' = if k = k' then some v else JSMap.get m k' := by
  induction m with
  | nil => simp [JSMap.set, JSMap.get]
  | cons e m ih =>
    obtain ⟨k0, v0⟩ := e
    by_cases h : k0 = k
    · subst h
      by_cases h' : k0 = k' <;> simp [JSMap.set, JSMap.get, h']
    · by_cases h' : k0 = k'
      · subst h'
        have : ¬ k = k0 := fun e => h e.symm
        simp [JSMap.set, JSMap.get, h, this]
      · simp [JSMap.set, JSMap.get, h, h', ih]

theorem JSMap.get_update (m : JSMap κ ν) (k k' : κ) (f : ν → ν) :
    JSMap.get (JSMap.update m k f) k' =
      if k = k' then (JSMap.get m k').map f else JSMap.get m k' := by
  induction m with
  | nil => simp [JSMap.update, JSMap.get]
  | cons e m ih =>
    obtain ⟨k0, v0⟩ := e
    by_cases h : k0 = k
    · subst h
      by_cases h' : k0 = k' <;> simp [JSMap.update, JSMap.get, h']
    · by_cases h' : k0 = k'
      · subst h'
        have : ¬ k = k0 := fun e => h e.symm
        simp [JSMap.update, JSMap.get, h, this]
      · simp [JSMap.update, JSMap.get, h, h', ih]

theorem JSMap.get_upsert (m : JSMap κ ν) (k k' : κ) (init : ν) (f : ν → ν) :
    JSMap.get (JSMap.upsert m k init f) k' =
      if k = k' then some (f ((JSMap.get m k).getD init)) else JSMap.get m k' := by
  unfold JSMap.upsert JSMap.has
  by_cases h : k = k'
  · subst h
    cases hg : JSMap.get m k <;> simp [JSMap.get_update, JSMap.get_set, hg]
  · cases hg : JSMap.get m k <;> simp [JSMap.get_update, JSMap.get_set, hg, h]

theorem JSMap.get_isSome_iff (m : JSMap κ ν) (k : κ) :
    (JSMap.get m k).isSome = true ↔ k ∈ JSMap.keys m := by
  induction m with
  | nil => simp [JSMap.get, JSMap.keys]
  | cons e m ih =>
    obtain ⟨k0, v0⟩ := e
    by_cases h : k0 = k
    · subst h; simp [JSMap.get, JSMap.keys]
    · have : ¬ k = k0 := fun e => h e.symm
      simp only [JSMap.keys] at ih
      simp [JSMap.get, JSMap.keys, h, this, ih]

theorem JSMap.get_eq_none_iff (m : JSMap κ ν) (k : κ) :
    JSMap.get m k = none ↔ k ∉ JSMap.keys m := by
  rw [← JSMap.get_isSome_iff]
  cases JSMap.get m k <;> simp

theorem JSMap.keys_update (m : JSMap κ ν) (k : κ) (f : ν → ν) :
    JSMap.keys (JSMap.update m k f) = JSMap.keys m := by
  induction m with
  | nil => rfl
  | cons e m ih =>
    obtain ⟨k0, v0⟩ := e
    simp only [JSMap.keys] at ih
    by_cases h : k0 = k <;> simp [JSMap.update, JSMap.keys, h, ih]

theorem JSMap.keys_set (m : JSMap κ ν) (k : κ) (v : ν) :
    JSMap.keys (JSMap.set m k v) = inserirChave (JSMap.keys m) k := by
  induction m with
  | nil => simp [JSMap.set, JSMap.keys, inserirChave]
  | cons e m ih =>
    obtain ⟨k0, v0⟩ := e
    simp only [JSMap.keys, inserirChave] at ih
    by_cases h : k0 = k
    · subst h; simp [JSMap.set, JSMap.keys, inserirChave]
    · have h2 : ¬ k = k0 := fun e => h e.symm
      simp only [JSMap.set, JSMap.keys, inserirChave, h, if_false, List.map_cons, ih,
        List.mem_cons, h2, false_or]
      split <;> simp

theorem JSMap.keys_upsert (m : JSMap κ ν) (k : κ) (init : ν) (f : ν → ν) :
    JSMap.keys (JSMap.upsert m k init f) = inserirChave (JSMap.keys m) k := by
  unfold JSMap.upsert JSMap.has
  rw [JSMap.keys_update]
  by_cases h : k ∈ JSMap.keys m
  · have := (JSMap.get_isSome_iff m k).2 h
    simp [this, inserirChave, h]
  · have : (JSMap.get m k).isSome = false := by
      cases hg : (JSMap.get m k).isSome
      · rfl
      · exact absurd ((JSMap.get_isSome_iff m k).1 hg) h
    simp [this, JSMap.keys_set]

theorem JSMap.values_eq_filterMap (m : JSMap κ ν) (h : (JSMap.keys m).Nodup) :
    JSMap.values m = (JSMap.keys m).filterMap (JSMap.get m) := by
  induction m with
  | nil => rfl
  | cons e m ih =>
    obtain ⟨k0, v0⟩ := e
    simp only [JSMap.keys, List.map_cons, List.nodup_cons] at h
    have ih' := ih h.2
    simp only [JSMap.values, JSMap.keys] at ih' ⊢
    simp only [List.map_cons, List.filterMap_cons, JSMap.get, if_true]
    congr 1
    rw [ih']
    apply List.filterMap_congr
    intro k hk
    have : ¬ k0 = k := by rintro rfl; exact h.1 hk
    simp [this]

theorem mem_inserirChave (ks : List κ) (k x : κ) :
    x ∈ inserirChave ks k ↔ x ∈ ks ∨ x = k := by
  unfold inserirChave
  split
  · constructor
    · exact Or.inl
    · rintro (h | rfl) <;> assumption
  · simp

theorem nodup_inserirChave (ks : List κ) (k : κ) (h : ks.Nodup) :
    (inserirChave ks k).Nodup := by
  unfold inserirChave
  split
  · exact h
  · rename_i hk
    rw [List.nodup_append]
    refine ⟨h, List.nodup_singleton k, ?_⟩
    intro a ha hb
    simp at hb
    subst hb
    exact hk ha

theorem mem_foldl_inserirChave (xs ks : List κ) (x : κ) :
    x ∈ xs.foldl inserirChave ks ↔ x ∈ ks ∨ x ∈ xs := by
  induction xs generalizing ks with
  | nil => simp
  | cons y ys ih =>
    simp only [List.foldl_cons, ih, mem_inserirChave, List.mem_cons]
    tauto

theorem nodup_foldl_inserirChave (xs ks : List κ) (h : ks.Nodup) :
    (xs.foldl inserirChave ks).Nodup := by
  induction xs generalizing ks with
  | nil => exact h
  | cons y ys ih => exact ih _ (nodup_inserirChave ks y h)

theorem mem_chaves (xs : List κ) (x : κ) : x ∈ chaves xs ↔ x ∈ xs := by
  simp [chaves, mem_foldl_inserirChave]

theorem nodup_chaves (xs : List κ) : (chaves xs).Nodup :=
  nodup_foldl_inserirChave xs [] List.nodup_nil

end JSMapLemmas

section FoldLemmas

theorem foldl_proj {σ τ α : Type} (proj : σ → τ) (step : σ → α → σ) (step' : τ → α → τ)
    (h : ∀ s x, proj (step s x) = step' (proj s) x) (xs : List α) (s : σ) :
    proj (xs.foldl step s) = xs.foldl step' (proj s) := by
  induction xs generalizing s with
  | nil => rfl
  | cons x xs ih => simp only [List.foldl_cons, ih, h]

variable {α κ ν : Type} [DecidableEq κ]

theorem keys_foldl_upsert (key : α → κ) (init : α → ν) (upd : ν → α → ν)
    (xs : List α) (m : JSMap κ ν) :
    JSMap.keys (xs.foldl (fun m x => JSMap.upsert m (key x) (init x) (fun v => upd v x)) m) =
      (xs.map key).foldl inserirChave (JSMap.keys m) := by
  induction xs generalizing m with
  | nil => rfl
  | cons x xs ih => simp only [List.foldl_cons, List.map_cons, ih, JSMap.keys_upsert]

theorem get_foldl_upsert_of_some (key : α → κ) (init : α → ν) (upd : ν → α → ν) (k : κ)
    (xs : List α) (m : JSMap κ ν) (v : ν) (hv : JSMap.get m k = some v) :
    JSMap.get (xs.foldl (fun m x => JSMap.upsert m (key x) (init x) (fun v => upd v x)) m) k =
      some ((xs.filter (fun x => decide (key x = k))).foldl upd v) := by
  induction xs generalizing m v with
  | nil => simpa using hv
  | cons x xs ih =>
    simp only [List.foldl_cons]
    by_cases hk : key x = k
    · rw [ih _ (upd v x)]
      · simp [List.filter_cons, hk]
      · rw [JSMap.get_upsert, if_pos hk, hk, hv]; rfl
    · rw [ih _ v]
      · simp [List.filter_cons, hk]
      · rw [JSMap.get_upsert, if_neg hk, hv]

theorem get_foldl_upsert_of_none (key : α → κ) (init : α → ν) (upd : ν → α → ν) (k : κ)
    (xs : List α) (m : JSMap κ ν) (hv : JSMap.get m k = none) :
    JSMap.get (xs.foldl (fun m x => JSMap.upsert m (key x) (init x) (fun v => upd v x)) m) k =
      estadoChave init upd (xs.filter (fun x => decide (key x = k))) := by
  induction xs generalizing m with
  | nil => simpa [estadoChave] using hv
  | cons x xs ih =>
    simp only [List.foldl_cons]
    by_cases hk : key x = k
    · rw [get_foldl_upsert_of_some key init upd k xs _ (upd (init x) x)]
      · simp [List.filter_cons, hk, estadoChave]
      · rw [JSMap.get_upsert, if_pos hk, hk, hv]; rfl
    · rw [ih _ (by rw [JSMap.get_upsert, if_neg hk, hv])]
      simp [List.filter_cons, hk]

theorem get_foldl_upsert (key : α → κ) (init : α → ν) (upd : ν → α → ν) (k : κ)
    (xs : List α) :
    JSMap.get (xs.foldl (fun m x => JSMap.upsert m (key x) (init x) (fun v => upd v x)) []) k =
      estadoChave init upd (xs.filter (fun x => decide (key x = k))) :=
  get_foldl_upsert_of_none key init upd k xs [] rfl

end FoldLemmas

section Agrupamento

theorem agruparTopico_eq (topicos : JSMap (Option Nat) Topico) (row : Row) :
    agruparTopico topicos row =
      JSMap.upsert topicos row.topico_id (novoTopico row)
        (fun t => { t with perguntas := juntarPergunta t.perguntas row }) := by
  unfold agruparTopico JSMap.upsert novoTopico juntarPergunta
  dsimp only
  congr 1
  funext t
  split <;> rfl

theorem agruparTopico_fun :
    agruparTopico = fun topicos row =>
      JSMap.upsert topicos row.topico_id (novoTopico row)
        (fun t => { t with perguntas := juntarPergunta t.perguntas row }) := by
  funext topicos row
  exact agruparTopico_eq topicos row

theorem agruparRow_eq (m : JSMap Nat Auditoria) (row : Row) :
    agruparRow m row =
      JSMap.upsert m row.auditoria_id (novaAuditoria row)
        (fun a => { a with topicos := agruparTopico a.topicos row }) := rfl

theorem agruparRow_fun :
    agruparRow = fun m row =>
      JSMap.upsert m row.auditoria_id (novaAuditoria row)
        (fun a => { a with topicos := agruparTopico a.topicos row }) := by
  funext m row
  exact agruparRow_eq m row

theorem keys_auditoriasAgrupadas (rows : List Row) :
    JSMap.keys (auditoriasAgrupadas rows) = chaves (rows.map (fun r => r.auditoria_id)) := by
  unfold auditoriasAgrupadas chaves
  have := keys_foldl_upsert (fun r : Row => r.auditoria_id) novaAuditoria
    (fun a row => { a with topicos := agruparTopico a.topicos row }) rows []
  rw [agruparRow_fun]
  exact this

theorem keys_topicosAgrupados (rows : List Row) (A : Nat) :
    JSMap.keys (topicosAgrupados rows A) =
      chaves ((linhasAuditoria rows A).map (fun r => r.topico_id)) := by
  unfold topicosAgrupados chaves
  have := keys_foldl_upsert (fun r : Row => r.topico_id) novoTopico
    (fun t row => { t with perguntas := juntarPergunta t.perguntas row })
    (linhasAuditoria rows A) []
  rw [agruparTopico_fun]
  exact this

theorem foldl_topicos (rs : List Row) (a : Auditoria) :
    rs.foldl (fun a row => { a with topicos := agruparTopico a.topicos row }) a =
      { a with topicos := rs.foldl agruparTopico a.topicos } := by
  induction rs generalizing a with
  | nil => rfl
  | cons r rs ih => simp only [List.foldl_cons, ih]

theorem foldl_perguntas (rs : List Row) (t : Topico) :
    rs.foldl (fun t row => { t with perguntas := juntarPergunta t.perguntas row }) t =
      { t with perguntas := rs.foldl juntarPergunta t.perguntas } := by
  induction rs generalizing t with
  | nil => rfl
  | cons r rs ih => simp only [List.foldl_cons, ih]

theorem get_auditoriasAgrupadas (rows : List Row) (A : Nat)
    (hA : A ∈ rows.map (fun r => r.auditoria_id)) :
    JSMap.get (auditoriasAgrupadas rows) A = some (auditoriaAgrupada rows A) := by
  have h := get_foldl_upsert (fun r : Row => r.auditoria_id) novaAuditoria
    (fun a row => { a with topicos := agruparTopico a.topicos row }) A rows
  unfold auditoriasAgrupadas
  rw [agruparRow_fun, h]
  have hne : linhasAuditoria rows A ≠ [] := by
    obtain ⟨r, hr, hrA⟩ := List.mem_map.1 hA
    intro hnil
    have : r ∈ linhasAuditoria rows A := by
      simp [linhasAuditoria, List.mem_filter, hr, hrA]
    rw [hnil] at this
    exact absurd this (List.not_mem_nil _)
  unfold auditoriaAgrupada dataAuditoria topicosAgrupados
  have hy : ∀ y ∈ linhasAuditoria rows A, y.auditoria_id = A := by
    intro y hy
    simpa using (List.mem_filter.1 hy).2
  change estadoChave _ _ (linhasAuditoria rows A) = _
  cases hl : linhasAuditoria rows A with
  | nil => exact absurd hl hne
  | cons y ys =>
    have hyA : y.auditoria_id = A := hy y (by rw [hl]; exact List.mem_cons_self _ _)
    simp only [estadoChave, foldl_topicos, novaAuditoria, List.head?_cons, Option.map_some',
      Option.getD_some, hyA]

theorem get_topicosAgrupados (rows : List Row) (A : Nat) (T : Option Nat)
    (hT : T ∈ (linhasAuditoria rows A).map (fun r => r.topico_id)) :
    JSMap.get (topicosAgrupados rows A) T = some (topicoAgrupado rows A T) := by
  have h := get_foldl_upsert (fun r : Row => r.topico_id) novoTopico
    (fun t row => { t with perguntas := juntarPergunta t.perguntas row }) T
    (linhasAuditoria rows A)
  unfold topicosAgrupados
  rw [agruparTopico_fun, h]
  have hne : linhasTopico rows A T ≠ [] := by
    obtain ⟨r, hr, hrT⟩ := List.mem_map.1 hT
    intro hnil
    have : r ∈ linhasTopico rows A T := by
      simp [linhasTopico, List.mem_filter, hr, hrT]
    rw [hnil] at this
    exact absurd this (List.not_mem_nil _)
  unfold topicoAgrupado
  have hy : ∀ y ∈ linhasTopico rows A T, y.topico_id = T := by
    intro y hy
    simpa using (List.mem_filter.1 hy).2
  change estadoChave _ _ (linhasTopico rows A T) = _
  cases hl : linhasTopico rows A T with
  | nil => exact absurd hl hne
  | cons y ys =>
    have hyT : y.topico_id = T := hy y (by rw [hl]; exact List.mem_cons_self _ _)
    simp only [estadoChave, foldl_perguntas, novoTopico, List.head?_cons, Option.map_some',
      Option.getD_some, hyT]

end Agrupamento

section Doubles

theorem roundEven_intCast (n : Int) : roundEven (n : ℚ) = n := by
  unfold roundEven
  simp

theorem roundEven_mono (a b : ℚ) (h : a ≤ b) : roundEven a ≤ roundEven b := by
  have hf : ⌊a⌋ ≤ ⌊b⌋ := Int.floor_mono h
  have ha1 := Int.floor_le a
  have ha2 := Int.lt_floor_add_one a
  have hb1 := Int.floor_le b
  have hb2 := Int.lt_floor_add_one b
  rcases lt_or_eq_of_le hf with hlt | heq
  · unfold roundEven
    split_ifs <;> omega
  · unfold roundEven
    rw [← heq] at hb1 hb2 ⊢
    split_ifs <;> first | omega | (exfalso; linarith)

theorem cast_pow52 : (((2 : Int) ^ (52 : Nat) : Int) : ℚ) = (2 : ℚ) ^ (52 : Nat) := by
  norm_num

theorem cast_pow53 : (((2 : Int) ^ (53 : Nat) : Int) : ℚ) = (2 : ℚ) ^ (53 : Nat) := by
  norm_num

theorem ulp_pos (x : ℚ) : 0 < ulp x := by
  unfold ulp
  positivity

theorem ulp_mul (x : ℚ) : (2 : ℚ) ^ (52 : Nat) * ulp x = (2 : ℚ) ^ (Int.log 2 x) := by
  unfold ulp
  rw [← zpow_natCast, ← zpow_add₀ (by norm_num : (2 : ℚ) ≠ 0)]
  congr 1
  push_cast
  ring

theorem ulp_mul_succ (x : ℚ) : (2 : ℚ) ^ (53 : Nat) * ulp x = (2 : ℚ) ^ (Int.log 2 x + 1) := by
  unfold ulp
  rw [← zpow_natCast, ← zpow_add₀ (by norm_num : (2 : ℚ) ≠ 0)]
  congr 1
  push_cast
  ring

theorem zpow_log_le (x : ℚ) (hx : 0 < x) : (2 : ℚ) ^ (Int.log 2 x) ≤ x := by
  have := @Int.zpow_log_le_self ℚ _ _ 2 x (by norm_num) hx
  exact_mod_cast this

theorem lt_zpow_log_succ (x : ℚ) : x < (2 : ℚ) ^ (Int.log 2 x + 1) := by
  have := @Int.lt_zpow_succ_log_self ℚ _ _ 2 (by norm_num) x
  exact_mod_cast this

theorem roundEven_bounds (x : ℚ) (hx : 0 < x) :
    (2 : Int) ^ (52 : Nat) ≤ roundEven (x / ulp x) ∧
      roundEven (x / ulp x) ≤ (2 : Int) ^ (53 : Nat) := by
  have hu := ulp_pos x
  constructor
  · have h1 : (((2 : Int) ^ (52 : Nat) : Int) : ℚ) ≤ x / ulp x := by
      rw [le_div_iff₀ hu, cast_pow52, ulp_mul]
      exact zpow_log_le x hx
    have := roundEven_mono _ _ h1
    rwa [roundEven_intCast] at this
  · have h1 : x / ulp x ≤ (((2 : Int) ^ (53 : Nat) : Int) : ℚ) := by
      rw [div_le_iff₀ hu, cast_pow53, ulp_mul_succ]
      exact (lt_zpow_log_succ x).le
    have := roundEven_mono _ _ h1
    rwa [roundEven_intCast] at this

theorem flPos_bounds (x : ℚ) (hx : 0 < x) :
    (2 : ℚ) ^ (Int.log 2 x) ≤ flPos x ∧ flPos x ≤ (2 : ℚ) ^ (Int.log 2 x + 1) := by
  obtain ⟨h1, h2⟩ := roundEven_bounds x hx
  have hu := ulp_pos x
  unfold flPos
  constructor
  · rw [← ulp_mul]
    apply mul_le_mul_of_nonneg_right _ hu.le
    exact_mod_cast h1
  · rw [← ulp_mul_succ]
    apply mul_le_mul_of_nonneg_right _ hu.le
    exact_mod_cast h2

theorem flPos_zero : flPos 0 = 0 := by
  unfold flPos
  simp [roundEven]

theorem flPos_pos (x : ℚ) (hx : 0 < x) : 0 < flPos x :=
  lt_of_lt_of_le (by positivity) (flPos_bounds x hx).1

theorem flPos_nonneg (x : ℚ) (hx : 0 ≤ x) : 0 ≤ flPos x := by
  rcases lt_or_eq_of_le hx with h | h
  · exact (flPos_pos x h).le
  · rw [← h, flPos_zero]

theorem flPos_mono (x y : ℚ) (hx : 0 ≤ x) (h : x ≤ y) : flPos x ≤ flPos y := by
  rcases lt_or_eq_of_le hx with hx0 | hx0
  swap
  · rw [← hx0, flPos_zero]
    exact flPos_nonneg y (hx.trans h)
  have hy0 : 0 < y := lt_of_lt_of_le hx0 h
  have hlog : Int.log 2 x ≤ Int.log 2 y := Int.log_mono_right hx0 h
  rcases lt_or_eq_of_le hlog with hlt | heq
  · calc flPos x ≤ (2 : ℚ) ^ (Int.log 2 x + 1) := (flPos_bounds x hx0).2
      _ ≤ (2 : ℚ) ^ (Int.log 2 y) := zpow_le_zpow_right₀ (by norm_num) (by omega)
      _ ≤ flPos y := (flPos_bounds y hy0).1
  · have hu : ulp x = ulp y := by unfold ulp; rw [heq]
    unfold flPos
    rw [hu]
    apply mul_le_mul_of_nonneg_right _ (ulp_pos y).le
    have := roundEven_mono (x / ulp y) (y / ulp y)
      (div_le_div_of_nonneg_right h (ulp_pos y).le)
    exact_mod_cast this

theorem log_flPos (x : ℚ) (hx : 0 < x) (hr : roundEven (x / ulp x) < (2 : Int) ^ (53 : Nat)) :
    Int.log 2 (flPos x) = Int.log 2 x := by
  have hpos := flPos_pos x hx
  have h1 := (flPos_bounds x hx).1
  have h2 : flPos x < (2 : ℚ) ^ (Int.log 2 x + 1) := by
    rw [← ulp_mul_succ]
    unfold flPos
    apply mul_lt_mul_of_pos_right _ (ulp_pos x)
    exact_mod_cast hr
  apply le_antisymm
  · have := (@Int.lt_zpow_iff_log_lt ℚ _ _ 2 (by norm_num) _ _ hpos).1 (by exact_mod_cast h2)
    omega
  · exact (@Int.zpow_le_iff_le_log ℚ _ _ 2 (by norm_num) _ _ hpos).1 (by exact_mod_cast h1)

theorem flPos_flPos (x : ℚ) (hx : 0 ≤ x) : flPos (flPos x) = flPos x := by
  rcases lt_or_eq_of_le hx with hx0 | hx0
  swap
  · rw [← hx0, flPos_zero, flPos_zero]
  obtain ⟨h1, h2⟩ := roundEven_bounds x hx0
  rcases lt_or_eq_of_le h2 with hlt | heq
  · have hlog := log_flPos x hx0 hlt
    have hu : ulp (flPos x) = ulp x := by unfold ulp; rw [hlog]
    have hq : flPos x / ulp x = ((roundEven (x / ulp x) : Int) : ℚ) := by
      unfold flPos
      rw [mul_div_assoc, div_self (ulp_pos x).ne', mul_one]
    have hdef : flPos (flPos x) =
        roundEven (flPos x / ulp (flPos x)) * ulp (flPos x) := rfl
    rw [hdef, hu, hq, roundEven_intCast]
    rfl
  · have hv : flPos x = (2 : ℚ) ^ (Int.log 2 x + 1) := by
      rw [← ulp_mul_succ, ← cast_pow53, ← heq]
      rfl
    have hlog : Int.log 2 (flPos x) = Int.log 2 x + 1 := by
      rw [hv]
      have := @Int.log_zpow ℚ _ _ 2 (by norm_num) (Int.log 2 x + 1)
      exact_mod_cast this
    have hq : flPos x / ulp (flPos x) = (((2 : Int) ^ (52 : Nat) : Int) : ℚ) := by
      rw [div_eq_iff (ulp_pos _).ne', cast_pow52, ulp_mul, hlog, hv]
    have hdef : flPos (flPos x) =
        roundEven (flPos x / ulp (flPos x)) * ulp (flPos x) := rfl
    rw [hdef, hq, roundEven_intCast, cast_pow52, ulp_mul, hlog, hv]

theorem fl_of_nonneg (x : ℚ) (hx : 0 ≤ x) : fl x = flPos x := by
  unfold fl
  rw [if_neg (not_lt.2 hx)]

theorem fl_nonneg (x : ℚ) (hx : 0 ≤ x) : 0 ≤ fl x := by
  rw [fl_of_nonneg x hx]
  exact flPos_nonneg x hx

theorem fl_mono (x y : ℚ) (h : x ≤ y) : fl x ≤ fl y := by
  unfold fl
  by_cases hx : x < 0
  · by_cases hy : y < 0
    · rw [if_pos hx, if_pos hy]
      have := flPos_mono (-y) (-x) (by linarith) (by linarith)
      linarith
    · rw [if_pos hx, if_neg hy]
      have h1 := flPos_nonneg (-x) (by linarith)
      have h2 := flPos_nonneg y (not_lt.1 hy)
      linarith
  · have hy : ¬ y < 0 := by
      intro hy
      exact hx (lt_of_le_of_lt h hy)
    rw [if_neg hx, if_neg hy]
    exact flPos_mono x y (not_lt.1 hx) h

theorem fl_fl (x : ℚ) : fl (fl x) = fl x := by
  by_cases hx : x < 0
  · have hpos : 0 < flPos (-x) := flPos_pos (-x) (by linarith)
    have h1 : fl x = -flPos (-x) := by unfold fl; rw [if_pos hx]
    rw [h1]
    unfold fl
    rw [if_pos (by linarith), neg_neg, flPos_flPos (-x) (by linarith)]
  · have h0 := not_lt.1 hx
    rw [fl_of_nonneg x h0, fl_of_nonneg _ (flPos_nonneg x h0), flPos_flPos x h0]

theorem fl_zero : fl 0 = 0 := by decide!

theorem fl_one : fl 1 = 1 := by decide!

theorem fl_cem : fl 100 = 100 := by decide!

theorem fl_meio : fl (1 / 2) = 1 / 2 := by decide!

end Doubles

section Acumulacao

theorem JSMap.update_id {κ ν : Type} [DecidableEq κ] (m : JSMap κ ν) (k : κ) :
    JSMap.update m k (fun v => v) = m := by
  induction m with
  | nil => rfl
  | cons e m ih =>
    obtain ⟨k0, v0⟩ := e
    by_cases h : k0 = k <;> simp [JSMap.update, h, ih]

theorem processarTopico_eq (M : Option Nat) (st : EstadoAuditoria) (t : Topico) :
    processarTopico M st t =
      { processosTabela := passoProcessos st.processosTabela (M, t)
        somaPercentuaisAuditoria :=
          (acumular percentualTopico
            { soma := st.somaPercentuaisAuditoria, count := st.countTopicosAuditoria } t).soma
        countTopicosAuditoria :=
          (acumular percentualTopico
            { soma := st.somaPercentuaisAuditoria, count := st.countTopicosAuditoria }
            t).count } := by
  unfold processarTopico passoProcessos atualizarProcesso JSMap.upsert novoProcesso acumular
  cases hp : percentualTopico t with
  | none =>
    simp only
    rw [JSMap.update_id]
  | some pct =>
    simp only [somar]
    rfl

theorem foldl_acumular {α : Type} (g : α → Option ℚ) (xs : List α) (r : Acc) :
    xs.foldl (acumular g) r = (xs.filterMap g).foldl somar r := by
  induction xs generalizing r with
  | nil => rfl
  | cons x xs ih =>
    rw [List.foldl_cons, ih]
    unfold acumular
    cases hg : g x with
    | none => simp [List.filterMap_cons, hg]
    | some s => simp [List.filterMap_cons, hg]

theorem foldl_processarTopico (M : Option Nat) (ts : List Topico) (st : EstadoAuditoria) :
    ts.foldl (processarTopico M) st =
      { processosTabela := (ts.map (fun t => (M, t))).foldl passoProcessos st.processosTabela
        somaPercentuaisAuditoria :=
          ((ts.filterMap percentualTopico).foldl somar
            { soma := st.somaPercentuaisAuditoria, count := st.countTopicosAuditoria }).soma
        countTopicosAuditoria :=
          ((ts.filterMap percentualTopico).foldl somar
            { soma := st.somaPercentuaisAuditoria, count := st.countTopicosAuditoria }).count } := by
  rw [← foldl_acumular]
  induction ts generalizing st with
  | nil => rfl
  | cons t ts ih =>
    rw [List.foldl_cons, ih, processarTopico_eq]
    rfl

theorem processarAuditoria_eq (tab : Tabelas) (a : Auditoria) :
    processarAuditoria tab a =
      { processosTabela :=
          ((JSMap.values a.topicos).map (fun t => (a.dt_auditoria.getMonth, t))).foldl
            passoProcessos tab.processosTabela
        resultadosMensaisTabela := passoMensais tab.resultadosMensaisTabela a } := by
  unfold processarAuditoria passoMensais mediaAuditoria mediaDe acumulado percentuaisAuditoria
    JSMap.upsert
  simp only [foldl_processarTopico]
  split
  · rename_i h
    have h' : (List.foldl somar accZero (List.filterMap percentualTopico
        (JSMap.values a.topicos))).count > 0 := h
    simp only [dif_pos h']
    rfl
  · rename_i h
    have h' : ¬ (List.foldl somar accZero (List.filterMap percentualTopico
        (JSMap.values a.topicos))).count > 0 := h
    simp only [dif_neg h', JSMap.update_id]
    rfl

theorem foldl_processarAuditoria (as : List Auditoria) (tab : Tabelas) :
    as.foldl processarAuditoria tab =
      { processosTabela := (paresMesTopico as).foldl passoProcessos tab.processosTabela
        resultadosMensaisTabela := as.foldl passoMensais tab.resultadosMensaisTabela } := by
  induction as generalizing tab with
  | nil => rfl
  | cons a as ih =>
    rw [List.foldl_cons, ih, processarAuditoria_eq]
    simp [paresMesTopico, List.flatMap_cons, List.foldl_append]

theorem tabelas_eq (rows : List Row) :
    tabelas rows =
      { processosTabela := (paresMesTopico (auditoriasConsolidadas rows)).foldl passoProcessos []
        resultadosMensaisTabela := (auditoriasConsolidadas rows).foldl passoMensais [] } := by
  unfold tabelas
  rw [foldl_processarAuditoria]

theorem accCelula_passoProcessos (T M : Option Nat) (tabela : JSMap (Option Nat) Processo)
    (mt : Option Nat × Topico) :
    accCelula T M (passoProcessos tabela mt) =
      acumular (contribuicaoCelula T M) (accCelula T M tabela) mt := by
  obtain ⟨M0, t⟩ := mt
  unfold accCelula passoProcessos acumular contribuicaoCelula
  simp only [JSMap.get_upsert]
  by_cases hT : t.id = T
  · subst hT
    simp only [if_true, Option.some_bind, true_and]
    unfold atualizarProcesso
    cases hp : percentualTopico t with
    | none =>
      simp only [ite_self]
      cases hg : JSMap.get tabela t.id <;> simp [novoProcesso, JSMap.get]
    | some pct =>
      simp only [JSMap.get_upsert]
      by_cases hM : M0 = M
      · subst hM
        cases hg : JSMap.get tabela t.id <;> simp [novoProcesso, JSMap.get]
      · cases hg : JSMap.get tabela t.id <;> simp [novoProcesso, JSMap.get, hM]
  · simp [hT]

theorem accCelula_foldl (T M : Option Nat) (pares : List (Option Nat × Topico)) :
    accCelula T M (pares.foldl passoProcessos []) =
      acumulado (pares.filterMap (contribuicaoCelula T M)) := by
  rw [foldl_proj (accCelula T M) passoProcessos (acumular (contribuicaoCelula T M))
    (accCelula_passoProcessos T M), foldl_acumular]
  rfl

theorem getD_passoMensais (M : Option Nat) (tabela : JSMap (Option Nat) Acc) (a : Auditoria) :
    (JSMap.get (passoMensais tabela a) M).getD accZero =
      acumular (contribuicaoMensal M) ((JSMap.get tabela M).getD accZero) a := by
  unfold passoMensais acumular contribuicaoMensal
  simp only [JSMap.get_upsert]
  by_cases hM : a.dt_auditoria.getMonth = M
  · subst hM
    cases hm : mediaAuditoria a <;> simp
  · simp [hM]

theorem getD_foldl_passoMensais (M : Option Nat) (as : List Auditoria) :
    (JSMap.get (as.foldl passoMensais []) M).getD accZero =
      acumulado (as.filterMap (contribuicaoMensal M)) := by
  rw [foldl_proj (fun tabela => (JSMap.get tabela M).getD accZero) passoMensais
    (acumular (contribuicaoMensal M)) (getD_passoMensais M), foldl_acumular]
  rfl

theorem formatarResultado_getD (o : Option Acc) :
    formatarResultado o = formatarResultado (some (o.getD accZero)) := by
  cases o with
  | none => simp [formatarResultado, accZero]
  | some r => rfl

theorem formatarResultado_lista (l : List ℚ) :
    formatarResultado (some (acumulado l)) = percentualMedio l := rfl

end Acumulacao

section FormaFechada

theorem filterMap_get_eq_map {κ ν : Type} [DecidableEq κ] (m : JSMap κ ν) (f : κ → ν)
    (hk : (JSMap.keys m).Nodup) (hf : ∀ k ∈ JSMap.keys m, JSMap.get m k = some (f k)) :
    JSMap.values m = (JSMap.keys m).map f := by
  rw [JSMap.values_eq_filterMap m hk, ← List.filterMap_eq_map]
  apply List.filterMap_congr
  intro k hk'
  simp [hf k hk']

theorem auditoriasConsolidadas_eq (rows : List Row) :
    auditoriasConsolidadas rows =
      (chaves (rows.map (fun r => r.auditoria_id))).map (auditoriaAgrupada rows) := by
  unfold auditoriasConsolidadas
  rw [filterMap_get_eq_map (auditoriasAgrupadas rows) (auditoriaAgrupada rows),
    keys_auditoriasAgrupadas]
  · rw [keys_auditoriasAgrupadas]; exact nodup_chaves _
  · intro A hA
    rw [keys_auditoriasAgrupadas, mem_chaves] at hA
    exact get_auditoriasAgrupadas rows A hA

theorem values_topicosAgrupados (rows : List Row) (A : Nat) :
    JSMap.values (topicosAgrupados rows A) =
      (chaves ((linhasAuditoria rows A).map (fun r => r.topico_id))).map
        (topicoAgrupado rows A) := by
  rw [filterMap_get_eq_map (topicosAgrupados rows A) (topicoAgrupado rows A),
    keys_topicosAgrupados]
  · rw [keys_topicosAgrupados]; exact nodup_chaves _
  · intro T hT
    rw [keys_topicosAgrupados, mem_chaves] at hT
    exact get_topicosAgrupados rows A T hT

theorem filterMap_ite_eq {κ β : Type} [DecidableEq κ] (ks : List κ) (T : κ) (c : Option β)
    (hk : ks.Nodup) :
    ks.filterMap (fun k => if k = T then c else none) = if T ∈ ks then c.toList else [] := by
  induction ks with
  | nil => simp
  | cons k ks ih =>
    rw [List.nodup_cons] at hk
    by_cases h : k = T
    · subst h
      have hnil : ks.filterMap (fun k' => if k' = k then c else none) = [] := by
        rw [ih hk.2, if_neg hk.1]
      cases c with
      | none => simp [List.filterMap_cons, hnil]
      | some v => simp [List.filterMap_cons, hnil]
    · have h' : ¬ T = k := fun e => h e.symm
      simp [List.filterMap_cons, h, h', ih hk.2]

theorem flatMap_toList {α β : Type} (l : List α) (f : α → Option β) :
    l.flatMap (fun a => (f a).toList) = l.filterMap f := by
  induction l with
  | nil => rfl
  | cons a l ih =>
    rw [List.flatMap_cons, ih]
    cases h : f a <;> simp [List.filterMap_cons, h, Option.toList]

theorem percentualTopico_of_nil (t : Topico) (h : t.perguntas = []) :
    percentualTopico t = none := by
  simp [percentualTopico, h]

theorem linhasTopico_eq_nil (rows : List Row) (A : Nat) (T : Option Nat)
    (h : T ∉ (linhasAuditoria rows A).map (fun r => r.topico_id)) :
    linhasTopico rows A T = [] := by
  unfold linhasTopico
  rw [List.filter_eq_nil_iff]
  intro r hr
  simp only [decide_eq_true_eq]
  intro hT
  exact h (List.mem_map.2 ⟨r, hr, hT⟩)

theorem percentualTopico_topicoAgrupado_of_not_mem (rows : List Row) (A : Nat) (T : Option Nat)
    (h : T ∉ (linhasAuditoria rows A).map (fun r => r.topico_id)) :
    percentualTopico (topicoAgrupado rows A T) = none := by
  apply percentualTopico_of_nil
  simp [topicoAgrupado, linhasTopico_eq_nil rows A T h]

theorem contribuicoes_auditoria (rows : List Row) (A : Nat) (T M : Option Nat) :
    (JSMap.values (auditoriaAgrupada rows A).topicos).filterMap
        (fun t => contribuicaoCelula T M ((auditoriaAgrupada rows A).dt_auditoria.getMonth, t)) =
      (if (dataAuditoria rows A).getMonth = M then percentualTopico (topicoAgrupado rows A T)
        else none).toList := by
  simp only [auditoriaAgrupada, values_topicosAgrupados, List.filterMap_map]
  by_cases hM : (dataAuditoria rows A).getMonth = M
  · have hfun : (fun t => contribuicaoCelula T M ((dataAuditoria rows A).getMonth, t)) ∘
          topicoAgrupado rows A =
        fun T' => if T' = T then percentualTopico (topicoAgrupado rows A T) else none := by
      funext T'
      simp only [Function.comp, contribuicaoCelula, topicoAgrupado, hM, and_true]
      by_cases hT : T' = T
      · subst hT; simp
      · simp [hT]
    rw [hfun, filterMap_ite_eq _ _ _ (nodup_chaves _), if_pos hM]
    split
    · rfl
    · rename_i hmem
      rw [mem_chaves] at hmem
      rw [percentualTopico_topicoAgrupado_of_not_mem rows A T hmem]
      rfl
  · have hfun : (fun t => contribuicaoCelula T M ((dataAuditoria rows A).getMonth, t)) ∘
          topicoAgrupado rows A = fun _ => none := by
      funext T'
      simp [Function.comp, contribuicaoCelula, hM]
    rw [hfun, if_neg hM]
    simp

theorem contribuicoes_celula (rows : List Row) (T M : Option Nat) :
    (paresMesTopico (auditoriasConsolidadas rows)).filterMap (contribuicaoCelula T M) =
      (chaves (rows.map (fun r => r.auditoria_id))).filterMap (fun A =>
        if (dataAuditoria rows A).getMonth = M then percentualTopico (topicoAgrupado rows A T)
        else none) := by
  unfold paresMesTopico
  rw [List.filterMap_flatMap, auditoriasConsolidadas_eq, ← flatMap_toList]
  induction chaves (rows.map (fun r => r.auditoria_id)) with
  | nil => rfl
  | cons A l ih =>
    rw [List.map_cons, List.flatMap_cons, ih, List.flatMap_cons, List.filterMap_map]
    congr 1
    exact contribuicoes_auditoria rows A T M

theorem percentuaisAuditoria_eq (rows : List Row) (A : Nat) :
    percentuaisAuditoria (auditoriaAgrupada rows A) =
      (chaves ((linhasAuditoria rows A).map (fun r => r.topico_id))).filterMap
        (fun T => percentualTopico (topicoAgrupado rows A T)) := by
  unfold percentuaisAuditoria
  simp only [auditoriaAgrupada, values_topicosAgrupados, List.filterMap_map]
  rfl

theorem contribuicoes_mensais (rows : List Row) (M : Option Nat) :
    (auditoriasConsolidadas rows).filterMap (contribuicaoMensal M) =
      (chaves (rows.map (fun r => r.auditoria_id))).filterMap (fun A =>
        if (dataAuditoria rows A).getMonth = M then mediaAuditoria (auditoriaAgrupada rows A)
        else none) := by
  rw [auditoriasConsolidadas_eq, List.filterMap_map]
  rfl

end FormaFechada

section Pontuacao

theorem linhasTopico_eq (rows : List Row) (A : Nat) (T : Option Nat) :
    linhasTopico rows A T =
      rows.filter (fun r => decide (r.auditoria_id = A ∧ r.topico_id = T)) := by
  unfold linhasTopico linhasAuditoria
  rw [List.filter_filter]
  apply List.filter_congr
  intro r _
  by_cases h1 : r.auditoria_id = A <;> by_cases h2 : r.topico_id = T <;> simp [h1, h2]

theorem foldl_juntarPergunta (rs : List Row) :
    rs.foldl juntarPergunta [] =
      (Spec.primeirasPor (fun r => r.pergunta_id) rs).map perguntaDe := by
  unfold Spec.primeirasPor
  have h := foldl_proj (fun acc : List Row => acc.map perguntaDe)
    (fun acc x => if acc.any (fun y => decide (y.pergunta_id = x.pergunta_id)) then acc
      else acc ++ [x]) juntarPergunta
    (by
      intro acc x
      have hany : (acc.map perguntaDe).any (fun p => decide (p.id = x.pergunta_id)) =
          acc.any (fun y => decide (y.pergunta_id = x.pergunta_id)) := by
        induction acc with
        | nil => rfl
        | cons a acc ih => simp only [List.map_cons, List.any_cons, ih]; rfl
      unfold juntarPergunta
      rw [hany]
      dsimp only
      cases acc.any (fun y => decide (y.pergunta_id = x.pergunta_id)) <;> simp [perguntaDe]) rs []
  exact h.symm

theorem foldl_pontuarPergunta (qs : List Row) (acc : ℚ × ℚ) :
    (qs.map perguntaDe).foldl pontuarPergunta acc =
      (qs.map (fun r => r.st_pergunta)).foldl Spec.pontuarDouble acc := by
  induction qs generalizing acc with
  | nil => rfl
  | cons q qs ih =>
    rw [List.map_cons, List.map_cons, List.foldl_cons, List.foldl_cons, ih]
    rfl

theorem percentualTopico_eq (rows : List Row) (A : Nat) (T : Option Nat) :
    percentualTopico (topicoAgrupado rows A T) = Spec.TopicScoreDouble rows T A := by
  unfold percentualTopico Spec.TopicScoreDouble Spec.perguntasDistintas topicoAgrupado
  simp only [foldl_juntarPergunta, linhasTopico_eq, foldl_pontuarPergunta, dividir]
  split <;> rfl

end Pontuacao

section Saida

theorem listarDashboard_of_ne_nil (rows : List Row) (ano : Nat) (h : rows ≠ []) :
    listarDashboard rows ano =
      { processos := (JSMap.values (tabelas rows).processosTabela).map formatarProcesso
        resultadosMensais :=
          resultadosMensaisFormatados (tabelas rows).resultadosMensaisTabela ano } := by
  unfold listarDashboard
  have : rows.length ≠ 0 := by
    intro h0
    exact h (List.length_eq_zero.1 h0)
  rw [if_neg this]

theorem head?_filter_eq_find? {α : Type} (p : α → Bool) (l : List α) :
    (l.filter p).head? = l.find? p := by
  induction l with
  | nil => rfl
  | cons a l ih =>
    cases h : p a <;> simp [List.filter_cons, List.find?_cons, h, ih]

theorem foldl_atualizarProcesso_id (M : Option Nat × Topico → Option Nat)
    (xs : List (Option Nat × Topico)) (p : Processo) :
    (xs.foldl (fun p mt => atualizarProcesso (M mt) p mt.2) p).id = p.id ∧
      (xs.foldl (fun p mt => atualizarProcesso (M mt) p mt.2) p).nome_tema = p.nome_tema := by
  induction xs generalizing p with
  | nil => exact ⟨rfl, rfl⟩
  | cons x xs ih =>
    rw [List.foldl_cons]
    have h := ih (atualizarProcesso (M x) p x.2)
    have h2 : (atualizarProcesso (M x) p x.2).id = p.id ∧
        (atualizarProcesso (M x) p x.2).nome_tema = p.nome_tema := by
      unfold atualizarProcesso
      cases percentualTopico x.2 <;> exact ⟨rfl, rfl⟩
    exact ⟨h.1.trans h2.1, h.2.trans h2.2⟩

theorem passoProcessos_fun :
    passoProcessos = fun tabela (mt : Option Nat × Topico) =>
      JSMap.upsert tabela mt.2.id (novoProcesso mt.2)
        (fun p => atualizarProcesso mt.1 p mt.2) := rfl

theorem keys_processosTabela (pares : List (Option Nat × Topico)) :
    JSMap.keys (pares.foldl passoProcessos []) = chaves (pares.map (fun mt => mt.2.id)) := by
  rw [passoProcessos_fun]
  exact keys_foldl_upsert (fun mt : Option Nat × Topico => mt.2.id)
    (fun mt => novoProcesso mt.2) (fun p mt => atualizarProcesso mt.1 p mt.2) pares []

theorem get_processosTabela (pares : List (Option Nat × Topico)) (T : Option Nat) :
    JSMap.get (pares.foldl passoProcessos []) T =
      estadoChave (fun mt : Option Nat × Topico => novoProcesso mt.2)
        (fun p mt => atualizarProcesso mt.1 p mt.2)
        (pares.filter (fun mt => decide (mt.2.id = T))) := by
  rw [passoProcessos_fun]
  exact get_foldl_upsert (fun mt : Option Nat × Topico => mt.2.id)
    (fun mt => novoProcesso mt.2) (fun p mt => atualizarProcesso mt.1 p mt.2) T pares

theorem get_processosTabela_id (pares : List (Option Nat × Topico)) (T : Option Nat)
    (p : Processo) (h : JSMap.get (pares.foldl passoProcessos []) T = some p) :
    p.id = T ∧
      some p.nome_tema =
        (pares.find? (fun mt => decide (mt.2.id = T))).map (fun mt => mt.2.nome_tema) := by
  rw [get_processosTabela] at h
  rw [← head?_filter_eq_find?]
  cases hl : pares.filter (fun mt => decide (mt.2.id = T)) with
  | nil => rw [hl] at h; simp [estadoChave] at h
  | cons y ys =>
    rw [hl] at h
    simp only [estadoChave, Option.some.injEq] at h
    have hy : y.2.id = T := by
      have : y ∈ pares.filter (fun mt => decide (mt.2.id = T)) := by
        rw [hl]; exact List.mem_cons_self _ _
      simpa using (List.mem_filter.1 this).2
    have := foldl_atualizarProcesso_id (fun mt => mt.1) (y :: ys) (novoProcesso y.2)
    rw [h] at this
    simp only [novoProcesso] at this
    simp [this.1, this.2, hy]

theorem JSMap.get_of_mem {κ ν : Type} [DecidableEq κ] (m : JSMap κ ν)
    (hk : (JSMap.keys m).Nodup) (k : κ) (v : ν) (h : (k, v) ∈ m) :
    JSMap.get m k = some v := by
  induction m with
  | nil => exact absurd h (List.not_mem_nil _)
  | cons e m ih =>
    obtain ⟨k0, v0⟩ := e
    simp only [JSMap.keys, List.map_cons, List.nodup_cons] at hk
    rcases List.mem_cons.1 h with heq | hmem
    · cases heq
      simp [JSMap.get]
    · have hne : ¬ k0 = k := by
        rintro rfl
        exact hk.1 (List.mem_map.2 ⟨(k0, v), hmem, rfl⟩)
      simp only [JSMap.get, hne, if_false]
      exact ih hk.2 hmem

theorem find?_values {κ ν β : Type} [DecidableEq κ] (m : JSMap κ ν) (fmt : ν → β)
    (chave : β → κ) (hid : ∀ e ∈ m, chave (fmt e.2) = e.1) (k : κ) :
    ((JSMap.values m).map fmt).find? (fun q => decide (chave q = k)) =
      (JSMap.get m k).map fmt := by
  induction m with
  | nil => rfl
  | cons e m ih =>
    obtain ⟨k0, v0⟩ := e
    have h0 : chave (fmt v0) = k0 := hid (k0, v0) (List.mem_cons_self _ _)
    have ih' := ih (fun e he => hid e (List.mem_cons_of_mem _ he))
    simp only [JSMap.values, List.map_cons] at ih' ⊢
    rw [List.find?_cons]
    by_cases hk : k0 = k
    · simp only [JSMap.get, h0, hk, decide_True, if_true, Option.map_some']
    · simp only [JSMap.get, h0, hk, decide_False, if_false]
      exact ih'

theorem processosTabela_id (pares : List (Option Nat × Topico)) :
    ∀ e ∈ pares.foldl passoProcessos [], e.2.id = e.1 := by
  intro e he
  have hk : (JSMap.keys (pares.foldl passoProcessos [])).Nodup := by
    rw [keys_processosTabela]; exact nodup_chaves _
  have := JSMap.get_of_mem _ hk e.1 e.2 he
  exact (get_processosTabela_id pares e.1 e.2 this).1

theorem mem_pares_ids (rows : List Row) (T : Option Nat) :
    T ∈ (paresMesTopico (auditoriasConsolidadas rows)).map (fun mt => mt.2.id) ↔
      T ∈ rows.map (fun r => r.topico_id) := by
  simp only [paresMesTopico, auditoriasConsolidadas_eq, List.mem_map, List.mem_flatMap,
    mem_chaves]
  constructor
  · rintro ⟨mt, ⟨a, ⟨A, _, rfl⟩, t, ht, rfl⟩, rfl⟩
    simp only [auditoriaAgrupada, values_topicosAgrupados, List.mem_map, mem_chaves] at ht
    obtain ⟨T', ⟨r, hr, rfl⟩, rfl⟩ := ht
    exact ⟨r, (List.mem_filter.1 hr).1, rfl⟩
  · rintro ⟨r, hr, rfl⟩
    refine ⟨((auditoriaAgrupada rows r.auditoria_id).dt_auditoria.getMonth,
      topicoAgrupado rows r.auditoria_id r.topico_id),
      ⟨auditoriaAgrupada rows r.auditoria_id, ⟨r.auditoria_id, ⟨r, hr, rfl⟩, rfl⟩,
        topicoAgrupado rows r.auditoria_id r.topico_id, ?_, rfl⟩, rfl⟩
    simp only [auditoriaAgrupada, values_topicosAgrupados, List.mem_map, mem_chaves]
    refine ⟨r.topico_id, ⟨r, ?_, rfl⟩, rfl⟩
    simp [linhasAuditoria, hr]

theorem processo_listarDashboard (rows : List Row) (ano : Nat) (h : rows ≠ [])
    (T : Option Nat) :
    (listarDashboard rows ano).processo T =
      (JSMap.get (tabelas rows).processosTabela T).map formatarProcesso := by
  rw [listarDashboard_of_ne_nil rows ano h]
  unfold Dashboard.processo
  simp only
  apply find?_values _ formatarProcesso (fun q => q.id)
  rw [tabelas_eq]
  exact processosTabela_id _

theorem get_processosTabela_isSome (rows : List Row) (T : Option Nat)
    (hT : T ∈ rows.map (fun r => r.topico_id)) :
    ∃ p, JSMap.get (tabelas rows).processosTabela T = some p := by
  have : (JSMap.get (tabelas rows).processosTabela T).isSome = true := by
    rw [JSMap.get_isSome_iff, tabelas_eq, keys_processosTabela, mem_chaves, mem_pares_ids]
    exact hT
  exact Option.isSome_iff_exists.1 this

theorem campo_formatarProcesso (p : Processo) (M : Nat) (hM : M < 12) :
    (meses[M]?).bind (fun mes => (formatarProcesso p).campo mes) =
      some (formatarResultado (JSMap.get p.resultados (some M))) := by
  unfold formatarProcesso ProcessoFormatado.campo
  interval_cases M <;> simp [meses, List.enum, List.enumFrom]

theorem resultado_formatados (rm : JSMap (Option Nat) Acc) (ano : Nat) (M : Nat)
    (hM : M < 12) :
    ((resultadosMensaisFormatados rm ano)[M]?).map (fun r => r.resultado) =
      some (formatarResultado (JSMap.get rm (some M))) := by
  unfold resultadosMensaisFormatados
  interval_cases M <;> simp [meses, List.enum, List.enumFrom]

end Saida

section Ligacao

theorem chaves_perm_dedup {κ : Type} [DecidableEq κ] (l : List κ) :
    List.Perm (chaves l) l.dedup := by
  rw [List.perm_ext_iff_of_nodup (nodup_chaves l) (List.nodup_dedup l)]
  intro a
  rw [mem_chaves, List.mem_dedup]

theorem getMonth_dataAuditoria (rows : List Row) (A : Nat) :
    (dataAuditoria rows A).getMonth = Spec.mesAuditoria rows A := by
  unfold dataAuditoria Spec.mesAuditoria linhasAuditoria
  rw [head?_filter_eq_find?]
  cases rows.find? (fun r => decide (r.auditoria_id = A)) <;> rfl

theorem foldl_somar (l : List ℚ) (r : Acc) :
    l.foldl somar r =
      { soma := l.foldl jsAdd r.soma, count := l.foldl (fun c _ => jsAdd c 1) r.count } := by
  induction l generalizing r with
  | nil => rfl
  | cons x xs ih =>
    rw [List.foldl_cons, ih]
    rfl

theorem acumulado_eq (l : List ℚ) :
    acumulado l = { soma := Spec.somaDouble l, count := Spec.contagemDouble l } := by
  unfold acumulado
  rw [foldl_somar]
  rfl

theorem foldl_contar_ge (l : List ℚ) (c : ℚ) (hc : 1 ≤ c) :
    1 ≤ l.foldl (fun c _ => jsAdd c 1) c := by
  induction l generalizing c with
  | nil => exact hc
  | cons x xs ih =>
    rw [List.foldl_cons]
    apply ih
    unfold jsAdd
    have := fl_mono 1 (c + 1) (by linarith)
    rwa [fl_one] at this

theorem contagemDouble_pos (l : List ℚ) (h : l ≠ []) : 1 ≤ Spec.contagemDouble l := by
  unfold Spec.contagemDouble
  cases l with
  | nil => exact absurd rfl h
  | cons x xs =>
    rw [List.foldl_cons]
    apply foldl_contar_ge
    unfold jsAdd
    have := fl_mono 1 (0 + 1) (by norm_num)
    rwa [fl_one] at this

theorem mediaDe_acumulado (l : List ℚ) : mediaDe (acumulado l) = Spec.mediaDouble l := by
  unfold mediaDe Spec.mediaDouble
  rw [acumulado_eq]
  simp only [dividir]
  by_cases h : l = []
  · subst h
    simp [Spec.contagemDouble]
  · have hpos : Spec.contagemDouble l > 0 := lt_of_lt_of_le one_pos (contagemDouble_pos l h)
    rw [dif_pos hpos, if_neg h]

theorem percentualMedio_eq (l : List ℚ) : percentualMedio l = Spec.percentualDouble l := by
  unfold percentualMedio formatarResultado Spec.percentualDouble
  rw [← mediaDe_acumulado]
  unfold mediaDe
  simp only [jsMul]
  split <;> rfl

theorem filterMap_ite_eq_filter {α β : Type} (l : List α) (p : α → Prop) [DecidablePred p]
    (f : α → Option β) :
    l.filterMap (fun a => if p a then f a else none) =
      (l.filter (fun a => decide (p a))).filterMap f := by
  induction l with
  | nil => rfl
  | cons a l ih =>
    by_cases h : p a
    · simp only [List.filterMap_cons, List.filter_cons, h, if_true, decide_True, ih]
    · simp only [List.filterMap_cons, List.filter_cons, h, if_false, decide_False, ih]
      rfl

theorem linhasAuditoria_eq (rows : List Row) (A : Nat) :
    linhasAuditoria rows A = rows.filter (fun r => decide (r.auditoria_id = A)) := rfl

theorem mediaAuditoria_eq (rows : List Row) (A : Nat) :
    mediaAuditoria (auditoriaAgrupada rows A) = Spec.mediaAuditoriaDouble rows A := by
  unfold mediaAuditoria Spec.mediaAuditoriaDouble Spec.topicosPorOrdem
  rw [mediaDe_acumulado, percentuaisAuditoria_eq]
  simp only [percentualTopico_eq, linhasAuditoria_eq]

theorem contribuicoes_celula_eq (rows : List Row) (T : Option Nat) (M : Nat) :
    (paresMesTopico (auditoriasConsolidadas rows)).filterMap (contribuicaoCelula T (some M)) =
      (Spec.auditoriasPorOrdem rows M).filterMap (Spec.TopicScoreDouble rows T) := by
  rw [contribuicoes_celula]
  simp only [getMonth_dataAuditoria, percentualTopico_eq]
  rw [filterMap_ite_eq_filter]
  rfl

theorem contribuicoes_mensais_eq (rows : List Row) (M : Nat) :
    (auditoriasConsolidadas rows).filterMap (contribuicaoMensal (some M)) =
      (Spec.auditoriasPorOrdem rows M).filterMap (Spec.mediaAuditoriaDouble rows) := by
  rw [contribuicoes_mensais]
  simp only [getMonth_dataAuditoria, mediaAuditoria_eq]
  rw [filterMap_ite_eq_filter]
  rfl

theorem formatar_celula (rows : List Row) (T M : Option Nat) (p : Processo)
    (hp : JSMap.get (tabelas rows).processosTabela T = some p) :
    formatarResultado (JSMap.get p.resultados M) =
      percentualMedio ((paresMesTopico (auditoriasConsolidadas rows)).filterMap
        (contribuicaoCelula T M)) := by
  rw [formatarResultado_getD, ← formatarResultado_lista]
  congr 2
  have h := accCelula_foldl T M (paresMesTopico (auditoriasConsolidadas rows))
  rw [← h]
  rw [tabelas_eq] at hp
  simp only at hp
  unfold accCelula
  rw [hp]
  rfl

theorem formatar_mensal (rows : List Row) (M : Option Nat) :
    formatarResultado (JSMap.get (tabelas rows).resultadosMensaisTabela M) =
      percentualMedio ((auditoriasConsolidadas rows).filterMap (contribuicaoMensal M)) := by
  rw [formatarResultado_getD, ← formatarResultado_lista]
  congr 2
  rw [← getD_foldl_passoMensais, tabelas_eq]

theorem celula_listarDashboard (rows : List Row) (ano : Nat) (h : rows ≠ [])
    (T : Option Nat) (hT : T ∈ rows.map (fun r => r.topico_id)) (M : Nat) (hM : M < 12) :
    (listarDashboard rows ano).celula T M = some (Spec.celulaDouble rows T M) := by
  obtain ⟨p, hp⟩ := get_processosTabela_isSome rows T hT
  unfold Dashboard.celula
  rw [processo_listarDashboard rows ano h, hp]
  simp only [Option.map_some', Option.some_bind]
  rw [campo_formatarProcesso p M hM, formatar_celula rows T (some M) p hp,
    contribuicoes_celula_eq, percentualMedio_eq]
  rfl

theorem resultado_listarDashboard (rows : List Row) (ano : Nat) (h : rows ≠ [])
    (M : Nat) (hM : M < 12) :
    (listarDashboard rows ano).resultado M = some (Spec.resultadoMensalDouble rows M) := by
  unfold Dashboard.resultado
  rw [listarDashboard_of_ne_nil rows ano h]
  simp only
  rw [resultado_formatados _ ano M hM, formatar_mensal, contribuicoes_mensais_eq,
    percentualMedio_eq]
  rfl

end Ligacao

section Intervalo

theorem fl_unit (x : ℚ) (h0 : 0 ≤ x) (h1 : x ≤ 1) : 0 ≤ fl x ∧ fl x ≤ 1 := by
  refine ⟨fl_nonneg x h0, ?_⟩
  have := fl_mono x 1 h1
  rwa [fl_one] at this

theorem percentual_bounds (m : ℚ) (h0 : 0 ≤ m) (h1 : m ≤ 1) :
    0 ≤ mathRound (fl (m * 100)) ∧ mathRound (fl (m * 100)) ≤ 100 := by
  have hx0 : 0 ≤ fl (m * 100) := fl_nonneg _ (by linarith)
  have hx1 : fl (m * 100) ≤ 100 := by
    have := fl_mono (m * 100) 100 (by linarith)
    rwa [fl_cem] at this
  unfold mathRound
  constructor
  · apply Int.floor_nonneg.2
    linarith
  · have : ⌊fl (m * 100) + 1 / 2⌋ < 101 := by
      rw [Int.floor_lt]
      push_cast
      linarith
    omega

theorem foldl_somar_bounds (l : List ℚ) (h : ∀ x ∈ l, 0 ≤ x ∧ x ≤ 1) (r : Acc)
    (hr : 0 ≤ r.soma ∧ r.soma ≤ r.count) :
    0 ≤ (l.foldl somar r).soma ∧ (l.foldl somar r).soma ≤ (l.foldl somar r).count := by
  induction l generalizing r with
  | nil => exact hr
  | cons x xs ih =>
    rw [List.foldl_cons]
    apply ih (fun y hy => h y (List.mem_cons_of_mem _ hy))
    have hx := h x (List.mem_cons_self _ _)
    unfold somar jsAdd
    exact ⟨fl_nonneg _ (by linarith [hr.1, hx.1]), fl_mono _ _ (by linarith [hr.2, hx.2])⟩

theorem mediaDouble_bounds (l : List ℚ) (h : ∀ x ∈ l, 0 ≤ x ∧ x ≤ 1) (m : ℚ)
    (hm : Spec.mediaDouble l = some m) : 0 ≤ m ∧ m ≤ 1 := by
  unfold Spec.mediaDouble at hm
  split at hm
  · exact absurd hm (by simp)
  · rename_i hne
    simp only [Option.some.injEq] at hm
    subst hm
    have hb := foldl_somar_bounds l h accZero ⟨le_refl _, le_refl _⟩
    have he : l.foldl somar accZero = acumulado l := rfl
    rw [he, acumulado_eq] at hb
    simp only at hb
    have hc : (0 : ℚ) < Spec.contagemDouble l :=
      lt_of_lt_of_le one_pos (contagemDouble_pos l hne)
    exact fl_unit _ (div_nonneg hb.1 hc.le) (by rw [div_le_one hc]; exact hb.2)

theorem percentualDouble_valido (l : List ℚ) (h : ∀ x ∈ l, 0 ≤ x ∧ x ≤ 1) :
    percentualValido (Spec.percentualDouble l) := by
  unfold Spec.percentualDouble percentualValido
  cases hm : Spec.mediaDouble l with
  | none => left; rfl
  | some m =>
    right
    have hb := mediaDouble_bounds l h m hm
    exact ⟨_, rfl, percentual_bounds m hb.1 hb.2⟩

theorem percentualMedio_valido (l : List ℚ) (h : ∀ x ∈ l, 0 ≤ x ∧ x ≤ 1) :
    percentualValido (percentualMedio l) := by
  rw [percentualMedio_eq]
  exact percentualDouble_valido l h

theorem foldl_pontuarDouble_bounds (sts : List (Option Status)) (acc : ℚ × ℚ)
    (hacc : 0 ≤ acc.1 ∧ acc.1 ≤ acc.2 ∧ fl acc.1 = acc.1) :
    0 ≤ (sts.foldl Spec.pontuarDouble acc).1 ∧
      (sts.foldl Spec.pontuarDouble acc).1 ≤ (sts.foldl Spec.pontuarDouble acc).2 ∧
      fl (sts.foldl Spec.pontuarDouble acc).1 = (sts.foldl Spec.pontuarDouble acc).1 := by
  induction sts generalizing acc with
  | nil => exact hacc
  | cons st sts ih =>
    rw [List.foldl_cons]
    apply ih
    obtain ⟨h0, h1, h2⟩ := hacc
    rcases st with _ | st
    · exact ⟨h0, h1, h2⟩
    · cases st
      · exact ⟨fl_nonneg _ (by linarith), fl_mono _ _ (by linarith), fl_fl _⟩
      · refine ⟨h0, ?_, h2⟩
        show acc.1 ≤ fl (acc.2 + 1)
        rw [← h2]
        exact fl_mono _ _ (by linarith)
      · exact ⟨fl_nonneg _ (by linarith), fl_mono _ _ (by linarith), fl_fl _⟩
      · exact ⟨h0, h1, h2⟩

theorem percentualTopico_bounds (t : Topico) (s : ℚ) (h : percentualTopico t = some s) :
    0 ≤ s ∧ s ≤ 1 := by
  unfold percentualTopico at h
  simp only [dividir] at h
  have hfold : t.perguntas.foldl pontuarPergunta (0, 0) =
      (t.perguntas.map (fun p => p.st_pergunta)).foldl Spec.pontuarDouble (0, 0) := by
    rw [List.foldl_map]
    rfl
  rw [hfold] at h
  split at h
  · rename_i hpos
    simp only [Option.some.injEq] at h
    subst h
    have hb := foldl_pontuarDouble_bounds (t.perguntas.map (fun p => p.st_pergunta)) (0, 0)
      ⟨le_refl _, le_refl _, fl_zero⟩
    exact fl_unit _ (div_nonneg hb.1 hpos.le) (by rw [div_le_one hpos]; exact hb.2.1)
  · exact absurd h (by simp)

theorem mediaAuditoria_bounds (a : Auditoria) (m : ℚ) (h : mediaAuditoria a = some m) :
    0 ≤ m ∧ m ≤ 1 := by
  unfold mediaAuditoria at h
  rw [mediaDe_acumulado] at h
  refine mediaDouble_bounds (percentuaisAuditoria a) ?_ m h
  intro x hx
  unfold percentuaisAuditoria at hx
  obtain ⟨t, _, ht⟩ := List.mem_filterMap.1 hx
  exact percentualTopico_bounds t x ht

theorem formatar_celula_valido (rows : List Row) (T M : Option Nat) (p : Processo)
    (hp : JSMap.get (tabelas rows).processosTabela T = some p) :
    percentualValido (formatarResultado (JSMap.get p.resultados M)) := by
  rw [formatar_celula rows T M p hp]
  apply percentualMedio_valido
  intro x hx
  obtain ⟨mt, _, hmt⟩ := List.mem_filterMap.1 hx
  unfold contribuicaoCelula at hmt
  split at hmt
  · exact percentualTopico_bounds mt.2 x hmt
  · exact absurd hmt (by simp)

theorem formatar_mensal_valido (rows : List Row) (M : Option Nat) :
    percentualValido
      (formatarResultado (JSMap.get (tabelas rows).resultadosMensaisTabela M)) := by
  rw [formatar_mensal rows M]
  apply percentualMedio_valido
  intro x hx
  obtain ⟨a, _, ha⟩ := List.mem_filterMap.1 hx
  unfold contribuicaoMensal at ha
  split at ha
  · exact mediaAuditoria_bounds a x ha
  · exact absurd ha (by simp)

theorem keys_tabelas_nodup (rows : List Row) :
    (JSMap.keys (tabelas rows).processosTabela).Nodup := by
  rw [tabelas_eq, keys_processosTabela]
  exact nodup_chaves _

theorem mem_values_get {κ ν : Type} [DecidableEq κ] (m : JSMap κ ν)
    (hk : (JSMap.keys m).Nodup) (v : ν) (hv : v ∈ JSMap.values m) :
    ∃ k, JSMap.get m k = some v := by
  obtain ⟨e, he, rfl⟩ := List.mem_map.1 hv
  exact ⟨e.1, JSMap.get_of_mem m hk e.1 e.2 he⟩

theorem campos_validos (rows : List Row) (ano : Nat) :
    ∀ p ∈ (listarDashboard rows ano).processos, ∀ c ∈ p.campos, percentualValido c.2 := by
  intro p hp c hc
  by_cases h : rows = []
  · subst h
    exact absurd hp (List.not_mem_nil _)
  · rw [listarDashboard_of_ne_nil rows ano h] at hp
    obtain ⟨p', hp', rfl⟩ := List.mem_map.1 hp
    obtain ⟨k, hk⟩ := mem_values_get _ (keys_tabelas_nodup rows) p' hp'
    unfold formatarProcesso at hc
    obtain ⟨im, _, rfl⟩ := List.mem_map.1 hc
    exact formatar_celula_valido rows k (some im.1) p' hk

theorem resultados_validos (rows : List Row) (ano : Nat) :
    ∀ r ∈ (listarDashboard rows ano).resultadosMensais, percentualValido r.resultado := by
  intro r hr
  by_cases h : rows = []
  · subst h
    exact absurd hr (List.not_mem_nil _)
  · rw [listarDashboard_of_ne_nil rows ano h] at hr
    unfold resultadosMensaisFormatados at hr
    obtain ⟨im, _, rfl⟩ := List.mem_map.1 hr
    exact formatar_mensal_valido rows (some im.1)

end Intervalo

section Topicos

theorem ids_processos (rows : List Row) (ano : Nat) (h : rows ≠ []) :
    (listarDashboard rows ano).processos.map (fun p => p.id) =
      JSMap.keys (tabelas rows).processosTabela := by
  rw [listarDashboard_of_ne_nil rows ano h]
  simp only [JSMap.values, JSMap.keys, List.map_map]
  apply List.map_congr_left
  intro e he
  have := processosTabela_id (paresMesTopico (auditoriasConsolidadas rows)) e
    (by rw [tabelas_eq] at he; exact he)
  simpa [formatarProcesso] using this

theorem mem_keys_tabelas (rows : List Row) (T : Option Nat) :
    T ∈ JSMap.keys (tabelas rows).processosTabela ↔ T ∈ rows.map (fun r => r.topico_id) := by
  rw [tabelas_eq, keys_processosTabela, mem_chaves, mem_pares_ids]

theorem campos_nomes (p : Processo) :
    (formatarProcesso p).campos.map Prod.fst = meses := by
  simp [formatarProcesso, meses, List.enum, List.enumFrom]

end Topicos

section Nulos

theorem foldl_primeiras_sublist {α κ : Type} [DecidableEq κ] (key : α → κ) (xs acc : List α) :
    ∀ x ∈ xs.foldl (fun acc x =>
        if acc.any (fun y => decide (key y = key x)) then acc else acc ++ [x]) acc,
      x ∈ acc ∨ x ∈ xs := by
  induction xs generalizing acc with
  | nil => intro x hx; exact Or.inl hx
  | cons y ys ih =>
    intro x hx
    rw [List.foldl_cons] at hx
    rcases ih _ x hx with h | h
    · split at h
      · exact Or.inl h
      · rcases List.mem_append.1 h with h | h
        · exact Or.inl h
        · rw [List.mem_singleton] at h
          subst h
          exact Or.inr (List.mem_cons_self _ _)
    · exact Or.inr (List.mem_cons_of_mem _ h)

theorem mem_of_mem_primeirasPor {α κ : Type} [DecidableEq κ] (key : α → κ) (xs : List α)
    (x : α) (hx : x ∈ Spec.primeirasPor key xs) : x ∈ xs := by
  rcases foldl_primeiras_sublist key xs [] x hx with h | h
  · exact absurd h (List.not_mem_nil _)
  · exact h

theorem foldl_primeiras_of_nodup {α κ : Type} [DecidableEq κ] (key : α → κ) (xs acc : List α)
    (h : ((acc ++ xs).map key).Nodup) :
    xs.foldl (fun acc x =>
        if acc.any (fun y => decide (key y = key x)) then acc else acc ++ [x]) acc =
      acc ++ xs := by
  induction xs generalizing acc with
  | nil => simp
  | cons y ys ih =>
    rw [List.foldl_cons]
    have hy : ¬ (acc.any (fun z => decide (key z = key y)) = true) := by
      rw [List.any_eq_true]
      rintro ⟨z, hz, hzy⟩
      simp only [decide_eq_true_eq] at hzy
      rw [List.map_append, List.map_cons, List.nodup_append] at h
      exact h.2.2 (List.mem_map.2 ⟨z, hz, hzy⟩) (List.mem_cons_self _ _)
    rw [if_neg hy, ih (acc ++ [y])]
    · simp
    · simpa using h

theorem primeirasPor_of_nodup {α κ : Type} [DecidableEq κ] (key : α → κ) (xs : List α)
    (h : (xs.map key).Nodup) : Spec.primeirasPor key xs = xs := by
  unfold Spec.primeirasPor
  rw [foldl_primeiras_of_nodup key xs [] (by simpa using h)]
  rfl

theorem perguntasDistintas_of_nodup (rows : List Row) (T : Option Nat) (A : Nat)
    (h : (rows.map Row.chave).Nodup) :
    Spec.perguntasDistintas rows T A =
      rows.filter (fun r => decide (r.auditoria_id = A ∧ r.topico_id = T)) := by
  unfold Spec.perguntasDistintas
  apply primeirasPor_of_nodup
  have h1 : ((rows.filter (fun r => decide (r.auditoria_id = A ∧ r.topico_id = T))).map
      Row.chave).Nodup :=
    h.sublist ((List.filter_sublist rows).map _)
  have h2 : (rows.filter (fun r => decide (r.auditoria_id = A ∧ r.topico_id = T))).map Row.chave =
      ((rows.filter (fun r => decide (r.auditoria_id = A ∧ r.topico_id = T))).map
        (fun r => r.pergunta_id)).map (fun q => (A, T, q)) := by
    rw [List.map_map]
    apply List.map_congr_left
    intro r hr
    have := (List.mem_filter.1 hr).2
    simp only [decide_eq_true_eq] at this
    simp [Row.chave, this.1, this.2]
  rw [h2] at h1
  exact h1.of_map _

theorem TopicScore_eq_none_iff (rows : List Row) (T : Option Nat) (A : Nat) :
    Spec.TopicScore rows T A = none ↔
      ∀ q ∈ Spec.perguntasDistintas rows T A, ¬ respondida q.st_pergunta := by
  unfold Spec.TopicScore Spec.contar respondida
  simp only []
  constructor
  · intro h q hq
    split at h
    · rename_i h0
      have h1 : List.countP (fun r => decide (r.st_pergunta = some Status.CF))
          (Spec.perguntasDistintas rows T A) = 0 := by omega
      have h2 : List.countP (fun r => decide (r.st_pergunta = some Status.PC))
          (Spec.perguntasDistintas rows T A) = 0 := by omega
      have h3 : List.countP (fun r => decide (r.st_pergunta = some Status.NC))
          (Spec.perguntasDistintas rows T A) = 0 := by omega
      rw [List.countP_eq_zero] at h1 h2 h3
      have a1 := h1 q hq
      have a2 := h2 q hq
      have a3 := h3 q hq
      simp only [decide_eq_true_eq] at a1 a2 a3
      tauto
    · exact absurd h (by simp)
  · intro h
    rw [if_pos]
    have h1 : List.countP (fun r => decide (r.st_pergunta = some Status.CF))
        (Spec.perguntasDistintas rows T A) = 0 := by
      rw [List.countP_eq_zero]
      intro q hq
      have := h q hq
      simp only [decide_eq_true_eq]
      tauto
    have h2 : List.countP (fun r => decide (r.st_pergunta = some Status.PC))
        (Spec.perguntasDistintas rows T A) = 0 := by
      rw [List.countP_eq_zero]
      intro q hq
      have := h q hq
      simp only [decide_eq_true_eq]
      tauto
    have h3 : List.countP (fun r => decide (r.st_pergunta = some Status.NC))
        (Spec.perguntasDistintas rows T A) = 0 := by
      rw [List.countP_eq_zero]
      intro q hq
      have := h q hq
      simp only [decide_eq_true_eq]
      tauto
    omega

theorem celula_eq_none_iff (rows : List Row) (T : Option Nat) (M : Nat) :
    Spec.celula rows T M = none ↔
      ∀ A ∈ Spec.auditoriasDoMes rows M, ∀ q ∈ Spec.perguntasDistintas rows T A,
        ¬ respondida q.st_pergunta := by
  unfold Spec.celula
  simp only []
  constructor
  · intro h A hA
    split at h
    · rename_i h0
      rw [List.filterMap_eq_nil_iff] at h0
      exact (TopicScore_eq_none_iff rows T A).1 (h0 A hA)
    · exact absurd h (by simp)
  · intro h
    rw [if_pos]
    rw [List.filterMap_eq_nil_iff]
    intro A hA
    exact (TopicScore_eq_none_iff rows T A).2 (h A hA)

theorem foldl_pontuarDouble_ge (sts : List (Option Status)) (acc : ℚ × ℚ)
    (hacc : 1 ≤ acc.2) : 1 ≤ (sts.foldl Spec.pontuarDouble acc).2 := by
  induction sts generalizing acc with
  | nil => exact hacc
  | cons st sts ih =>
    rw [List.foldl_cons]
    apply ih
    have h1 : 1 ≤ jsAdd acc.2 1 := by
      unfold jsAdd
      have := fl_mono 1 (acc.2 + 1) (by linarith)
      rwa [fl_one] at this
    rcases st with _ | st
    · exact hacc
    · cases st
      · exact h1
      · exact h1
      · exact h1
      · exact hacc

theorem foldl_pontuarDouble_of_sem_resposta (sts : List (Option Status)) (acc : ℚ × ℚ)
    (h : ∀ st ∈ sts, ¬ respondida st) : sts.foldl Spec.pontuarDouble acc = acc := by
  induction sts generalizing acc with
  | nil => rfl
  | cons st sts ih =>
    rw [List.foldl_cons]
    have hst := h st (List.mem_cons_self _ _)
    have hstep : Spec.pontuarDouble acc st = acc := by
      unfold respondida at hst
      rcases st with _ | st
      · rfl
      · cases st
        · exact absurd (Or.inl rfl) hst
        · exact absurd (Or.inr (Or.inr rfl)) hst
        · exact absurd (Or.inr (Or.inl rfl)) hst
        · rfl
    rw [hstep]
    exact ih acc (fun st' hst' => h st' (List.mem_cons_of_mem _ hst'))

theorem foldl_pontuarDouble_pos (sts : List (Option Status)) (acc : ℚ × ℚ)
    (hacc : 0 ≤ acc.2) (h : ∃ st ∈ sts, respondida st) :
    1 ≤ (sts.foldl Spec.pontuarDouble acc).2 := by
  induction sts generalizing acc with
  | nil =>
    obtain ⟨st, hst, _⟩ := h
    exact absurd hst (List.not_mem_nil _)
  | cons st sts ih =>
    rw [List.foldl_cons]
    have h1 : 1 ≤ jsAdd acc.2 1 := by
      unfold jsAdd
      have := fl_mono 1 (acc.2 + 1) (by linarith)
      rwa [fl_one] at this
    by_cases hst : respondida st
    · apply foldl_pontuarDouble_ge
      unfold respondida at hst
      rcases hst with hst | hst | hst <;> subst hst <;> exact h1
    · have hstep : Spec.pontuarDouble acc st = acc :=
        foldl_pontuarDouble_of_sem_resposta [st] acc (by
          intro st' hst'
          rw [List.mem_singleton] at hst'
          rw [hst']
          exact hst)
      rw [hstep]
      apply ih acc hacc
      obtain ⟨st', hst', hr⟩ := h
      rcases List.mem_cons.1 hst' with heq | hmem
      · rw [heq] at hr
        exact absurd hr hst
      · exact ⟨st', hmem, hr⟩

theorem TopicScoreDouble_eq_none_iff (rows : List Row) (T : Option Nat) (A : Nat) :
    Spec.TopicScoreDouble rows T A = none ↔
      ∀ q ∈ Spec.perguntasDistintas rows T A, ¬ respondida q.st_pergunta := by
  unfold Spec.TopicScoreDouble
  simp only
  constructor
  · intro h q hq hr
    have hpos := foldl_pontuarDouble_pos
      ((Spec.perguntasDistintas rows T A).map (fun r => r.st_pergunta)) (0, 0) (le_refl _)
      ⟨q.st_pergunta, List.mem_map.2 ⟨q, hq, rfl⟩, hr⟩
    rw [if_pos (lt_of_lt_of_le one_pos hpos)] at h
    exact absurd h (by simp)
  · intro h
    rw [foldl_pontuarDouble_of_sem_resposta _ _ (by
      intro st hst
      obtain ⟨q, hq, rfl⟩ := List.mem_map.1 hst
      exact h q hq)]
    simp

theorem TopicScoreDouble_eq_none_iff_exato (rows : List Row) (T : Option Nat) (A : Nat) :
    Spec.TopicScoreDouble rows T A = none ↔ Spec.TopicScore rows T A = none := by
  rw [TopicScoreDouble_eq_none_iff, TopicScore_eq_none_iff]

theorem mem_auditoriasPorOrdem (rows : List Row) (M A : Nat) :
    A ∈ Spec.auditoriasPorOrdem rows M ↔ A ∈ Spec.auditoriasDoMes rows M := by
  unfold Spec.auditoriasPorOrdem Spec.auditoriasDoMes Spec.auditorias
  simp only [List.mem_filter, mem_chaves, List.mem_dedup]

theorem mem_topicosPorOrdem (rows : List Row) (A : Nat) (T : Option Nat) :
    T ∈ Spec.topicosPorOrdem rows A ↔ T ∈ Spec.topicos rows A := by
  unfold Spec.topicosPorOrdem Spec.topicos
  simp only [mem_chaves, List.mem_dedup]

theorem mediaDouble_eq_none_iff (l : List ℚ) : Spec.mediaDouble l = none ↔ l = [] := by
  unfold Spec.mediaDouble
  by_cases h : l = []
  · simp [h]
  · simp [h]

theorem percentualDouble_eq_none_iff (l : List ℚ) :
    Spec.percentualDouble l = none ↔ l = [] := by
  unfold Spec.percentualDouble
  rw [Option.map_eq_none', mediaDouble_eq_none_iff]

theorem celulaDouble_eq_none_iff (rows : List Row) (T : Option Nat) (M : Nat) :
    Spec.celulaDouble rows T M = none ↔
      ∀ A ∈ Spec.auditoriasDoMes rows M, ∀ q ∈ Spec.perguntasDistintas rows T A,
        ¬ respondida q.st_pergunta := by
  unfold Spec.celulaDouble
  rw [percentualDouble_eq_none_iff, List.filterMap_eq_nil_iff]
  constructor
  · intro h A hA
    exact (TopicScoreDouble_eq_none_iff rows T A).1 (h A ((mem_auditoriasPorOrdem rows M A).2 hA))
  · intro h A hA
    exact (TopicScoreDouble_eq_none_iff rows T A).2 (h A ((mem_auditoriasPorOrdem rows M A).1 hA))

theorem celulaDouble_eq_none_iff_exato (rows : List Row) (T : Option Nat) (M : Nat) :
    Spec.celulaDouble rows T M = none ↔ Spec.celula rows T M = none := by
  rw [celulaDouble_eq_none_iff, celula_eq_none_iff]

theorem foldl_pontuarDouble_zero (sts : List (Option Status)) (acc : ℚ × ℚ)
    (hacc : acc.1 = 0)
    (h : ∀ st ∈ sts, respondida st → st = some Status.NC) :
    (sts.foldl Spec.pontuarDouble acc).1 = 0 := by
  induction sts generalizing acc with
  | nil => exact hacc
  | cons st sts ih =>
    rw [List.foldl_cons]
    apply ih _ _ (fun st' hst' => h st' (List.mem_cons_of_mem _ hst'))
    have hst := h st (List.mem_cons_self _ _)
    rcases st with _ | st
    · exact hacc
    · cases st
      · exact absurd (hst (Or.inl rfl)) (by decide)
      · exact hacc
      · exact absurd (hst (Or.inr (Or.inl rfl))) (by decide)
      · exact hacc

theorem TopicScoreDouble_of_all_NC (rows : List Row) (T : Option Nat) (A : Nat)
    (h : ∀ q ∈ Spec.perguntasDistintas rows T A,
      respondida q.st_pergunta → q.st_pergunta = some Status.NC) :
    Spec.TopicScoreDouble rows T A = none ∨ Spec.TopicScoreDouble rows T A = some 0 := by
  unfold Spec.TopicScoreDouble
  simp only
  have hz := foldl_pontuarDouble_zero
    ((Spec.perguntasDistintas rows T A).map (fun r => r.st_pergunta)) (0, 0) rfl (by
      intro st hst
      obtain ⟨q, hq, rfl⟩ := List.mem_map.1 hst
      exact h q hq)
  split
  · right
    rw [hz, zero_div, fl_zero]
  · left
    rfl

theorem foldl_jsAdd_zero (l : List ℚ) (h : ∀ x ∈ l, x = 0) : l.foldl jsAdd 0 = 0 := by
  induction l with
  | nil => rfl
  | cons x xs ih =>
    rw [List.foldl_cons, h x (List.mem_cons_self _ _)]
    have : jsAdd 0 0 = 0 := by
      unfold jsAdd
      rw [add_zero, fl_zero]
    rw [this]
    exact ih (fun y hy => h y (List.mem_cons_of_mem _ hy))

theorem percentualDouble_zeros (l : List ℚ) (hne : l ≠ []) (h : ∀ x ∈ l, x = 0) :
    Spec.percentualDouble l = some 0 := by
  unfold Spec.percentualDouble Spec.mediaDouble Spec.somaDouble
  rw [if_neg hne, foldl_jsAdd_zero l h]
  simp only [Option.map_some', zero_div, fl_zero, zero_mul, mathRound]
  norm_num

theorem celulaDouble_of_all_NC (rows : List Row) (T : Option Nat) (M : Nat)
    (hex : ∃ A ∈ Spec.auditoriasDoMes rows M, ∃ q ∈ Spec.perguntasDistintas rows T A,
      q.st_pergunta = some Status.NC)
    (h : ∀ A ∈ Spec.auditoriasDoMes rows M, ∀ q ∈ Spec.perguntasDistintas rows T A,
      respondida q.st_pergunta → q.st_pergunta = some Status.NC) :
    Spec.celulaDouble rows T M = some 0 := by
  have hne : Spec.celulaDouble rows T M ≠ none := by
    rw [Ne, celulaDouble_eq_none_iff]
    intro hall
    obtain ⟨A, hA, q, hq, hst⟩ := hex
    exact hall A hA q hq (Or.inr (Or.inr hst))
  unfold Spec.celulaDouble at hne ⊢
  apply percentualDouble_zeros
  · intro h0
    exact hne ((percentualDouble_eq_none_iff _).2 h0)
  · intro x hx
    obtain ⟨A, hA, hAx⟩ := List.mem_filterMap.1 hx
    rcases TopicScoreDouble_of_all_NC rows T A
      (h A ((mem_auditoriasPorOrdem rows M A).1 hA)) with h1 | h1
    · rw [h1] at hAx; exact absurd hAx (by simp)
    · rw [h1] at hAx; simpa using hAx.symm

end Nulos

section Nomes

theorem find?_eq_self {κ : Type} [DecidableEq κ] (ks : List κ) (T : κ) :
    ks.find? (fun k => decide (k = T)) = if T ∈ ks then some T else none := by
  induction ks with
  | nil => rfl
  | cons k ks ih =>
    rw [List.find?_cons]
    by_cases h : k = T
    · subst h; simp
    · have h' : ¬ T = k := fun e => h e.symm
      simp [h, h', ih]

theorem nome_primeiro_par (rows : List Row) (A : Nat) (T : Option Nat) :
    (((JSMap.values (auditoriaAgrupada rows A).topicos).map
        (fun t => ((auditoriaAgrupada rows A).dt_auditoria.getMonth, t))).find?
          (fun mt => decide (mt.2.id = T))).map (fun mt => mt.2.nome_tema) =
      ((rows.filter (fun r => decide (r.auditoria_id = A))).find?
        (fun r => decide (r.topico_id = T))).map (fun r => r.nome_tema) := by
  simp only [auditoriaAgrupada, values_topicosAgrupados, List.map_map, List.find?_map,
    Option.map_map]
  have hf : ((fun mt : Option Nat × Topico => decide (mt.2.id = T)) ∘
      ((fun t => ((dataAuditoria rows A).getMonth, t)) ∘ topicoAgrupado rows A)) =
      fun k => decide (k = T) := by
    funext k; rfl
  rw [hf, find?_eq_self]
  split
  · rename_i hmem
    rw [mem_chaves] at hmem
    obtain ⟨r, hr, hrT⟩ := List.mem_map.1 hmem
    have hsome : ((linhasAuditoria rows A).find? (fun r => decide (r.topico_id = T))).isSome := by
      rw [List.find?_isSome]
      exact ⟨r, hr, by simpa using hrT⟩
    obtain ⟨r0, hr0⟩ := Option.isSome_iff_exists.1 hsome
    simp only [Option.map_some', Function.comp, topicoAgrupado, linhasTopico,
      head?_filter_eq_find?, hr0, Option.getD_some]
    rw [← linhasAuditoria_eq, hr0]
    rfl
  · rename_i hmem
    rw [mem_chaves] at hmem
    have hnone : (linhasAuditoria rows A).find? (fun r => decide (r.topico_id = T)) = none := by
      rw [List.find?_eq_none]
      intro r hr
      simp only [decide_eq_true_eq]
      intro hrT
      exact hmem (List.mem_map.2 ⟨r, hr, hrT⟩)
    rw [← linhasAuditoria_eq, hnone]
    rfl

theorem nome_primeiro_pares (rows : List Row) (T : Option Nat) (l : List Nat) :
    (((l.map (auditoriaAgrupada rows)).flatMap (fun a =>
        (JSMap.values a.topicos).map (fun t => (a.dt_auditoria.getMonth, t)))).find?
          (fun mt => decide (mt.2.id = T))).map (fun mt => mt.2.nome_tema) =
      ((l.flatMap (fun A => rows.filter (fun r => decide (r.auditoria_id = A)))).find?
        (fun r => decide (r.topico_id = T))).map (fun r => r.nome_tema) := by
  induction l with
  | nil => rfl
  | cons A l ih =>
    rw [List.map_cons, List.flatMap_cons, List.flatMap_cons, List.find?_append,
      List.find?_append, Option.map_or', Option.map_or', ih, nome_primeiro_par]

theorem nome_processo (rows : List Row) (ano : Nat) (h : rows ≠ []) (T : Option Nat) :
    ((listarDashboard rows ano).processo T).map (fun p => p.nome_tema) =
      ((Spec.porAuditoria rows).find? (fun r => decide (r.topico_id = T))).map
        (fun r => r.nome_tema) := by
  rw [processo_listarDashboard rows ano h, Option.map_map]
  unfold Spec.porAuditoria
  rw [← nome_primeiro_pares, ← auditoriasConsolidadas_eq]
  cases hg : JSMap.get (tabelas rows).processosTabela T with
  | none =>
    have hT : T ∉ (paresMesTopico (auditoriasConsolidadas rows)).map (fun mt => mt.2.id) := by
      rw [JSMap.get_eq_none_iff, tabelas_eq, keys_processosTabela, mem_chaves] at hg
      exact hg
    have hnone : (paresMesTopico (auditoriasConsolidadas rows)).find?
        (fun mt => decide (mt.2.id = T)) = none := by
      rw [List.find?_eq_none]
      intro mt hmt
      simp only [decide_eq_true_eq]
      intro hid
      exact hT (List.mem_map.2 ⟨mt, hmt, hid⟩)
    unfold paresMesTopico at hnone
    rw [hnone]
    rfl
  | some p =>
    rw [tabelas_eq] at hg
    have := (get_processosTabela_id _ T p hg).2
    unfold paresMesTopico at this
    rw [← this]
    rfl

theorem mem_porAuditoria (rows : List Row) (r : Row) :
    r ∈ Spec.porAuditoria rows ↔ r ∈ rows := by
  unfold Spec.porAuditoria
  simp only [List.mem_flatMap, mem_chaves, List.mem_map, List.mem_filter, decide_eq_true_eq]
  constructor
  · rintro ⟨A, _, hr, _⟩
    exact hr
  · intro hr
    exact ⟨r.auditoria_id, ⟨r, hr, rfl⟩, hr, rfl⟩

end Nomes

section Repetidas

theorem JSMap.update_eq_self {κ ν : Type} [DecidableEq κ] (m : JSMap κ ν) (k : κ) (f : ν → ν)
    (v : ν) (hg : JSMap.get m k = some v) (hf : f v = v) : JSMap.update m k f = m := by
  induction m with
  | nil => rfl
  | cons e m ih =>
    obtain ⟨k0, v0⟩ := e
    by_cases h : k0 = k
    · subst h
      simp only [JSMap.get, if_true, Option.some.injEq] at hg
      subst hg
      simp [JSMap.update, hf]
    · simp only [JSMap.get, h, if_false] at hg
      simp [JSMap.update, h, ih hg]

theorem JSMap.upsert_eq_self {κ ν : Type} [DecidableEq κ] (m : JSMap κ ν) (k : κ) (init : ν)
    (f : ν → ν) (v : ν) (hg : JSMap.get m k = some v) (hf : f v = v) :
    JSMap.upsert m k init f = m := by
  unfold JSMap.upsert JSMap.has
  simp only [hg, Option.isSome_some, Bool.not_true, Bool.false_eq_true, if_false]
  exact JSMap.update_eq_self m k f v hg hf

theorem subset_foldl_primeiras {α κ : Type} [DecidableEq κ] (key : α → κ) (xs acc : List α) :
    ∀ z ∈ acc, z ∈ xs.foldl (fun acc x =>
      if acc.any (fun y => decide (key y = key x)) then acc else acc ++ [x]) acc := by
  induction xs generalizing acc with
  | nil => intro z hz; exact hz
  | cons y ys ih =>
    intro z hz
    rw [List.foldl_cons]
    apply ih
    split
    · exact hz
    · exact List.mem_append_left _ hz

theorem exists_mem_foldl_primeiras {α κ : Type} [DecidableEq κ] (key : α → κ)
    (xs acc : List α) :
    ∀ y ∈ xs, ∃ z ∈ xs.foldl (fun acc x =>
      if acc.any (fun y => decide (key y = key x)) then acc else acc ++ [x]) acc,
      key z = key y := by
  induction xs generalizing acc with
  | nil => intro y hy; exact absurd hy (List.not_mem_nil _)
  | cons x xs ih =>
    intro y hy
    rw [List.foldl_cons]
    rcases List.mem_cons.1 hy with rfl | hy
    · by_cases hany : acc.any (fun z => decide (key z = key y)) = true
      · rw [if_pos hany]
        obtain ⟨z, hz, hzy⟩ := List.any_eq_true.1 hany
        exact ⟨z, subset_foldl_primeiras key xs acc z hz, by simpa using hzy⟩
      · rw [if_neg hany]
        exact ⟨y, subset_foldl_primeiras key xs _ y (by simp), rfl⟩
    · exact ih _ y hy

theorem exists_mem_primeirasPor {α κ : Type} [DecidableEq κ] (key : α → κ) (xs : List α)
    (y : α) (hy : y ∈ xs) : ∃ z ∈ Spec.primeirasPor key xs, key z = key y :=
  exists_mem_foldl_primeiras key xs [] y hy

theorem juntarPergunta_eq_self (rs : List Row) (x y : Row) (hy : y ∈ rs)
    (hq : y.pergunta_id = x.pergunta_id) :
    juntarPergunta (rs.foldl juntarPergunta []) x = rs.foldl juntarPergunta [] := by
  unfold juntarPergunta
  have hany : ((rs.foldl juntarPergunta []).any
      (fun p => decide (p.id = x.pergunta_id))) = true := by
    rw [foldl_juntarPergunta, List.any_eq_true]
    obtain ⟨z, hz, hzy⟩ := exists_mem_primeirasPor (fun r : Row => r.pergunta_id) rs y hy
    refine ⟨perguntaDe z, List.mem_map.2 ⟨z, hz, rfl⟩, ?_⟩
    simp only [decide_eq_true_eq, perguntaDe]
    exact hzy.trans hq
  change (if (!((rs.foldl juntarPergunta []).any
      (fun p => decide (p.id = x.pergunta_id)))) = true then _ else _) = _
  rw [hany]
  rfl

theorem agruparRow_eq_self (acc : List Row) (x y : Row) (hy : y ∈ acc)
    (hk : y.chave = x.chave) :
    agruparRow (auditoriasAgrupadas acc) x = auditoriasAgrupadas acc := by
  simp only [Row.chave, Prod.mk.injEq] at hk
  obtain ⟨hA, hT, hq⟩ := hk
  have hyA : y ∈ linhasAuditoria acc x.auditoria_id := by
    simp [linhasAuditoria, hy, hA]
  have hyT : y ∈ linhasTopico acc x.auditoria_id x.topico_id := by
    unfold linhasTopico
    rw [List.mem_filter]
    exact ⟨hyA, by simpa using hT⟩
  rw [agruparRow_eq]
  apply JSMap.upsert_eq_self _ _ _ _ (auditoriaAgrupada acc x.auditoria_id)
  · exact get_auditoriasAgrupadas acc x.auditoria_id (List.mem_map.2 ⟨y, hy, hA⟩)
  · unfold auditoriaAgrupada
    simp only [Auditoria.mk.injEq, true_and]
    rw [agruparTopico_eq]
    apply JSMap.upsert_eq_self _ _ _ _ (topicoAgrupado acc x.auditoria_id x.topico_id)
    · exact get_topicosAgrupados acc x.auditoria_id x.topico_id
        (List.mem_map.2 ⟨y, hyA, hT⟩)
    · unfold topicoAgrupado
      simp only [Topico.mk.injEq, true_and]
      exact juntarPergunta_eq_self _ x y hyT hq

theorem auditoriasAgrupadas_primeirasPor (rows : List Row) :
    auditoriasAgrupadas (Spec.primeirasPor Row.chave rows) = auditoriasAgrupadas rows := by
  unfold Spec.primeirasPor
  have h := foldl_proj auditoriasAgrupadas
    (fun (acc : List Row) x =>
      if acc.any (fun y => decide (y.chave = x.chave)) then acc else acc ++ [x])
    agruparRow
    (by
      intro acc x
      dsimp only
      by_cases hany : acc.any (fun y => decide (y.chave = x.chave)) = true
      · rw [if_pos hany]
        obtain ⟨y, hy, hyx⟩ := List.any_eq_true.1 hany
        exact (agruparRow_eq_self acc x y hy (by simpa using hyx)).symm
      · rw [if_neg hany]
        unfold auditoriasAgrupadas
        rw [List.foldl_append]
        rfl) rows []
  exact h

theorem primeirasPor_eq_nil_iff {α κ : Type} [DecidableEq κ] (key : α → κ) (xs : List α) :
    Spec.primeirasPor key xs = [] ↔ xs = [] := by
  constructor
  · intro h
    cases xs with
    | nil => rfl
    | cons x xs =>
      obtain ⟨z, hz, _⟩ := exists_mem_primeirasPor key (x :: xs) x (List.mem_cons_self _ _)
      rw [h] at hz
      exact absurd hz (List.not_mem_nil _)
  · rintro rfl
    rfl

theorem listarDashboard_congr (rows₁ rows₂ : List Row) (ano : Nat)
    (hnil : rows₁ = [] ↔ rows₂ = [])
    (h : auditoriasAgrupadas rows₁ = auditoriasAgrupadas rows₂) :
    listarDashboard rows₁ ano = listarDashboard rows₂ ano := by
  by_cases h1 : rows₁ = []
  · rw [h1, hnil.1 h1]
  · have h2 : rows₂ ≠ [] := fun e => h1 (hnil.2 e)
    rw [listarDashboard_of_ne_nil rows₁ ano h1, listarDashboard_of_ne_nil rows₂ ano h2]
    unfold tabelas auditoriasConsolidadas
    rw [h]

end Repetidas

section Permutacao

theorem formatar_celula_spec (rows : List Row) (T : Option Nat) (M : Nat) (p : Processo)
    (hp : JSMap.get (tabelas rows).processosTabela T = some p) :
    formatarResultado (JSMap.get p.resultados (some M)) = Spec.celulaDouble rows T M := by
  rw [formatar_celula rows T (some M) p hp, contribuicoes_celula_eq, percentualMedio_eq]
  rfl

theorem formatar_mensal_spec (rows : List Row) (M : Nat) :
    formatarResultado (JSMap.get (tabelas rows).resultadosMensaisTabela (some M)) =
      Spec.resultadoMensalDouble rows M := by
  rw [formatar_mensal, contribuicoes_mensais_eq, percentualMedio_eq]
  rfl

theorem TopicScore_perm (rows₁ rows₂ : List Row) (hp : List.Perm rows₁ rows₂)
    (hnd : (rows₁.map Row.chave).Nodup) (T : Option Nat) (A : Nat) :
    Spec.TopicScore rows₁ T A = Spec.TopicScore rows₂ T A := by
  have hnd2 : (rows₂.map Row.chave).Nodup := ((hp.map Row.chave).nodup_iff).1 hnd
  unfold Spec.TopicScore Spec.contar
  rw [perguntasDistintas_of_nodup rows₁ T A hnd, perguntasDistintas_of_nodup rows₂ T A hnd2]
  have hf := hp.filter (fun r => decide (r.auditoria_id = A ∧ r.topico_id = T))
  simp only [hf.countP_eq]

theorem mesAuditoria_perm (rows₁ rows₂ : List Row) (hp : List.Perm rows₁ rows₂)
    (hdt : mesmaData rows₁) (A : Nat) :
    Spec.mesAuditoria rows₁ A = Spec.mesAuditoria rows₂ A := by
  unfold Spec.mesAuditoria
  cases h1 : rows₁.find? (fun r => decide (r.auditoria_id = A)) with
  | none =>
    have h2 : rows₂.find? (fun r => decide (r.auditoria_id = A)) = none := by
      rw [List.find?_eq_none] at h1 ⊢
      intro r hr
      exact h1 r (hp.mem_iff.2 hr)
    rw [h2]
  | some r₁ =>
    have hr₁ := List.find?_some h1
    have hm₁ := List.mem_of_find?_eq_some h1
    have hsome : (rows₂.find? (fun r => decide (r.auditoria_id = A))).isSome := by
      rw [List.find?_isSome]
      exact ⟨r₁, hp.mem_iff.1 hm₁, hr₁⟩
    obtain ⟨r₂, h2⟩ := Option.isSome_iff_exists.1 hsome
    have hr₂ := List.find?_some h2
    have hm₂ := hp.mem_iff.2 (List.mem_of_find?_eq_some h2)
    simp only [decide_eq_true_eq] at hr₁ hr₂
    rw [h2]
    simp only [Option.some_bind]
    rw [hdt r₁ hm₁ r₂ hm₂ (hr₁.trans hr₂.symm)]

theorem auditoriasDoMes_perm (rows₁ rows₂ : List Row) (hp : List.Perm rows₁ rows₂)
    (hdt : mesmaData rows₁) (M : Nat) :
    List.Perm (Spec.auditoriasDoMes rows₁ M) (Spec.auditoriasDoMes rows₂ M) := by
  unfold Spec.auditoriasDoMes Spec.auditorias
  have hf : (fun A => decide (Spec.mesAuditoria rows₁ A = some M)) =
      fun A => decide (Spec.mesAuditoria rows₂ A = some M) := by
    funext A
    rw [mesAuditoria_perm rows₁ rows₂ hp hdt A]
  rw [hf]
  exact ((hp.map _).dedup).filter _

theorem media_resultado_perm (l₁ l₂ : List ℚ) (h : List.Perm l₁ l₂) :
    (if l₁ = [] then none else some (mathRound (100 * Spec.media l₁))) =
      (if l₂ = [] then none else some (mathRound (100 * Spec.media l₂)) : Option Int) := by
  by_cases h1 : l₁ = []
  · subst h1
    rw [← h.nil_eq]
  · have h2 : l₂ ≠ [] := by
      rintro rfl
      exact h1 h.eq_nil
    rw [if_neg h1, if_neg h2]
    unfold Spec.media
    rw [h.sum_eq, h.length_eq]

theorem celula_perm (rows₁ rows₂ : List Row) (hp : List.Perm rows₁ rows₂)
    (hnd : (rows₁.map Row.chave).Nodup) (hdt : mesmaData rows₁) (T : Option Nat) (M : Nat) :
    Spec.celula rows₁ T M = Spec.celula rows₂ T M := by
  unfold Spec.celula
  apply media_resultado_perm
  have hf : Spec.TopicScore rows₁ T = Spec.TopicScore rows₂ T := by
    funext A
    exact TopicScore_perm rows₁ rows₂ hp hnd T A
  rw [hf]
  exact (auditoriasDoMes_perm rows₁ rows₂ hp hdt M).filterMap _

theorem mediaAuditoria_perm (rows₁ rows₂ : List Row) (hp : List.Perm rows₁ rows₂)
    (hnd : (rows₁.map Row.chave).Nodup) (A : Nat) :
    Spec.mediaAuditoria rows₁ A = Spec.mediaAuditoria rows₂ A := by
  unfold Spec.mediaAuditoria Spec.topicos
  have hf : (fun T => Spec.TopicScore rows₁ T A) = fun T => Spec.TopicScore rows₂ T A := by
    funext T
    exact TopicScore_perm rows₁ rows₂ hp hnd T A
  rw [hf]
  have hperm : List.Perm
      (((rows₁.filter (fun r => decide (r.auditoria_id = A))).map
        (fun r => r.topico_id)).dedup.filterMap (fun T => Spec.TopicScore rows₂ T A))
      (((rows₂.filter (fun r => decide (r.auditoria_id = A))).map
        (fun r => r.topico_id)).dedup.filterMap (fun T => Spec.TopicScore rows₂ T A)) :=
    ((((hp.filter _).map _).dedup).filterMap _)
  simp only []
  by_cases h1 : ((rows₁.filter (fun r => decide (r.auditoria_id = A))).map
        (fun r => r.topico_id)).dedup.filterMap (fun T => Spec.TopicScore rows₂ T A) = []
  · have h2 := h1 ▸ hperm
    rw [if_pos h1, if_pos (List.Perm.nil_eq h2).symm]
  · have h2 : ¬ ((rows₂.filter (fun r => decide (r.auditoria_id = A))).map
        (fun r => r.topico_id)).dedup.filterMap (fun T => Spec.TopicScore rows₂ T A) = [] := by
      intro h2
      rw [h2] at hperm
      exact h1 hperm.eq_nil
    rw [if_neg h1, if_neg h2]
    unfold Spec.media
    rw [hperm.sum_eq, hperm.length_eq]

theorem resultadoMensal_perm (rows₁ rows₂ : List Row) (hp : List.Perm rows₁ rows₂)
    (hnd : (rows₁.map Row.chave).Nodup) (hdt : mesmaData rows₁) (M : Nat) :
    Spec.resultadoMensal rows₁ M = Spec.resultadoMensal rows₂ M := by
  unfold Spec.resultadoMensal
  apply media_resultado_perm
  have hf : Spec.mediaAuditoria rows₁ = Spec.mediaAuditoria rows₂ := by
    funext A
    exact mediaAuditoria_perm rows₁ rows₂ hp hnd A
  rw [hf]
  exact (auditoriasDoMes_perm rows₁ rows₂ hp hdt M).filterMap _

theorem resultadoMensalDouble_of_exato (rows : List Row) (ano : Nat) (h : rows ≠ [])
    (hex : semErroDeArredondamento rows ano) (M : Nat) (hM : M < 12) :
    Spec.resultadoMensalDouble rows M = Spec.resultadoMensal rows M := by
  have := hex.2 M hM
  rw [resultado_listarDashboard rows ano h M hM] at this
  exact Option.some.inj this

theorem celulaDouble_of_exato (rows : List Row) (ano : Nat) (h : rows ≠ [])
    (hex : semErroDeArredondamento rows ano) (T : Option Nat)
    (hT : T ∈ rows.map (fun r => r.topico_id)) (M : Nat) (hM : M < 12) :
    Spec.celulaDouble rows T M = Spec.celula rows T M := by
  have := hex.1 T hT M hM
  rw [celula_listarDashboard rows ano h T hT M hM] at this
  exact Option.some.inj this

theorem lt_of_mem_enum_meses (im : Nat × String) (h : im ∈ meses.enum) : im.1 < 12 := by
  have := List.fst_lt_of_mem_enum h
  simpa [meses] using this

theorem resultadosMensais_perm (rows₁ rows₂ : List Row) (ano : Nat)
    (hp : List.Perm rows₁ rows₂) (hnd : (rows₁.map Row.chave).Nodup) (hdt : mesmaData rows₁)
    (hex₁ : semErroDeArredondamento rows₁ ano) (hex₂ : semErroDeArredondamento rows₂ ano) :
    (listarDashboard rows₁ ano).resultadosMensais =
      (listarDashboard rows₂ ano).resultadosMensais := by
  by_cases h1 : rows₁ = []
  · subst h1
    rw [← hp.nil_eq]
  · have h2 : rows₂ ≠ [] := by
      rintro rfl
      exact h1 hp.eq_nil
    rw [listarDashboard_of_ne_nil rows₁ ano h1, listarDashboard_of_ne_nil rows₂ ano h2]
    unfold resultadosMensaisFormatados
    dsimp only
    apply List.map_congr_left
    intro im him
    have hM := lt_of_mem_enum_meses im him
    rw [formatar_mensal_spec, formatar_mensal_spec,
      resultadoMensalDouble_of_exato rows₁ ano h1 hex₁ im.1 hM,
      resultadoMensalDouble_of_exato rows₂ ano h2 hex₂ im.1 hM,
      resultadoMensal_perm rows₁ rows₂ hp hnd hdt]

theorem nome_of_mesmoNome (rows : List Row) (T : Option Nat) (p : Processo)
    (hp : JSMap.get (tabelas rows).processosTabela T = some p) :
    ∃ r ∈ rows, r.topico_id = T ∧ r.nome_tema = p.nome_tema := by
  have hne : rows ≠ [] := by
    rintro rfl
    simp [tabelas, auditoriasConsolidadas, auditoriasAgrupadas, JSMap.values, JSMap.get] at hp
  have h := nome_processo rows 0 hne T
  rw [processo_listarDashboard rows 0 hne, hp] at h
  simp only [Option.map_some', formatarProcesso] at h
  cases hf : (Spec.porAuditoria rows).find? (fun r => decide (r.topico_id = T)) with
  | none => rw [hf] at h; exact absurd h (by simp)
  | some r =>
    rw [hf] at h
    simp only [Option.map_some', Option.some.injEq] at h
    have hrT := List.find?_some hf
    simp only [decide_eq_true_eq] at hrT
    exact ⟨r, (mem_porAuditoria rows r).1 (List.mem_of_find?_eq_some hf), hrT, h.symm⟩

theorem processo_perm (rows₁ rows₂ : List Row) (ano : Nat)
    (hp : List.Perm rows₁ rows₂) (hnd : (rows₁.map Row.chave).Nodup) (hdt : mesmaData rows₁)
    (hnome : mesmoNome rows₁)
    (hex₁ : semErroDeArredondamento rows₁ ano) (hex₂ : semErroDeArredondamento rows₂ ano)
    (T : Option Nat) :
    (listarDashboard rows₁ ano).processo T = (listarDashboard rows₂ ano).processo T := by
  by_cases h1 : rows₁ = []
  · subst h1
    rw [← hp.nil_eq]
  · have h2 : rows₂ ≠ [] := by
      rintro rfl
      exact h1 hp.eq_nil
    rw [processo_listarDashboard rows₁ ano h1, processo_listarDashboard rows₂ ano h2]
    by_cases hT : T ∈ rows₁.map (fun r => r.topico_id)
    · have hT2 : T ∈ rows₂.map (fun r => r.topico_id) := (hp.map _).mem_iff.1 hT
      obtain ⟨p₁, hp₁⟩ := get_processosTabela_isSome rows₁ T hT
      obtain ⟨p₂, hp₂⟩ := get_processosTabela_isSome rows₂ T hT2
      rw [hp₁, hp₂]
      simp only [Option.map_some', Option.some.injEq]
      have hid₁ : p₁.id = T := by
        rw [tabelas_eq] at hp₁; exact (get_processosTabela_id _ T p₁ hp₁).1
      have hid₂ : p₂.id = T := by
        rw [tabelas_eq] at hp₂; exact (get_processosTabela_id _ T p₂ hp₂).1
      obtain ⟨r₁, hr₁, hr₁T, hn₁⟩ := nome_of_mesmoNome rows₁ T p₁ hp₁
      obtain ⟨r₂, hr₂, hr₂T, hn₂⟩ := nome_of_mesmoNome rows₂ T p₂ hp₂
      have hn : p₁.nome_tema = p₂.nome_tema := by
        rw [← hn₁, ← hn₂]
        exact hnome r₁ hr₁ r₂ (hp.mem_iff.2 hr₂) (hr₁T.trans hr₂T.symm)
      unfold formatarProcesso
      rw [hid₁, hid₂, hn]
      simp only [ProcessoFormatado.mk.injEq, true_and]
      apply List.map_congr_left
      intro im him
      have hM := lt_of_mem_enum_meses im him
      rw [formatar_celula_spec rows₁ T im.1 p₁ hp₁, formatar_celula_spec rows₂ T im.1 p₂ hp₂,
        celulaDouble_of_exato rows₁ ano h1 hex₁ T hT im.1 hM,
        celulaDouble_of_exato rows₂ ano h2 hex₂ T hT2 im.1 hM,
        celula_perm rows₁ rows₂ hp hnd hdt]
    · have hT2 : T ∉ rows₂.map (fun r => r.topico_id) := fun h => hT ((hp.map _).mem_iff.2 h)
      have hn₁ : JSMap.get (tabelas rows₁).processosTabela T = none := by
        rw [JSMap.get_eq_none_iff, mem_keys_tabelas]; exact hT
      have hn₂ : JSMap.get (tabelas rows₂).processosTabela T = none := by
        rw [JSMap.get_eq_none_iff, mem_keys_tabelas]; exact hT2
      rw [hn₁, hn₂]

theorem mem_iff_find? {α κ : Type} [DecidableEq κ] (key : α → κ) (l : List α)
    (hnd : (l.map key).Nodup) (x : α) :
    x ∈ l ↔ l.find? (fun y => decide (key y = key x)) = some x := by
  constructor
  · intro hx
    induction l with
    | nil => exact absurd hx (List.not_mem_nil _)
    | cons a l ih =>
      rw [List.map_cons, List.nodup_cons] at hnd
      rw [List.find?_cons]
      rcases List.mem_cons.1 hx with rfl | hx
      · simp
      · have hne : key a ≠ key x := by
          intro e
          exact hnd.1 (e ▸ List.mem_map.2 ⟨x, hx, rfl⟩)
        simp only [hne, decide_False]
        exact ih hnd.2 hx
  · intro h
    exact List.mem_of_find?_eq_some h

theorem processos_perm (rows₁ rows₂ : List Row) (ano : Nat)
    (hp : List.Perm rows₁ rows₂) (hnd : (rows₁.map Row.chave).Nodup) (hdt : mesmaData rows₁)
    (hnome : mesmoNome rows₁)
    (hex₁ : semErroDeArredondamento rows₁ ano) (hex₂ : semErroDeArredondamento rows₂ ano) :
    List.Perm (listarDashboard rows₁ ano).processos (listarDashboard rows₂ ano).processos := by
  by_cases h1 : rows₁ = []
  · subst h1
    rw [← hp.nil_eq]
  · have h2 : rows₂ ≠ [] := by
      rintro rfl
      exact h1 hp.eq_nil
    have hn₁ : ((listarDashboard rows₁ ano).processos.map (fun p => p.id)).Nodup := by
      rw [ids_processos rows₁ ano h1]; exact keys_tabelas_nodup rows₁
    have hn₂ : ((listarDashboard rows₂ ano).processos.map (fun p => p.id)).Nodup := by
      rw [ids_processos rows₂ ano h2]; exact keys_tabelas_nodup rows₂
    rw [List.perm_ext_iff_of_nodup hn₁.of_map hn₂.of_map]
    intro p
    rw [mem_iff_find? (fun p : ProcessoFormatado => p.id) _ hn₁ p,
      mem_iff_find? (fun p : ProcessoFormatado => p.id) _ hn₂ p]
    have := processo_perm rows₁ rows₂ ano hp hnd hdt hnome hex₁ hex₂ p.id
    unfold Dashboard.processo at this
    rw [this]

end Permutacao

section Exemplos

theorem contar_eq (s : Status) (qs : List Row) :
    Spec.contar s qs =
      (qs.map (fun r => r.st_pergunta)).countP (fun st => decide (st = some s)) := by
  unfold Spec.contar
  rw [List.countP_map]
  rfl

end Exemplos

section AuditoriaNeutra

theorem filter_auditoria_of_ne (todas : List Row) (A A' : Nat) (h : A ≠ A') :
    (todas.filter (fun r => decide (r.auditoria_id ≠ A'))).filter
        (fun r => decide (r.auditoria_id = A)) =
      todas.filter (fun r => decide (r.auditoria_id = A)) := by
  rw [List.filter_filter]
  apply List.filter_congr
  intro r _
  by_cases h1 : r.auditoria_id = A
  · simp [h1, h]
  · simp [h1]

theorem filter_topico_of_ne (todas : List Row) (A A' : Nat) (T : Option Nat) (h : A ≠ A') :
    (todas.filter (fun r => decide (r.auditoria_id ≠ A'))).filter
        (fun r => decide (r.auditoria_id = A ∧ r.topico_id = T)) =
      todas.filter (fun r => decide (r.auditoria_id = A ∧ r.topico_id = T)) := by
  rw [List.filter_filter]
  apply List.filter_congr
  intro r _
  by_cases h1 : r.auditoria_id = A
  · simp [h1, h]
  · simp [h1]

theorem TopicScore_of_sem_resposta (rows : List Row) (A : Nat) (T : Option Nat)
    (hA : ∀ r ∈ rows, r.auditoria_id = A → ¬ respondida r.st_pergunta) :
    Spec.TopicScore rows T A = none := by
  rw [TopicScore_eq_none_iff]
  intro q hq
  unfold Spec.perguntasDistintas at hq
  have hq' := mem_of_mem_primeirasPor _ _ q hq
  rw [List.mem_filter] at hq'
  simp only [decide_eq_true_eq] at hq'
  exact hA q hq'.1 hq'.2.1

theorem find?_congr_mem {α : Type} (l : List α) (p q : α → Bool)
    (h : ∀ x ∈ l, p x = q x) : l.find? p = l.find? q := by
  induction l with
  | nil => rfl
  | cons a l ih =>
    rw [List.find?_cons, List.find?_cons, h a (List.mem_cons_self _ _),
      ih (fun x hx => h x (List.mem_cons_of_mem _ hx))]

theorem mesAuditoria_filter_of_ne (todas : List Row) (A A' : Nat) (h : A ≠ A') :
    Spec.mesAuditoria (todas.filter (fun r => decide (r.auditoria_id ≠ A'))) A =
      Spec.mesAuditoria todas A := by
  unfold Spec.mesAuditoria
  rw [List.find?_filter]
  congr 1
  apply find?_congr_mem
  intro r _
  by_cases h1 : r.auditoria_id = A
  · simp [h1, h]
  · simp [h1]

theorem filterMap_filter_of_none {α β : Type} [DecidableEq α] (l : List α) (f : α → Option β)
    (a : α) (h : f a = none) :
    l.filterMap f = (l.filter (fun x => decide (x ≠ a))).filterMap f := by
  induction l with
  | nil => rfl
  | cons x l ih =>
    by_cases hx : x = a
    · subst hx
      simp [List.filterMap_cons, h, ih]
    · simp only [List.filter_cons, hx, ne_eq, not_false_eq_true, decide_True, if_true,
        List.filterMap_cons, ih]

theorem filterMap_congr_of_ne {α β : Type} [DecidableEq α] (l : List α) (f g : α → Option β)
    (a : α) (h : ∀ x, x ≠ a → f x = g x) :
    (l.filter (fun x => decide (x ≠ a))).filterMap f =
      (l.filter (fun x => decide (x ≠ a))).filterMap g := by
  apply List.filterMap_congr
  intro x hx
  have := (List.mem_filter.1 hx).2
  simp only [decide_eq_true_eq] at this
  exact h x this

theorem TopicScoreDouble_filter_of_ne (todas : List Row) (A A' : Nat) (T : Option Nat)
    (h : A ≠ A') :
    Spec.TopicScoreDouble (todas.filter (fun r => decide (r.auditoria_id ≠ A'))) T A =
      Spec.TopicScoreDouble todas T A := by
  unfold Spec.TopicScoreDouble Spec.perguntasDistintas
  rw [filter_topico_of_ne todas A A' T h]

theorem TopicScoreDouble_of_sem_resposta (rows : List Row) (A : Nat) (T : Option Nat)
    (hA : ∀ r ∈ rows, r.auditoria_id = A → ¬ respondida r.st_pergunta) :
    Spec.TopicScoreDouble rows T A = none := by
  rw [TopicScoreDouble_eq_none_iff_exato]
  exact TopicScore_of_sem_resposta rows A T hA

theorem mediaAuditoriaDouble_of_sem_resposta (rows : List Row) (A : Nat)
    (hA : ∀ r ∈ rows, r.auditoria_id = A → ¬ respondida r.st_pergunta) :
    Spec.mediaAuditoriaDouble rows A = none := by
  unfold Spec.mediaAuditoriaDouble
  rw [mediaDouble_eq_none_iff, List.filterMap_eq_nil_iff]
  intro T _
  exact TopicScoreDouble_of_sem_resposta rows A T hA

theorem mediaAuditoriaDouble_filter_of_ne (todas : List Row) (A A' : Nat) (h : A ≠ A') :
    Spec.mediaAuditoriaDouble (todas.filter (fun r => decide (r.auditoria_id ≠ A'))) A =
      Spec.mediaAuditoriaDouble todas A := by
  unfold Spec.mediaAuditoriaDouble Spec.topicosPorOrdem
  rw [filter_auditoria_of_ne todas A A' h]
  have hf : (fun T => Spec.TopicScoreDouble
      (todas.filter (fun r => decide (r.auditoria_id ≠ A'))) T A) =
      fun T => Spec.TopicScoreDouble todas T A := by
    funext T
    exact TopicScoreDouble_filter_of_ne todas A A' T h
  rw [hf]

theorem filter_inserirChave {κ : Type} [DecidableEq κ] (q : κ → Bool) (acc : List κ) (x : κ) :
    (inserirChave acc x).filter q =
      if q x = true then inserirChave (acc.filter q) x else acc.filter q := by
  unfold inserirChave
  by_cases hq : q x = true
  · rw [if_pos hq]
    by_cases hx : x ∈ acc
    · rw [if_pos hx, if_pos (List.mem_filter.2 ⟨hx, hq⟩)]
    · rw [if_neg hx, if_neg (fun h => hx (List.mem_filter.1 h).1)]
      simp [List.filter_append, hq]
  · rw [if_neg hq]
    by_cases hx : x ∈ acc
    · rw [if_pos hx]
    · rw [if_neg hx]
      simp [List.filter_append, hq]

theorem filter_foldl_inserirChave {κ : Type} [DecidableEq κ] (q : κ → Bool) (l acc : List κ) :
    (l.foldl inserirChave acc).filter q = (l.filter q).foldl inserirChave (acc.filter q) := by
  induction l generalizing acc with
  | nil => rfl
  | cons x l ih =>
    rw [List.foldl_cons, ih, filter_inserirChave]
    by_cases hq : q x = true
    · rw [if_pos hq, List.filter_cons, if_pos hq, List.foldl_cons]
    · rw [if_neg hq, List.filter_cons, if_neg hq]

theorem chaves_filter {κ : Type} [DecidableEq κ] (q : κ → Bool) (l : List κ) :
    chaves (l.filter q) = (chaves l).filter q := by
  unfold chaves
  rw [filter_foldl_inserirChave]
  rfl

theorem auditoriasPorOrdem_filter (todas : List Row) (A' M : Nat) :
    Spec.auditoriasPorOrdem (todas.filter (fun r => decide (r.auditoria_id ≠ A'))) M =
      (Spec.auditoriasPorOrdem todas M).filter (fun A => decide (A ≠ A')) := by
  unfold Spec.auditoriasPorOrdem
  have hmap : (todas.filter (fun r => decide (r.auditoria_id ≠ A'))).map
      (fun r => r.auditoria_id) =
      (todas.map (fun r => r.auditoria_id)).filter (fun A => decide (A ≠ A')) := by
    rw [List.filter_map]
    rfl
  rw [hmap, chaves_filter, List.filter_filter, List.filter_filter]
  apply List.filter_congr
  intro A _
  by_cases hne : A = A'
  · simp [hne]
  · simp only [ne_eq, hne, not_false_eq_true, decide_True, Bool.and_true, Bool.true_and]
    rw [mesAuditoria_filter_of_ne todas A A' hne]

theorem resultadoMensalDouble_filter (todas : List Row) (A' M : Nat)
    (hA : ∀ r ∈ todas, r.auditoria_id = A' → ¬ respondida r.st_pergunta) :
    Spec.resultadoMensalDouble todas M =
      Spec.resultadoMensalDouble (todas.filter (fun r => decide (r.auditoria_id ≠ A'))) M := by
  unfold Spec.resultadoMensalDouble
  rw [filterMap_filter_of_none _ (Spec.mediaAuditoriaDouble todas) A'
      (mediaAuditoriaDouble_of_sem_resposta todas A' hA),
    filterMap_congr_of_ne _ (Spec.mediaAuditoriaDouble todas)
      (Spec.mediaAuditoriaDouble (todas.filter (fun r => decide (r.auditoria_id ≠ A')))) A'
      (fun A hne => (mediaAuditoriaDouble_filter_of_ne todas A A' hne).symm),
    auditoriasPorOrdem_filter]

theorem celulaDouble_filter (todas : List Row) (A' M : Nat) (T : Option Nat)
    (hA : ∀ r ∈ todas, r.auditoria_id = A' → ¬ respondida r.st_pergunta) :
    Spec.celulaDouble todas T M =
      Spec.celulaDouble (todas.filter (fun r => decide (r.auditoria_id ≠ A'))) T M := by
  unfold Spec.celulaDouble
  rw [filterMap_filter_of_none _ (Spec.TopicScoreDouble todas T) A'
      (TopicScoreDouble_of_sem_resposta todas A' T hA),
    filterMap_congr_of_ne _ (Spec.TopicScoreDouble todas T)
      (Spec.TopicScoreDouble (todas.filter (fun r => decide (r.auditoria_id ≠ A'))) T) A'
      (fun A hne => (TopicScoreDouble_filter_of_ne todas A A' T hne).symm),
    auditoriasPorOrdem_filter]

theorem resultadosMensais_eq_of_spec (rows₁ rows₂ : List Row) (ano : Nat)
    (h1 : rows₁ ≠ []) (h2 : rows₂ ≠ [])
    (h : ∀ M, Spec.resultadoMensalDouble rows₁ M = Spec.resultadoMensalDouble rows₂ M) :
    (listarDashboard rows₁ ano).resultadosMensais =
      (listarDashboard rows₂ ano).resultadosMensais := by
  rw [listarDashboard_of_ne_nil rows₁ ano h1, listarDashboard_of_ne_nil rows₂ ano h2]
  unfold resultadosMensaisFormatados
  dsimp only
  apply List.map_congr_left
  intro im _
  rw [formatar_mensal_spec, formatar_mensal_spec, h]

theorem campos_eq_of_spec (rows₁ rows₂ : List Row) (ano : Nat)
    (h1 : rows₁ ≠ []) (h2 : rows₂ ≠ []) (T : Option Nat)
    (hT1 : T ∈ rows₁.map (fun r => r.topico_id)) (hT2 : T ∈ rows₂.map (fun r => r.topico_id))
    (h : ∀ M, Spec.celulaDouble rows₁ T M = Spec.celulaDouble rows₂ T M) :
    ((listarDashboard rows₁ ano).processo T).map (fun p => p.campos) =
      ((listarDashboard rows₂ ano).processo T).map (fun p => p.campos) := by
  rw [processo_listarDashboard rows₁ ano h1, processo_listarDashboard rows₂ ano h2]
  obtain ⟨p₁, hp₁⟩ := get_processosTabela_isSome rows₁ T hT1
  obtain ⟨p₂, hp₂⟩ := get_processosTabela_isSome rows₂ T hT2
  rw [hp₁, hp₂]
  simp only [Option.map_some', Option.some.injEq, formatarProcesso]
  apply List.map_congr_left
  intro im _
  rw [formatar_celula_spec rows₁ T im.1 p₁ hp₁, formatar_celula_spec rows₂ T im.1 p₂ hp₂, h]

theorem resultadoMensalDouble_none_of_sem_resposta (rows : List Row) (M : Nat)
    (h : ∀ A ∈ Spec.auditoriasDoMes rows M, ∀ r ∈ rows, r.auditoria_id = A →
      ¬ respondida r.st_pergunta) :
    Spec.resultadoMensalDouble rows M = none := by
  unfold Spec.resultadoMensalDouble
  rw [percentualDouble_eq_none_iff, List.filterMap_eq_nil_iff]
  intro A hA
  exact mediaAuditoriaDouble_of_sem_resposta rows A
    (h A ((mem_auditoriasPorOrdem rows M A).1 hA))

end AuditoriaNeutra

section AnoMes

theorem toDigits_quatro (n : Nat) (h1 : 1000 ≤ n) (h2 : n < 10000) :
    Nat.toDigits 10 n = [Nat.digitChar (n / 1000), Nat.digitChar (n / 100 % 10),
      Nat.digitChar (n / 10 % 10), Nat.digitChar (n % 10)] := by
  unfold Nat.toDigits
  have hf : n + 1 = (n - 3) + 1 + 1 + 1 + 1 := by omega
  rw [hf]
  have e1 : ¬ n / 10 = 0 := by omega
  have e2 : ¬ n / 10 / 10 = 0 := by omega
  have e3 : ¬ n / 10 / 10 / 10 = 0 := by omega
  have e4 : n / 10 / 10 / 10 / 10 = 0 := by omega
  have d2 : n / 10 / 10 = n / 100 := by omega
  have d3 : n / 10 / 10 / 10 = n / 1000 := by omega
  simp only [Nat.toDigitsCore, e1, e2, e3, e4, if_false, if_true]
  rw [d3, d2]
  congr 2
  omega

theorem anoStr_quatro (ano : Nat) (h1 : 1000 ≤ ano) (h2 : ano < 10000) :
    anoStr ano = ultimosDoisDigitos ano := by
  unfold anoStr ultimosDoisDigitos
  have : (toString ano).data = Nat.toDigits 10 ano := rfl
  rw [this, toDigits_quatro ano h1 h2]
  rfl

theorem mes_resultadosMensais (rows : List Row) (ano : Nat) (h : rows ≠ []) (i : Nat)
    (hi : i < 12) :
    ((listarDashboard rows ano).resultadosMensais[i]?).map (fun r => r.mes) =
      (meses[i]?).map (fun m => toUpperCase m ++ "/" ++ anoStr ano) := by
  rw [listarDashboard_of_ne_nil rows ano h]
  unfold resultadosMensaisFormatados
  interval_cases i <;> simp [meses, List.enum, List.enumFrom]

end AnoMes

section TopicosDetalhe

theorem JSMap.update_of_get_none {κ ν : Type} [DecidableEq κ] (m : JSMap κ ν) (k : κ)
    (f : ν → ν) (h : JSMap.get m k = none) : JSMap.update m k f = m := by
  induction m with
  | nil => rfl
  | cons e m ih =>
    obtain ⟨k0, v0⟩ := e
    by_cases hk : k0 = k
    · simp [JSMap.get, hk] at h
    · simp only [JSMap.get, hk, if_false] at h
      simp [JSMap.update, hk, ih h]

theorem JSMap.update_congr {κ ν : Type} [DecidableEq κ] (m : JSMap κ ν) (k : κ)
    (f g : ν → ν) (v : ν) (hg : JSMap.get m k = some v) (hfg : f v = g v) :
    JSMap.update m k f = JSMap.update m k g := by
  induction m with
  | nil => rfl
  | cons e m ih =>
    obtain ⟨k0, v0⟩ := e
    by_cases hk : k0 = k
    · subst hk
      simp only [JSMap.get, if_true, Option.some.injEq] at hg
      subst hg
      simp [JSMap.update, hfg]
    · simp only [JSMap.get, hk, if_false] at hg
      simp [JSMap.update, hk, ih hg]

theorem garantirTopico_eq (m : JSMap (Option Nat) TopicoDetalhe) (row : LinhaDetalhe) :
    garantirTopico m row =
      if !(JSMap.has m row.id_topico) then JSMap.set m row.id_topico (novoTopicoDetalhe row)
      else m := rfl

theorem passoTopicoDetalhe_eq (m : JSMap (Option Nat) TopicoDetalhe) (row : LinhaDetalhe) :
    passoTopicoDetalhe m row =
      if perguntaNova m row then
        JSMap.update (garantirTopico m row) row.id_topico (fun topicoAtual =>
          { topicoAtual with
            perguntas := topicoAtual.perguntas ++
              [{ id := row.id_pergunta
                 descricao_pergunta := row.descricao_pergunta
                 ordem_pergunta := row.ordem_pergunta }] })
      else garantirTopico m row := by
  unfold passoTopicoDetalhe JSMap.upsert perguntaNova
  rw [← garantirTopico_eq]
  cases hg : JSMap.get (garantirTopico m row) row.id_topico with
  | none =>
    simp only [Bool.false_eq_true, if_false]
    exact JSMap.update_of_get_none _ _ _ hg
  | some t =>
    simp only
    by_cases hany : t.perguntas.any (fun p => decide (p.id = row.id_pergunta)) = true
    · rw [if_neg (by simp only [hany]; decide)]
      apply JSMap.update_eq_self _ _ _ t hg
      simp only [juntarPerguntaDetalhe, hany]
      rfl
    · rw [Bool.not_eq_true] at hany
      rw [if_pos (by simp only [hany]; decide)]
      apply JSMap.update_congr _ _ _ _ t hg
      simp only [juntarPerguntaDetalhe, hany, perguntaDetalheDe]
      rfl

theorem processarRow_of_not_valida (st : EstadoDetalhe) (row : LinhaDetalhe)
    (h : row.valida = false) : processarRow st row = st := by
  unfold processarRow
  unfold LinhaDetalhe.valida at h
  rw [if_pos]
  cases h1 : truthy row.id_topico <;> cases h2 : truthy row.id_pergunta <;> simp_all

theorem topicosMap_processarRow (st : EstadoDetalhe) (row : LinhaDetalhe) :
    (processarRow st row).topicosMap =
      if row.valida then passoTopicoDetalhe st.topicosMap row else st.topicosMap := by
  cases hv : row.valida
  · rw [processarRow_of_not_valida st row hv]
    simp
  · simp only [if_true]
    unfold LinhaDetalhe.valida at hv
    simp only [Bool.and_eq_true] at hv
    unfold processarRow
    rw [if_neg (by simp [hv.1, hv.2]), passoTopicoDetalhe_eq]
    cases row.st_pergunta <;> cases perguntaNova st.topicosMap row <;> rfl

theorem foldl_ite_eq_filter {σ α : Type} (f : σ → α → σ) (p : α → Bool) (l : List α) (s : σ) :
    l.foldl (fun s x => if p x then f s x else s) s = (l.filter p).foldl f s := by
  induction l generalizing s with
  | nil => rfl
  | cons x l ih =>
    cases hp : p x <;> simp [List.filter_cons, hp, ih]

theorem topicosMap_foldl (dados : List LinhaDetalhe) (st : EstadoDetalhe) :
    (dados.foldl processarRow st).topicosMap =
      (linhasValidas dados).foldl passoTopicoDetalhe st.topicosMap := by
  rw [foldl_proj (fun st : EstadoDetalhe => st.topicosMap) processarRow
    (fun m row => if row.valida then passoTopicoDetalhe m row else m)
    topicosMap_processarRow]
  exact foldl_ite_eq_filter passoTopicoDetalhe (fun r => r.valida) dados st.topicosMap

theorem passoTopicoDetalhe_fun :
    passoTopicoDetalhe = fun m (row : LinhaDetalhe) =>
      JSMap.upsert m row.id_topico (novoTopicoDetalhe row)
        (fun t => { t with perguntas := juntarPerguntaDetalhe t.perguntas row }) := rfl

theorem keys_topicosMap (dados : List LinhaDetalhe) :
    JSMap.keys (estadoFinal dados).topicosMap =
      chaves ((linhasValidas dados).map (fun r => r.id_topico)) := by
  unfold estadoFinal
  rw [topicosMap_foldl, passoTopicoDetalhe_fun]
  exact keys_foldl_upsert (fun r : LinhaDetalhe => r.id_topico) novoTopicoDetalhe
    (fun t row => { t with perguntas := juntarPerguntaDetalhe t.perguntas row })
    (linhasValidas dados) []

theorem foldl_perguntasDetalhe (rs : List LinhaDetalhe) (t : TopicoDetalhe) :
    rs.foldl (fun t row => { t with perguntas := juntarPerguntaDetalhe t.perguntas row }) t =
      { t with perguntas := rs.foldl juntarPerguntaDetalhe t.perguntas } := by
  induction rs generalizing t with
  | nil => rfl
  | cons r rs ih => simp only [List.foldl_cons, ih]

theorem get_topicosMap (dados : List LinhaDetalhe) (T : Option Nat)
    (hT : T ∈ (linhasValidas dados).map (fun r => r.id_topico)) :
    JSMap.get (estadoFinal dados).topicosMap T = some (topicoDetalheDe dados T) := by
  unfold estadoFinal
  rw [topicosMap_foldl, passoTopicoDetalhe_fun]
  have h := get_foldl_upsert (fun r : LinhaDetalhe => r.id_topico) novoTopicoDetalhe
    (fun t row => { t with perguntas := juntarPerguntaDetalhe t.perguntas row }) T
    (linhasValidas dados)
  simp only [estadoInicial]
  rw [h]
  have hne : linhasValidasTopico dados T ≠ [] := by
    obtain ⟨r, hr, hrT⟩ := List.mem_map.1 hT
    intro hnil
    have : r ∈ linhasValidasTopico dados T := by
      simp [linhasValidasTopico, List.mem_filter, hr, hrT]
    rw [hnil] at this
    exact absurd this (List.not_mem_nil _)
  unfold topicoDetalheDe
  have hy : ∀ y ∈ linhasValidasTopico dados T, y.id_topico = T := by
    intro y hy
    simpa using (List.mem_filter.1 hy).2
  change estadoChave _ _ (linhasValidasTopico dados T) = _
  cases hl : linhasValidasTopico dados T with
  | nil => exact absurd hl hne
  | cons y ys =>
    have hyT : y.id_topico = T := hy y (by rw [hl]; exact List.mem_cons_self _ _)
    simp only [estadoChave, foldl_perguntasDetalhe, novoTopicoDetalhe, List.head?_cons,
      Option.map_some', Option.getD_some, hyT]

theorem values_topicosMap (dados : List LinhaDetalhe) :
    JSMap.values (estadoFinal dados).topicosMap =
      (chaves ((linhasValidas dados).map (fun r => r.id_topico))).map
        (topicoDetalheDe dados) := by
  rw [filterMap_get_eq_map (estadoFinal dados).topicosMap (topicoDetalheDe dados),
    keys_topicosMap]
  · rw [keys_topicosMap]; exact nodup_chaves _
  · intro T hT
    rw [keys_topicosMap, mem_chaves] at hT
    exact get_topicosMap dados T hT

theorem listaAuditoriaPorID_eq_some (r0 : LinhaDetalhe) (rest : List LinhaDetalhe)
    (h1 : truthy r0.id_auditoria = true) (h2 : truthy r0.id_cliente = true) :
    listaAuditoriaPorID (r0 :: rest) =
      some
        { auditoriaInfo :=
            { id := r0.id_auditoria
              dt_auditoria := r0.dt_auditoria
              observacao := r0.observacao
              auditorResponsavel := r0.nome_auditor
              st_auditoria := r0.st_auditoria }
          clienteInfo :=
            { id := r0.id_cliente
              razao_social := r0.nome_cliente
              cnpj := r0.cnpj
              responsavel := r0.cliente_responsavel
              telefone := r0.cliente_telefone }
          topicos :=
            (sortPorOrdem (fun t => t.ordem_topico)
              (JSMap.values (estadoFinal (r0 :: rest)).topicosMap)).map ordenarPerguntas
          respostas := (estadoFinal (r0 :: rest)).respostas
          observacoes := (estadoFinal (r0 :: rest)).observacoes
          fotos := (estadoFinal (r0 :: rest)).fotos } := by
  unfold listaAuditoriaPorID
  simp only [h1, h2, Bool.not_true, Bool.or_self, Bool.false_eq_true, if_false]
  rfl

theorem listaAuditoriaPorID_some_iff (dados : List LinhaDetalhe) (d : Detalhe)
    (h : listaAuditoriaPorID dados = some d) :
    d.topicos = (sortPorOrdem (fun t => t.ordem_topico)
        (JSMap.values (estadoFinal dados).topicosMap)).map ordenarPerguntas ∧
      d.respostas = (estadoFinal dados).respostas ∧
      d.observacoes = (estadoFinal dados).observacoes ∧
      d.fotos = (estadoFinal dados).fotos := by
  cases dados with
  | nil => simp [listaAuditoriaPorID] at h
  | cons r0 rest =>
    by_cases h1 : truthy r0.id_auditoria = true
    · by_cases h2 : truthy r0.id_cliente = true
      · rw [listaAuditoriaPorID_eq_some r0 rest h1 h2] at h
        simp only [Option.some.injEq] at h
        subst h
        exact ⟨rfl, rfl, rfl, rfl⟩
      · simp [listaAuditoriaPorID, h2] at h
    · simp [listaAuditoriaPorID, h1] at h

end TopicosDetalhe

section Ordenacao

theorem primeirasPor_append_singleton {α κ : Type} [DecidableEq κ] (key : α → κ)
    (xs : List α) (x : α) :
    Spec.primeirasPor key (xs ++ [x]) =
      if (Spec.primeirasPor key xs).any (fun y => decide (key y = key x)) then
        Spec.primeirasPor key xs
      else Spec.primeirasPor key xs ++ [x] := by
  unfold Spec.primeirasPor
  rw [List.foldl_append]
  rfl

theorem map_primeirasPor {α κ : Type} [DecidableEq κ] (key : α → κ) (xs : List α) :
    (Spec.primeirasPor key xs).map key = chaves (xs.map key) := by
  unfold Spec.primeirasPor chaves
  rw [List.foldl_map]
  apply foldl_proj (fun acc : List α => acc.map key)
  intro acc x
  dsimp only
  unfold inserirChave
  by_cases h : key x ∈ acc.map key
  · have hany : acc.any (fun y => decide (key y = key x)) = true := by
      rw [List.any_eq_true]
      obtain ⟨y, hy, hyx⟩ := List.mem_map.1 h
      exact ⟨y, hy, by simpa using hyx⟩
    rw [if_pos hany, if_pos h]
  · have hany : ¬ acc.any (fun y => decide (key y = key x)) = true := by
      rw [List.any_eq_true]
      rintro ⟨y, hy, hyx⟩
      exact h (List.mem_map.2 ⟨y, hy, by simpa using hyx⟩)
    rw [if_neg hany, if_neg h]
    simp

theorem find?_of_mem_primeirasPor {α κ : Type} [DecidableEq κ] (key : α → κ) (xs : List α)
    (z : α) (hz : z ∈ Spec.primeirasPor key xs) :
    xs.find? (fun y => decide (key y = key z)) = some z := by
  induction xs using List.reverseRecOn with
  | nil => exact absurd hz (List.not_mem_nil _)
  | append_singleton xs x ih =>
    rw [primeirasPor_append_singleton] at hz
    rw [List.find?_append]
    by_cases hany : (Spec.primeirasPor key xs).any (fun y => decide (key y = key x)) = true
    · rw [if_pos hany] at hz
      rw [ih hz]
      rfl
    · rw [if_neg hany] at hz
      rcases List.mem_append.1 hz with hz | hz
      · rw [ih hz]
        rfl
      · rw [List.mem_singleton] at hz
        subst hz
        have hnone : xs.find? (fun y => decide (key y = key z)) = none := by
          rw [List.find?_eq_none]
          intro y hy
          simp only [decide_eq_true_eq]
          intro hyz
          obtain ⟨w, hw, hwy⟩ := exists_mem_primeirasPor key xs y hy
          apply hany
          rw [List.any_eq_true]
          exact ⟨w, hw, by simpa using hwy.trans hyz⟩
        rw [hnone]
        simp

theorem foldl_juntarPerguntaDetalhe (rs : List LinhaDetalhe) :
    rs.foldl juntarPerguntaDetalhe [] =
      (Spec.primeirasPor (fun r => r.id_pergunta) rs).map perguntaDetalheDe := by
  unfold Spec.primeirasPor
  have h := foldl_proj (fun acc : List LinhaDetalhe => acc.map perguntaDetalheDe)
    (fun acc x => if acc.any (fun y => decide (y.id_pergunta = x.id_pergunta)) then acc
      else acc ++ [x]) juntarPerguntaDetalhe
    (by
      intro acc x
      have hany : (acc.map perguntaDetalheDe).any (fun p => decide (p.id = x.id_pergunta)) =
          acc.any (fun y => decide (y.id_pergunta = x.id_pergunta)) := by
        induction acc with
        | nil => rfl
        | cons a acc ih => simp only [List.map_cons, List.any_cons, ih]; rfl
      unfold juntarPerguntaDetalhe
      rw [hany]
      dsimp only
      cases acc.any (fun y => decide (y.id_pergunta = x.id_pergunta)) <;> simp) rs []
  exact h.symm

theorem sortPorOrdem_perm {α : Type} (ordem : α → Int) (l : List α) :
    List.Perm (sortPorOrdem ordem l) l :=
  List.perm_insertionSort _ l

theorem sortPorOrdem_sorted {α : Type} (ordem : α → Int) (l : List α) :
    (sortPorOrdem ordem l).Pairwise (fun a b => ordem a ≤ ordem b) := by
  haveI : IsTotal α (fun a b => ordem a ≤ ordem b) := ⟨fun a b => le_total _ _⟩
  haveI : IsTrans α (fun a b => ordem a ≤ ordem b) := ⟨fun a b c => le_trans⟩
  exact List.sorted_insertionSort (fun a b => ordem a ≤ ordem b) l

theorem sortPorOrdem_stable {α κ : Type} (ordem : α → Int) (chave : α → κ) (l : List α)
    (hnd : (l.map chave).Nodup) (a b : α) (ha : a ∈ l) (hb : b ∈ l)
    (hab : ordem a ≤ ordem b) (h : List.Sublist [chave a, chave b] (l.map chave)) :
    List.Sublist [chave a, chave b] ((sortPorOrdem ordem l).map chave) := by
  obtain ⟨l', hl', hmap⟩ := List.sublist_map_iff.1 h
  have hinj := List.inj_on_of_nodup_map hnd
  cases l' with
  | nil => simp at hmap
  | cons a0 l' =>
    cases l' with
    | nil => simp at hmap
    | cons b0 l' =>
      cases l' with
      | cons c0 l' => simp at hmap
      | nil =>
        simp only [List.map_cons, List.map_nil, List.cons.injEq, and_true] at hmap
        have ha0 : a0 ∈ l := hl'.subset (by simp)
        have hb0 : b0 ∈ l := hl'.subset (by simp)
        have e1 : a0 = a := hinj ha0 ha hmap.1.symm
        have e2 : b0 = b := hinj hb0 hb hmap.2.symm
        subst e1 e2
        exact (List.pair_sublist_insertionSort (r := fun a b => ordem a ≤ ordem b) hab
          hl').map chave

theorem mem_topicos (dados : List LinhaDetalhe) (d : Detalhe)
    (h : listaAuditoriaPorID dados = some d) (t : TopicoDetalhe) :
    t ∈ d.topicos ↔
      ∃ T ∈ (linhasValidas dados).map (fun r => r.id_topico),
        t = ordenarPerguntas (topicoDetalheDe dados T) := by
  rw [(listaAuditoriaPorID_some_iff dados d h).1, values_topicosMap]
  simp only [List.mem_map, (sortPorOrdem_perm _ _).mem_iff, mem_chaves]
  constructor
  · rintro ⟨t0, ⟨T, hT, rfl⟩, rfl⟩
    exact ⟨T, hT, rfl⟩
  · rintro ⟨T, hT, rfl⟩
    exact ⟨topicoDetalheDe dados T, ⟨T, hT, rfl⟩, rfl⟩

theorem ids_topicos (dados : List LinhaDetalhe) (d : Detalhe)
    (h : listaAuditoriaPorID dados = some d) :
    d.topicos.map (fun t => t.id) =
      (sortPorOrdem (fun t => t.ordem_topico)
        ((chaves ((linhasValidas dados).map (fun r => r.id_topico))).map
          (topicoDetalheDe dados))).map (fun t => t.id) := by
  rw [(listaAuditoriaPorID_some_iff dados d h).1, values_topicosMap, List.map_map]
  rfl

theorem ids_topicoDetalheDe (dados : List LinhaDetalhe) (ks : List (Option Nat)) :
    (ks.map (topicoDetalheDe dados)).map (fun t => t.id) = ks := by
  rw [List.map_map]
  exact List.map_id' ks

theorem ids_topicos_perm (dados : List LinhaDetalhe) (d : Detalhe)
    (h : listaAuditoriaPorID dados = some d) :
    List.Perm (d.topicos.map (fun t => t.id))
      (chaves ((linhasValidas dados).map (fun r => r.id_topico))) := by
  rw [ids_topicos dados d h]
  have := (sortPorOrdem_perm (fun t : TopicoDetalhe => t.ordem_topico)
    ((chaves ((linhasValidas dados).map (fun r => r.id_topico))).map
      (topicoDetalheDe dados))).map (fun t => t.id)
  rw [ids_topicoDetalheDe] at this
  exact this

theorem perguntas_topicoDetalheDe (dados : List LinhaDetalhe) (T : Option Nat) :
    (topicoDetalheDe dados T).perguntas =
      (Spec.primeirasPor (fun r => r.id_pergunta) (linhasValidasTopico dados T)).map
        perguntaDetalheDe := by
  unfold topicoDetalheDe
  exact foldl_juntarPerguntaDetalhe _

theorem ids_perguntas_topicoDetalheDe (dados : List LinhaDetalhe) (T : Option Nat) :
    (topicoDetalheDe dados T).perguntas.map (fun p => p.id) =
      chaves ((linhasValidasTopico dados T).map (fun r => r.id_pergunta)) := by
  rw [perguntas_topicoDetalheDe, List.map_map, ← map_primeirasPor]
  rfl

theorem mem_linhasValidasTopico (dados : List LinhaDetalhe) (T : Option Nat)
    (r : LinhaDetalhe) :
    r ∈ linhasValidasTopico dados T ↔ r ∈ dados ∧ r.valida = true ∧ r.id_topico = T := by
  unfold linhasValidasTopico linhasValidas
  simp only [List.mem_filter, decide_eq_true_eq]
  tauto

end Ordenacao

section MapasDetalhe

theorem valida_iff (row : LinhaDetalhe) :
    row.valida = true ↔ truthy row.id_topico = true ∧ truthy row.id_pergunta = true := by
  unfold LinhaDetalhe.valida
  rw [Bool.and_eq_true]

theorem processarRow_of_valida (st : EstadoDetalhe) (row : LinhaDetalhe)
    (h : row.valida = true) :
    processarRow st row =
      match row.st_pergunta with
      | some s =>
        { topicosMap := passoTopicoDetalhe st.topicosMap row
          respostas := JSMap.set st.respostas row.id_pergunta s
          observacoes := JSMap.set
            (if perguntaNova st.topicosMap row then
              JSMap.set st.observacoes row.id_pergunta "" else st.observacoes)
            row.id_pergunta (comentarioOuVazio row.comentario)
          fotos := JSMap.set
            (if perguntaNova st.topicosMap row then
              JSMap.set st.fotos row.id_pergunta [] else st.fotos)
            row.id_pergunta (fotosDe row.caminhos_fotos) }
      | none =>
        { topicosMap := passoTopicoDetalhe st.topicosMap row
          respostas := st.respostas
          observacoes :=
            if perguntaNova st.topicosMap row then
              JSMap.set st.observacoes row.id_pergunta "" else st.observacoes
          fotos :=
            if perguntaNova st.topicosMap row then
              JSMap.set st.fotos row.id_pergunta [] else st.fotos } := by
  have hv := (valida_iff row).1 h
  unfold processarRow
  rw [if_neg (by simp [hv.1, hv.2]), passoTopicoDetalhe_eq]
  cases row.st_pergunta <;> cases perguntaNova st.topicosMap row <;> rfl

theorem get_respostas_processarRow (st : EstadoDetalhe) (row : LinhaDetalhe)
    (q : Option Nat) :
    JSMap.get (processarRow st row).respostas q =
      if row.valida = true ∧ row.id_pergunta = q then
        (match row.st_pergunta with
          | some s => some s
          | none => JSMap.get st.respostas q)
      else JSMap.get st.respostas q := by
  cases hv : row.valida
  · rw [processarRow_of_not_valida st row hv]
    simp
  · rw [processarRow_of_valida st row hv]
    by_cases hq : row.id_pergunta = q
    · cases row.st_pergunta <;> simp [hq, JSMap.get_set]
    · cases row.st_pergunta <;> simp [hq, JSMap.get_set]

theorem get_observacoes_processarRow (st : EstadoDetalhe) (row : LinhaDetalhe)
    (q : Option Nat) :
    JSMap.get (processarRow st row).observacoes q =
      if row.valida = true ∧ row.id_pergunta = q then
        (match row.st_pergunta with
          | some _ => some (comentarioOuVazio row.comentario)
          | none =>
            if perguntaNova st.topicosMap row then some "" else JSMap.get st.observacoes q)
      else JSMap.get st.observacoes q := by
  cases hv : row.valida
  · rw [processarRow_of_not_valida st row hv]
    simp
  · rw [processarRow_of_valida st row hv]
    by_cases hq : row.id_pergunta = q
    · cases row.st_pergunta <;> cases perguntaNova st.topicosMap row <;>
        simp [hq, JSMap.get_set]
    · cases row.st_pergunta <;> cases perguntaNova st.topicosMap row <;>
        simp [hq, JSMap.get_set]

theorem get_fotos_processarRow (st : EstadoDetalhe) (row : LinhaDetalhe)
    (q : Option Nat) :
    JSMap.get (processarRow st row).fotos q =
      if row.valida = true ∧ row.id_pergunta = q then
        (match row.st_pergunta with
          | some _ => some (fotosDe row.caminhos_fotos)
          | none =>
            if perguntaNova st.topicosMap row then some [] else JSMap.get st.fotos q)
      else JSMap.get st.fotos q := by
  cases hv : row.valida
  · rw [processarRow_of_not_valida st row hv]
    simp
  · rw [processarRow_of_valida st row hv]
    by_cases hq : row.id_pergunta = q
    · cases row.st_pergunta <;> cases perguntaNova st.topicosMap row <;>
        simp [hq, JSMap.get_set]
    · cases row.st_pergunta <;> cases perguntaNova st.topicosMap row <;>
        simp [hq, JSMap.get_set]

/-- Rows that are skipped or belong to another question leave the three entries of `q`. -/
theorem frame_foldl (q : Option Nat) (dados : List LinhaDetalhe) (st : EstadoDetalhe)
    (h : ∀ r ∈ dados, ¬ (r.valida = true ∧ r.id_pergunta = q)) :
    JSMap.get (dados.foldl processarRow st).respostas q = JSMap.get st.respostas q ∧
      JSMap.get (dados.foldl processarRow st).observacoes q = JSMap.get st.observacoes q ∧
      JSMap.get (dados.foldl processarRow st).fotos q = JSMap.get st.fotos q := by
  induction dados generalizing st with
  | nil => exact ⟨rfl, rfl, rfl⟩
  | cons r rs ih =>
    rw [List.foldl_cons]
    have hr := h r (List.mem_cons_self _ _)
    have := ih (processarRow st r) (fun r' hr' => h r' (List.mem_cons_of_mem _ hr'))
    rw [this.1, this.2.1, this.2.2, get_respostas_processarRow, get_observacoes_processarRow,
      get_fotos_processarRow, if_neg hr, if_neg hr, if_neg hr]
    exact ⟨rfl, rfl, rfl⟩

/-- Rows without an answer status for `q` leave `respostas[q]` and can only reset the other
two entries to their defaults. -/
theorem sem_status_foldl (q : Option Nat) (dados : List LinhaDetalhe) (st : EstadoDetalhe)
    (h : ∀ r ∈ dados, r.valida = true → r.id_pergunta = q → r.st_pergunta = none) :
    JSMap.get (dados.foldl processarRow st).respostas q = JSMap.get st.respostas q ∧
      (JSMap.get (dados.foldl processarRow st).observacoes q = JSMap.get st.observacoes q ∨
        JSMap.get (dados.foldl processarRow st).observacoes q = some "") ∧
      (JSMap.get (dados.foldl processarRow st).fotos q = JSMap.get st.fotos q ∨
        JSMap.get (dados.foldl processarRow st).fotos q = some []) := by
  induction dados generalizing st with
  | nil => exact ⟨rfl, Or.inl rfl, Or.inl rfl⟩
  | cons r rs ih =>
    rw [List.foldl_cons]
    have ih' := ih (processarRow st r) (fun r' hr' => h r' (List.mem_cons_of_mem _ hr'))
    have hr := h r (List.mem_cons_self _ _)
    have e1 : JSMap.get (processarRow st r).respostas q = JSMap.get st.respostas q := by
      rw [get_respostas_processarRow]
      split
      · rename_i hc
        rw [hr hc.1 hc.2]
      · rfl
    have e2 : JSMap.get (processarRow st r).observacoes q = JSMap.get st.observacoes q ∨
        JSMap.get (processarRow st r).observacoes q = some "" := by
      rw [get_observacoes_processarRow]
      split
      · rename_i hc
        rw [hr hc.1 hc.2]
        cases perguntaNova st.topicosMap r
        · left; rfl
        · right; rfl
      · left; rfl
    have e3 : JSMap.get (processarRow st r).fotos q = JSMap.get st.fotos q ∨
        JSMap.get (processarRow st r).fotos q = some [] := by
      rw [get_fotos_processarRow]
      split
      · rename_i hc
        rw [hr hc.1 hc.2]
        cases perguntaNova st.topicosMap r
        · left; rfl
        · right; rfl
      · left; rfl
    refine ⟨ih'.1.trans e1, ?_, ?_⟩
    · rcases ih'.2.1 with h1 | h1
      · rcases e2 with h2 | h2
        · exact Or.inl (h1.trans h2)
        · exact Or.inr (h1.trans h2)
      · exact Or.inr h1
    · rcases ih'.2.2 with h1 | h1
      · rcases e3 with h2 | h2
        · exact Or.inl (h1.trans h2)
        · exact Or.inr (h1.trans h2)
      · exact Or.inr h1

/-- An entry of any of the three objects is never deleted. -/
theorem isSome_processarRow (st : EstadoDetalhe) (row : LinhaDetalhe) (q : Option Nat) :
    ((JSMap.get st.respostas q).isSome = true →
        (JSMap.get (processarRow st row).respostas q).isSome = true) ∧
      ((JSMap.get st.observacoes q).isSome = true →
        (JSMap.get (processarRow st row).observacoes q).isSome = true) ∧
      ((JSMap.get st.fotos q).isSome = true →
        (JSMap.get (processarRow st row).fotos q).isSome = true) := by
  rw [get_respostas_processarRow, get_observacoes_processarRow, get_fotos_processarRow]
  refine ⟨?_, ?_, ?_⟩
  · intro h
    split
    · cases row.st_pergunta
      · exact h
      · rfl
    · exact h
  · intro h
    split
    · cases row.st_pergunta
      · cases perguntaNova st.topicosMap row
        · exact h
        · rfl
      · rfl
    · exact h
  · intro h
    split
    · cases row.st_pergunta
      · cases perguntaNova st.topicosMap row
        · exact h
        · rfl
      · rfl
    · exact h

theorem isSome_foldl (q : Option Nat) (dados : List LinhaDetalhe) (st : EstadoDetalhe) :
    ((JSMap.get st.respostas q).isSome = true →
        (JSMap.get (dados.foldl processarRow st).respostas q).isSome = true) ∧
      ((JSMap.get st.observacoes q).isSome = true →
        (JSMap.get (dados.foldl processarRow st).observacoes q).isSome = true) ∧
      ((JSMap.get st.fotos q).isSome = true →
        (JSMap.get (dados.foldl processarRow st).fotos q).isSome = true) := by
  induction dados generalizing st with
  | nil => exact ⟨id, id, id⟩
  | cons r rs ih =>
    rw [List.foldl_cons]
    have h1 := isSome_processarRow st r q
    have h2 := ih (processarRow st r)
    exact ⟨fun h => h2.1 (h1.1 h), fun h => h2.2.1 (h1.2.1 h), fun h => h2.2.2 (h1.2.2 h)⟩

theorem perguntaNova_eq (m : JSMap (Option Nat) TopicoDetalhe) (row : LinhaDetalhe) :
    perguntaNova m row =
      !(((JSMap.get m row.id_topico).getD (novoTopicoDetalhe row)).perguntas.any
        (fun p => decide (p.id = row.id_pergunta))) := by
  unfold perguntaNova
  rw [garantirTopico_eq]
  unfold JSMap.has
  cases hg : JSMap.get m row.id_topico with
  | none => simp [JSMap.get_set, novoTopicoDetalhe]
  | some t => simp [hg]

end MapasDetalhe

section EntradasDetalhe

theorem entradasPresentes_processarRow (st : EstadoDetalhe) (row : LinhaDetalhe)
    (h : entradasPresentes st) : entradasPresentes (processarRow st row) := by
  cases hv : row.valida
  · rw [processarRow_of_not_valida st row hv]
    exact h
  · intro T t hget p hp
    have hmono := isSome_processarRow st row p.id
    rw [topicosMap_processarRow, hv, if_pos rfl] at hget
    unfold passoTopicoDetalhe at hget
    rw [JSMap.get_upsert] at hget
    by_cases hT : row.id_topico = T
    · rw [if_pos hT] at hget
      simp only [Option.some.injEq] at hget
      subst hget
      simp only at hp
      unfold juntarPerguntaDetalhe at hp
      have hold : p ∈ ((JSMap.get st.topicosMap row.id_topico).getD
          (novoTopicoDetalhe row)).perguntas →
          (JSMap.get (processarRow st row).observacoes p.id).isSome = true ∧
            (JSMap.get (processarRow st row).fotos p.id).isSome = true := by
        intro hp'
        cases hg : JSMap.get st.topicosMap row.id_topico with
        | none =>
          rw [hg] at hp'
          simp [novoTopicoDetalhe] at hp'
        | some t0 =>
          rw [hg] at hp'
          have := h row.id_topico t0 hg p hp'
          exact ⟨hmono.2.1 this.1, hmono.2.2 this.2⟩
      by_cases hany : ((JSMap.get st.topicosMap row.id_topico).getD
          (novoTopicoDetalhe row)).perguntas.any
            (fun p => decide (p.id = row.id_pergunta)) = true
      · rw [hany] at hp
        exact hold hp
      · rw [Bool.not_eq_true] at hany
        rw [hany] at hp
        simp only [Bool.not_false, if_true] at hp
        rcases List.mem_append.1 hp with hp | hp
        · exact hold hp
        · rw [List.mem_singleton] at hp
          subst hp
          have hnova : perguntaNova st.topicosMap row = true := by
            rw [perguntaNova_eq, hany]
            rfl
          rw [get_observacoes_processarRow, get_fotos_processarRow]
          simp only [perguntaDetalheDe, hv, and_self, if_true, hnova]
          cases row.st_pergunta <;> exact ⟨rfl, rfl⟩
    · rw [if_neg hT] at hget
      have := h T t hget p hp
      exact ⟨hmono.2.1 this.1, hmono.2.2 this.2⟩

theorem entradasPresentes_foldl (dados : List LinhaDetalhe) (st : EstadoDetalhe)
    (h : entradasPresentes st) : entradasPresentes (dados.foldl processarRow st) := by
  induction dados generalizing st with
  | nil => exact h
  | cons r rs ih => exact ih _ (entradasPresentes_processarRow st r h)

theorem entradasPresentes_estadoFinal (dados : List LinhaDetalhe) :
    entradasPresentes (estadoFinal dados) := by
  apply entradasPresentes_foldl
  intro T t hget
  simp [estadoInicial, JSMap.get] at hget

theorem mem_perguntas_ordenarPerguntas (t : TopicoDetalhe) (p : PerguntaDetalhe) :
    p ∈ (ordenarPerguntas t).perguntas ↔ p ∈ t.perguntas :=
  (sortPorOrdem_perm _ _).mem_iff

theorem presenca_entradas (dados : List LinhaDetalhe) (d : Detalhe)
    (h : listaAuditoriaPorID dados = some d) (t : TopicoDetalhe) (ht : t ∈ d.topicos)
    (p : PerguntaDetalhe) (hp : p ∈ t.perguntas) :
    (JSMap.get d.observacoes p.id).isSome = true ∧ (JSMap.get d.fotos p.id).isSome = true := by
  obtain ⟨T, hT, rfl⟩ := (mem_topicos dados d h t).1 ht
  rw [mem_perguntas_ordenarPerguntas] at hp
  have hs := listaAuditoriaPorID_some_iff dados d h
  rw [hs.2.2.1, hs.2.2.2]
  exact entradasPresentes_estadoFinal dados T _ (get_topicosMap dados T hT) p hp

theorem get_estadoInicial (q : Option Nat) :
    JSMap.get estadoInicial.respostas q = none ∧ JSMap.get estadoInicial.observacoes q = none ∧
      JSMap.get estadoInicial.fotos q = none := ⟨rfl, rfl, rfl⟩

theorem respostas_isSome_iff (dados : List LinhaDetalhe) (q : Option Nat) :
    (JSMap.get (estadoFinal dados).respostas q).isSome = true ↔
      ∃ r ∈ dados, r.valida = true ∧ r.id_pergunta = q ∧ r.st_pergunta ≠ none := by
  constructor
  · intro hs
    by_contra hno
    have hall : ∀ r ∈ dados, r.valida = true → r.id_pergunta = q → r.st_pergunta = none := by
      intro r hr hv hq
      by_contra hst
      exact hno ⟨r, hr, hv, hq, hst⟩
    have := (sem_status_foldl q dados estadoInicial hall).1
    unfold estadoFinal at hs
    rw [this] at hs
    simp [estadoInicial, JSMap.get] at hs
  · rintro ⟨r, hr, hv, hq, hst⟩
    obtain ⟨pre, post, rfl⟩ := List.append_of_mem hr
    unfold estadoFinal
    rw [List.foldl_append, List.foldl_cons]
    apply (isSome_foldl q post _).1
    rw [get_respostas_processarRow, if_pos ⟨hv, hq⟩]
    cases hs : r.st_pergunta with
    | none => exact absurd hs hst
    | some s => rfl

theorem sem_status_estadoFinal (dados : List LinhaDetalhe) (d : Detalhe)
    (h : listaAuditoriaPorID dados = some d) (t : TopicoDetalhe) (ht : t ∈ d.topicos)
    (p : PerguntaDetalhe) (hp : p ∈ t.perguntas)
    (hno : ∀ r ∈ dados, r.valida = true → r.id_pergunta = p.id → r.st_pergunta = none) :
    JSMap.get d.respostas p.id = none ∧ JSMap.get d.observacoes p.id = some "" ∧
      JSMap.get d.fotos p.id = some [] := by
  have hpres := presenca_entradas dados d h t ht p hp
  obtain ⟨_, e1, e2, e3⟩ := listaAuditoriaPorID_some_iff dados d h
  rw [e2, e3] at hpres
  rw [e1, e2, e3]
  have hsem := sem_status_foldl p.id dados estadoInicial hno
  change JSMap.get (estadoFinal dados).respostas p.id = _ ∧
    (JSMap.get (estadoFinal dados).observacoes p.id = _ ∨
      JSMap.get (estadoFinal dados).observacoes p.id = _) ∧
    (JSMap.get (estadoFinal dados).fotos p.id = _ ∨
      JSMap.get (estadoFinal dados).fotos p.id = _) at hsem
  refine ⟨hsem.1, ?_, ?_⟩
  · rcases hsem.2.1 with h1 | h1
    · rw [h1] at hpres
      simp [estadoInicial, JSMap.get] at hpres
    · exact h1
  · rcases hsem.2.2 with h1 | h1
    · rw [h1] at hpres
      simp [estadoInicial, JSMap.get] at hpres
    · exact h1

theorem valores_respondida (pre post : List LinhaDetalhe) (r : LinhaDetalhe) (s : Status)
    (hv : r.valida = true) (hs : r.st_pergunta = some s)
    (hpost : ∀ r' ∈ post, ¬ (r'.valida = true ∧ r'.id_pergunta = r.id_pergunta)) :
    JSMap.get (estadoFinal (pre ++ r :: post)).respostas r.id_pergunta = some s ∧
      JSMap.get (estadoFinal (pre ++ r :: post)).observacoes r.id_pergunta =
        some (comentarioOuVazio r.comentario) ∧
      JSMap.get (estadoFinal (pre ++ r :: post)).fotos r.id_pergunta =
        some (fotosDe r.caminhos_fotos) := by
  unfold estadoFinal
  rw [List.foldl_append, List.foldl_cons]
  have hf := frame_foldl r.id_pergunta post
    (processarRow (pre.foldl processarRow estadoInicial) r) hpost
  have hc : r.valida = true ∧ r.id_pergunta = r.id_pergunta := ⟨hv, rfl⟩
  rw [hf.1, hf.2.1, hf.2.2, get_respostas_processarRow, get_observacoes_processarRow,
    get_fotos_processarRow]
  simp only [hs, hv, and_self, if_true]

theorem mem_perguntas_of_valida (dados : List LinhaDetalhe) (d : Detalhe)
    (h : listaAuditoriaPorID dados = some d) (r : LinhaDetalhe) (hr : r ∈ dados)
    (hv : r.valida = true) :
    ∃ t ∈ d.topicos, t.id = r.id_topico ∧ ∃ p ∈ t.perguntas, p.id = r.id_pergunta := by
  have hT : r.id_topico ∈ (linhasValidas dados).map (fun r => r.id_topico) :=
    List.mem_map.2 ⟨r, by simp [linhasValidas, hr, hv], rfl⟩
  refine ⟨ordenarPerguntas (topicoDetalheDe dados r.id_topico),
    (mem_topicos dados d h _).2 ⟨r.id_topico, hT, rfl⟩, rfl, ?_⟩
  have hq : r.id_pergunta ∈ (topicoDetalheDe dados r.id_topico).perguntas.map (fun p => p.id) := by
    rw [ids_perguntas_topicoDetalheDe, mem_chaves]
    exact List.mem_map.2 ⟨r, (mem_linhasValidasTopico dados _ r).2 ⟨hr, hv, rfl⟩, rfl⟩
  obtain ⟨p, hp, hpq⟩ := List.mem_map.1 hq
  exact ⟨p, (mem_perguntas_ordenarPerguntas _ p).2 hp, hpq⟩

theorem foldl_processarRow_filter (p : LinhaDetalhe → Bool) (dados : List LinhaDetalhe)
    (st : EstadoDetalhe) (hp : ∀ r ∈ dados, p r = false → r.valida = false) :
    dados.foldl processarRow st = (dados.filter p).foldl processarRow st := by
  induction dados generalizing st with
  | nil => rfl
  | cons r rs ih =>
    have ih' := fun st => ih st (fun r' hr' => hp r' (List.mem_cons_of_mem _ hr'))
    cases hpr : p r
    · rw [List.filter_cons, hpr, List.foldl_cons,
        processarRow_of_not_valida st r (hp r (List.mem_cons_self _ _) hpr)]
      exact ih' st
    · rw [List.filter_cons, hpr, List.foldl_cons]
      simp only [if_true, List.foldl_cons]
      exact ih' _

theorem listaAuditoriaPorID_filter (p : LinhaDetalhe → Bool) (r0 : LinhaDetalhe)
    (rest : List LinhaDetalhe) (hp : ∀ r ∈ rest, p r = false → r.valida = false) :
    listaAuditoriaPorID (r0 :: rest) = listaAuditoriaPorID (r0 :: rest.filter p) := by
  unfold listaAuditoriaPorID
  simp only [List.foldl_cons]
  rw [foldl_processarRow_filter p rest _ hp]

theorem splitVirgula_ne_nil (cs : List Char) : splitVirgula cs ≠ [] := by
  induction cs with
  | nil => simp [splitVirgula]
  | cons c cs ih =>
    unfold splitVirgula
    split
    · simp
    · split <;> simp

theorem splitVirgula_sem_virgula (cs : List Char) :
    ∀ piece ∈ splitVirgula cs, ',' ∉ piece := by
  induction cs with
  | nil => simp [splitVirgula]
  | cons c cs ih =>
    unfold splitVirgula
    split
    · intro piece hp
      rcases List.mem_cons.1 hp with rfl | hp
      · simp
      · exact ih piece hp
    · rename_i hc
      cases hs : splitVirgula cs with
      | nil => exact absurd hs (splitVirgula_ne_nil cs)
      | cons hd tl =>
        rw [hs] at ih
        simp only
        intro piece hp
        rcases List.mem_cons.1 hp with rfl | hp
        · intro hmem
          rcases List.mem_cons.1 hmem with h1 | h1
          · exact hc h1.symm
          · exact ih hd (List.mem_cons_self _ _) h1
        · exact ih piece (List.mem_cons_of_mem _ hp)

theorem intercalate_splitVirgula (cs : List Char) :
    List.intercalate [','] (splitVirgula cs) = cs := by
  induction cs with
  | nil => simp [splitVirgula, List.intercalate]
  | cons c cs ih =>
    unfold splitVirgula
    cases hs : splitVirgula cs with
    | nil => exact absurd hs (splitVirgula_ne_nil cs)
    | cons hd tl =>
      rw [hs] at ih
      split
      · rename_i hc
        subst hc
        simp only [List.intercalate, List.intersperse_cons₂, List.flatten_cons,
          List.nil_append, List.singleton_append] at ih ⊢
        rw [ih]
      · simp only
        cases tl with
        | nil =>
          simp only [List.intercalate, List.intersperse_single, List.flatten_cons,
            List.flatten_nil, List.append_nil] at ih ⊢
          rw [ih]
        | cons hd2 tl2 =>
          simp only [List.intercalate, List.intersperse_cons₂, List.flatten_cons,
            List.cons_append] at ih ⊢
          rw [ih]

end EntradasDetalhe

section Overall

theorem foldl_add_eq_sum (l : List Int) (a : Int) :
    l.foldl (fun acc curr => acc + curr) a = a + l.sum := by
  induction l generalizing a with
  | nil => simp
  | cons x xs ih => rw [List.foldl_cons, ih, List.sum_cons]; ring

theorem cast_sum_int (l : List Int) : ((l.sum : Int) : ℚ) = (l.map (fun n : Int => (n : ℚ))).sum := by
  induction l with
  | nil => simp
  | cons x xs ih => simp [List.sum_cons, ih]

theorem overallResult_eq (d : Dashboard) :
    overallResult (some d) =
      if Spec.resultadosNumericos d = [] then none
      else some (mathRound (Spec.media ((Spec.resultadosNumericos d).map (fun n : Int => (n : ℚ))))) := by
  unfold overallResult Spec.resultadosNumericos
  have hfm : (d.resultadosMensais.map (fun r => r.resultado)).filterMap id =
      d.resultadosMensais.filterMap (fun r => r.resultado) := by
    rw [List.filterMap_map]
    rfl
  simp only [hfm]
  generalize d.resultadosMensais.filterMap (fun r => r.resultado) = l
  cases l with
  | nil => simp
  | cons x xs =>
    simp only [List.length_cons, gt_iff_lt, Nat.succ_pos, if_true, if_false, reduceCtorEq,
      Option.some.injEq]
    unfold Spec.media
    rw [foldl_add_eq_sum, zero_add, cast_sum_int]
    simp

theorem sum_bounds_cem (l : List ℚ) (h : ∀ x ∈ l, 0 ≤ x ∧ x ≤ 100) :
    0 ≤ l.sum ∧ l.sum ≤ 100 * (l.length : ℚ) := by
  induction l with
  | nil => simp
  | cons x xs ih =>
    have hx := h x (List.mem_cons_self _ _)
    have hxs := ih (fun y hy => h y (List.mem_cons_of_mem _ hy))
    simp only [List.sum_cons, List.length_cons, Nat.cast_add, Nat.cast_one]
    constructor
    · linarith [hx.1, hxs.1]
    · linarith [hx.2, hxs.2]

theorem overallResult_bounds (d : Dashboard)
    (h : ∀ n ∈ Spec.resultadosNumericos d, 0 ≤ n ∧ n ≤ 100) (s : Int)
    (hs : overallResult (some d) = some s) : 0 ≤ s ∧ s ≤ 100 := by
  rw [overallResult_eq] at hs
  split at hs
  · exact absurd hs (by simp)
  · rename_i hne
    simp only [Option.some.injEq] at hs
    subst hs
    have hb := sum_bounds_cem ((Spec.resultadosNumericos d).map (fun n : Int => (n : ℚ))) (by
      intro x hx
      obtain ⟨n, hn, rfl⟩ := List.mem_map.1 hx
      have := h n hn
      exact ⟨by exact_mod_cast this.1, by exact_mod_cast this.2⟩)
    have hlen : (0 : ℚ) < (((Spec.resultadosNumericos d).map (fun n : Int => (n : ℚ))).length : ℚ) := by
      rw [List.length_map]
      have : 0 < (Spec.resultadosNumericos d).length := List.length_pos.2 hne
      exact_mod_cast this
    have h0 : 0 ≤ Spec.media ((Spec.resultadosNumericos d).map (fun n : Int => (n : ℚ))) :=
      div_nonneg hb.1 hlen.le
    have h1 : Spec.media ((Spec.resultadosNumericos d).map (fun n : Int => (n : ℚ))) ≤ 100 := by
      unfold Spec.media
      rw [div_le_iff₀ hlen]
      exact hb.2
    unfold mathRound
    constructor
    · apply Int.floor_nonneg.2
      linarith
    · have : ⌊Spec.media ((Spec.resultadosNumericos d).map (fun n : Int => (n : ℚ))) + 1 / 2⌋ < 101 := by
        rw [Int.floor_lt]
        push_cast
        linarith
      omega

end Overall

section CamposDetalhe

theorem campos_topicoDetalheDe (dados : List LinhaDetalhe) (T : Option Nat)
    (hT : T ∈ (linhasValidas dados).map (fun r => r.id_topico)) :
    ∃ r, (linhasValidas dados).find? (fun r => decide (r.id_topico = T)) = some r ∧
      (topicoDetalheDe dados T).nome_tema = r.nome_tema ∧
      (topicoDetalheDe dados T).requisitos = r.requisitos ∧
      (topicoDetalheDe dados T).ordem_topico = r.ordem_topico := by
  obtain ⟨r0, hr0, hr0T⟩ := List.mem_map.1 hT
  have hsome : ((linhasValidas dados).find? (fun r => decide (r.id_topico = T))).isSome := by
    rw [List.find?_isSome]
    exact ⟨r0, hr0, by simpa using hr0T⟩
  obtain ⟨r, hr⟩ := Option.isSome_iff_exists.1 hsome
  refine ⟨r, hr, ?_⟩
  unfold topicoDetalheDe linhasValidasTopico
  simp only [head?_filter_eq_find?, hr, Option.map_some', Option.getD_some, and_self]

theorem campos_perguntaDetalhe (dados : List LinhaDetalhe) (T : Option Nat)
    (p : PerguntaDetalhe) (hp : p ∈ (topicoDetalheDe dados T).perguntas) :
    ∃ r, (linhasValidasTopico dados T).find? (fun r => decide (r.id_pergunta = p.id)) = some r ∧
      p.descricao_pergunta = r.descricao_pergunta ∧ p.ordem_pergunta = r.ordem_pergunta := by
  rw [perguntas_topicoDetalheDe] at hp
  obtain ⟨z, hz, rfl⟩ := List.mem_map.1 hp
  exact ⟨z, find?_of_mem_primeirasPor (fun r : LinhaDetalhe => r.id_pergunta) _ z hz, rfl, rfl⟩

theorem mem_linhasValidas (dados : List LinhaDetalhe) (r : LinhaDetalhe) :
    r ∈ linhasValidas dados ↔ r ∈ dados ∧ r.valida = true := by
  unfold linhasValidas
  rw [List.mem_filter]

theorem mem_ids_topicos (dados : List LinhaDetalhe) (d : Detalhe)
    (h : listaAuditoriaPorID dados = some d) (T : Option Nat) :
    T ∈ d.topicos.map (fun t => t.id) ↔
      ∃ r ∈ dados, r.valida = true ∧ r.id_topico = T := by
  rw [(ids_topicos_perm dados d h).mem_iff, mem_chaves, List.mem_map]
  constructor
  · rintro ⟨r, hr, rfl⟩
    exact ⟨r, ((mem_linhasValidas dados r).1 hr).1, ((mem_linhasValidas dados r).1 hr).2, rfl⟩
  · rintro ⟨r, hr, hv, rfl⟩
    exact ⟨r, (mem_linhasValidas dados r).2 ⟨hr, hv⟩, rfl⟩

theorem ids_perguntas_ordenarPerguntas_perm (dados : List LinhaDetalhe) (T : Option Nat) :
    List.Perm ((ordenarPerguntas (topicoDetalheDe dados T)).perguntas.map (fun p => p.id))
      (chaves ((linhasValidasTopico dados T).map (fun r => r.id_pergunta))) := by
  rw [← ids_perguntas_topicoDetalheDe]
  exact (sortPorOrdem_perm _ _).map _

theorem topicos_sorted (dados : List LinhaDetalhe) (d : Detalhe)
    (h : listaAuditoriaPorID dados = some d) :
    d.topicos.Pairwise (fun a b => a.ordem_topico ≤ b.ordem_topico) := by
  rw [(listaAuditoriaPorID_some_iff dados d h).1, List.pairwise_map]
  exact sortPorOrdem_sorted (fun t : TopicoDetalhe => t.ordem_topico) _

theorem topicos_stable (dados : List LinhaDetalhe) (d : Detalhe)
    (h : listaAuditoriaPorID dados = some d) (a b : TopicoDetalhe) (ha : a ∈ d.topicos)
    (hb : b ∈ d.topicos) (hab : a.ordem_topico ≤ b.ordem_topico)
    (hsub : List.Sublist [a.id, b.id]
      (chaves ((linhasValidas dados).map (fun r => r.id_topico)))) :
    List.Sublist [a.id, b.id] (d.topicos.map (fun t => t.id)) := by
  obtain ⟨Ta, hTa, rfl⟩ := (mem_topicos dados d h a).1 ha
  obtain ⟨Tb, hTb, rfl⟩ := (mem_topicos dados d h b).1 hb
  rw [ids_topicos dados d h]
  have hids := ids_topicoDetalheDe dados
    (chaves ((linhasValidas dados).map (fun r => r.id_topico)))
  have hnd : (((chaves ((linhasValidas dados).map (fun r => r.id_topico))).map
      (topicoDetalheDe dados)).map (fun t => t.id)).Nodup := by
    rw [hids]; exact nodup_chaves _
  have hsub' : List.Sublist [(topicoDetalheDe dados Ta).id, (topicoDetalheDe dados Tb).id]
      (((chaves ((linhasValidas dados).map (fun r => r.id_topico))).map
        (topicoDetalheDe dados)).map (fun t => t.id)) := by
    rw [hids]; exact hsub
  exact sortPorOrdem_stable (fun t : TopicoDetalhe => t.ordem_topico) (fun t => t.id) _ hnd
    (topicoDetalheDe dados Ta) (topicoDetalheDe dados Tb)
    (List.mem_map.2 ⟨Ta, (mem_chaves _ _).2 hTa, rfl⟩)
    (List.mem_map.2 ⟨Tb, (mem_chaves _ _).2 hTb, rfl⟩) hab hsub'

theorem perguntas_stable (dados : List LinhaDetalhe) (T : Option Nat)
    (p q : PerguntaDetalhe) (hp : p ∈ (ordenarPerguntas (topicoDetalheDe dados T)).perguntas)
    (hq : q ∈ (ordenarPerguntas (topicoDetalheDe dados T)).perguntas)
    (hpq : p.ordem_pergunta ≤ q.ordem_pergunta)
    (hsub : List.Sublist [p.id, q.id]
      (chaves ((linhasValidasTopico dados T).map (fun r => r.id_pergunta)))) :
    List.Sublist [p.id, q.id]
      ((ordenarPerguntas (topicoDetalheDe dados T)).perguntas.map (fun p => p.id)) := by
  rw [mem_perguntas_ordenarPerguntas] at hp hq
  have hnd : ((topicoDetalheDe dados T).perguntas.map (fun p => p.id)).Nodup := by
    rw [ids_perguntas_topicoDetalheDe]; exact nodup_chaves _
  have hsub' : List.Sublist [p.id, q.id]
      ((topicoDetalheDe dados T).perguntas.map (fun p => p.id)) := by
    rw [ids_perguntas_topicoDetalheDe]; exact hsub
  exact sortPorOrdem_stable (fun p : PerguntaDetalhe => p.ordem_pergunta) (fun p => p.id) _ hnd
    p q hp hq hpq hsub'

theorem valida_of_temIds_false (r : LinhaDetalhe) (h : r.temIds = false) :
    r.valida = false := by
  unfold LinhaDetalhe.temIds at h
  unfold LinhaDetalhe.valida
  cases h1 : r.id_topico <;> cases h2 : r.id_pergunta <;> simp_all [truthy]

theorem not_mem_map_of_nodup_middle {α β : Type} (f : α → β) (pre post : List α) (r : α)
    (hnd : ((pre ++ r :: post).map f).Nodup) : ∀ r' ∈ pre ++ post, f r' ≠ f r := by
  rw [List.map_append, List.map_cons] at hnd
  have h1 := (List.nodup_append.1 hnd).2.1
  have h2 := (List.nodup_append.1 hnd).2.2
  rw [List.nodup_cons] at h1
  intro r' hr' heq
  rcases List.mem_append.1 hr' with hm | hm
  · exact h2 (List.mem_map.2 ⟨r', hm, rfl⟩) (by rw [heq]; exact List.mem_cons_self _ _)
  · exact h1.1 (heq ▸ List.mem_map.2 ⟨r', hm, rfl⟩)

end CamposDetalhe

section NuloSse

theorem truthy_eq_false_iff (id : Option Nat) : truthy id = false ↔ idFalsy id := by
  unfold idFalsy
  cases id with
  | none => simp [truthy]
  | some n => simp [truthy]

theorem truthy_eq_true_iff (id : Option Nat) : truthy id = true ↔ ¬ idFalsy id := by
  rw [← truthy_eq_false_iff]
  simp

theorem listaAuditoriaPorID_eq_none_iff (dados : List LinhaDetalhe) :
    listaAuditoriaPorID dados = none ↔
      dados = [] ∨ ∃ infoRow, dados.head? = some infoRow ∧
        (idFalsy infoRow.id_auditoria ∨ idFalsy infoRow.id_cliente) := by
  cases dados with
  | nil => simp [listaAuditoriaPorID]
  | cons r0 rest =>
    simp only [List.head?_cons, Option.some.injEq, exists_eq_left', false_or,
      ← truthy_eq_false_iff, reduceCtorEq]
    unfold listaAuditoriaPorID
    by_cases h1 : truthy r0.id_auditoria = true
    · by_cases h2 : truthy r0.id_cliente = true
      · simp [h1, h2]
      · simp [h1, h2]
    · simp [h1]

end NuloSse

section MesesComDados

theorem JSMap.mem_of_get_eq_some {κ ν : Type} [DecidableEq κ] (m : JSMap κ ν) (k : κ) (v : ν)
    (h : JSMap.get m k = some v) : (k, v) ∈ m := by
  induction m with
  | nil => simp [JSMap.get] at h
  | cons e m ih =>
    obtain ⟨k', v'⟩ := e
    simp only [JSMap.get] at h
    by_cases hk : k' = k
    · rw [if_pos hk] at h
      simp only [Option.some.injEq] at h
      rw [hk, h]
      exact List.mem_cons_self _ _
    · rw [if_neg hk] at h
      exact List.mem_cons_of_mem _ (ih h)

theorem mem_topicos_spec (rows : List Row) (A : Nat) (T : Option Nat) :
    T ∈ Spec.topicos rows A ↔ ∃ r ∈ rows, r.auditoria_id = A ∧ r.topico_id = T := by
  unfold Spec.topicos
  simp only [List.mem_dedup, List.mem_map, List.mem_filter, decide_eq_true_eq]
  constructor
  · rintro ⟨r, ⟨hr, hA⟩, hT⟩
    exact ⟨r, hr, hA, hT⟩
  · rintro ⟨r, hr, hA, hT⟩
    exact ⟨r, ⟨hr, hA⟩, hT⟩

theorem TopicScore_none_of_not_mem (rows : List Row) (A : Nat) (T : Option Nat)
    (h : T ∉ Spec.topicos rows A) : Spec.TopicScore rows T A = none := by
  rw [TopicScore_eq_none_iff]
  intro q hq
  exfalso
  apply h
  have hq' := mem_of_mem_primeirasPor _ _ q hq
  simp only [List.mem_filter, decide_eq_true_eq] at hq'
  exact (mem_topicos_spec rows A T).2 ⟨q, hq'.1, hq'.2.1, hq'.2.2⟩

theorem mediaAuditoria_eq_none_iff (rows : List Row) (A : Nat) :
    Spec.mediaAuditoria rows A = none ↔ ∀ T, Spec.TopicScore rows T A = none := by
  unfold Spec.mediaAuditoria
  simp only []
  constructor
  · intro h T
    split at h
    · rename_i h0
      rw [List.filterMap_eq_nil_iff] at h0
      by_cases hT : T ∈ Spec.topicos rows A
      · exact h0 T hT
      · exact TopicScore_none_of_not_mem rows A T hT
    · exact absurd h (by simp)
  · intro h
    rw [if_pos]
    rw [List.filterMap_eq_nil_iff]
    intro T _
    exact h T

theorem resultadoMensal_eq_none_iff (rows : List Row) (M : Nat) :
    Spec.resultadoMensal rows M = none ↔
      ∀ A ∈ Spec.auditoriasDoMes rows M, ∀ T, Spec.TopicScore rows T A = none := by
  unfold Spec.resultadoMensal
  simp only []
  constructor
  · intro h A hA
    split at h
    · rename_i h0
      rw [List.filterMap_eq_nil_iff] at h0
      exact (mediaAuditoria_eq_none_iff rows A).1 (h0 A hA)
    · exact absurd h (by simp)
  · intro h
    rw [if_pos]
    rw [List.filterMap_eq_nil_iff]
    intro A hA
    exact (mediaAuditoria_eq_none_iff rows A).2 (h A hA)

theorem celula_eq_none_iff_scores (rows : List Row) (T : Option Nat) (M : Nat) :
    Spec.celula rows T M = none ↔
      ∀ A ∈ Spec.auditoriasDoMes rows M, Spec.TopicScore rows T A = none := by
  rw [celula_eq_none_iff]
  constructor
  · intro h A hA
    exact (TopicScore_eq_none_iff rows T A).2 (h A hA)
  · intro h A hA
    exact (TopicScore_eq_none_iff rows T A).1 (h A hA)

theorem resultadoMensal_none_iff_celulas (rows : List Row) (M : Nat) :
    Spec.resultadoMensal rows M = none ↔
      ∀ T ∈ rows.map (fun r => r.topico_id), Spec.celula rows T M = none := by
  rw [resultadoMensal_eq_none_iff]
  constructor
  · intro h T _
    rw [celula_eq_none_iff_scores]
    intro A hA
    exact h A hA T
  · intro h A hA T
    by_cases hT : T ∈ Spec.topicos rows A
    · obtain ⟨r, hr, _, hrT⟩ := (mem_topicos_spec rows A T).1 hT
      have hmem : T ∈ rows.map (fun r => r.topico_id) := List.mem_map.2 ⟨r, hr, hrT⟩
      exact (celula_eq_none_iff_scores rows T M).1 (h T hmem) A hA
    · exact TopicScore_none_of_not_mem rows A T hT

theorem mediaAuditoriaDouble_eq_none_iff_exato (rows : List Row) (A : Nat) :
    Spec.mediaAuditoriaDouble rows A = none ↔ Spec.mediaAuditoria rows A = none := by
  rw [mediaAuditoria_eq_none_iff]
  unfold Spec.mediaAuditoriaDouble
  rw [mediaDouble_eq_none_iff, List.filterMap_eq_nil_iff]
  constructor
  · intro h T
    by_cases hT : T ∈ Spec.topicos rows A
    · exact (TopicScoreDouble_eq_none_iff_exato rows T A).1
        (h T ((mem_topicosPorOrdem rows A T).2 hT))
    · exact TopicScore_none_of_not_mem rows A T hT
  · intro h T _
    exact (TopicScoreDouble_eq_none_iff_exato rows T A).2 (h T)

theorem resultadoMensalDouble_eq_none_iff_exato (rows : List Row) (M : Nat) :
    Spec.resultadoMensalDouble rows M = none ↔ Spec.resultadoMensal rows M = none := by
  rw [resultadoMensal_eq_none_iff]
  unfold Spec.resultadoMensalDouble
  rw [percentualDouble_eq_none_iff, List.filterMap_eq_nil_iff]
  constructor
  · intro h A hA
    exact (mediaAuditoria_eq_none_iff rows A).1
      ((mediaAuditoriaDouble_eq_none_iff_exato rows A).1
        (h A ((mem_auditoriasPorOrdem rows M A).2 hA)))
  · intro h A hA
    exact (mediaAuditoriaDouble_eq_none_iff_exato rows A).2
      ((mediaAuditoria_eq_none_iff rows A).2 (h A ((mem_auditoriasPorOrdem rows M A).1 hA)))

theorem resultadoMensalDouble_none_iff_celulas (rows : List Row) (M : Nat) :
    Spec.resultadoMensalDouble rows M = none ↔
      ∀ T ∈ rows.map (fun r => r.topico_id), Spec.celulaDouble rows T M = none := by
  rw [resultadoMensalDouble_eq_none_iff_exato, resultadoMensal_none_iff_celulas]
  constructor
  · intro h T hT
    exact (celulaDouble_eq_none_iff_exato rows T M).2 (h T hT)
  · intro h T hT
    exact (celulaDouble_eq_none_iff_exato rows T M).1 (h T hT)

theorem celula_of_mem_processos (rows : List Row) (ano : Nat) (h : rows ≠ [])
    (p : ProcessoFormatado) (hp : p ∈ (listarDashboard rows ano).processos)
    (M : Nat) (hM : M < 12) :
    ∃ T ∈ rows.map (fun r => r.topico_id),
      p.id = T ∧ p.celula M = some (Spec.celulaDouble rows T M) := by
  rw [listarDashboard_of_ne_nil rows ano h] at hp
  simp only [List.mem_map] at hp
  obtain ⟨v, hv, rfl⟩ := hp
  obtain ⟨e, he, rfl⟩ := List.mem_map.1 hv
  have hget := JSMap.get_of_mem _ (keys_tabelas_nodup rows) e.1 e.2 he
  have hkey : e.1 ∈ JSMap.keys (tabelas rows).processosTabela := List.mem_map.2 ⟨e, he, rfl⟩
  have hid : e.2.id = e.1 := by
    have := processosTabela_id (paresMesTopico (auditoriasConsolidadas rows)) e
      (by rw [tabelas_eq] at he; exact he)
    exact this
  refine ⟨e.1, (mem_keys_tabelas rows e.1).1 hkey, ?_, ?_⟩
  · simpa [formatarProcesso] using hid
  · unfold ProcessoFormatado.celula
    rw [campo_formatarProcesso e.2 M hM, formatar_celula_spec rows e.1 M e.2 hget]

theorem exists_mem_processos (rows : List Row) (ano : Nat) (h : rows ≠ [])
    (T : Option Nat) (hT : T ∈ rows.map (fun r => r.topico_id)) (M : Nat) (hM : M < 12) :
    ∃ p ∈ (listarDashboard rows ano).processos,
      p.id = T ∧ p.celula M = some (Spec.celulaDouble rows T M) := by
  obtain ⟨v, hv⟩ := get_processosTabela_isSome rows T hT
  have hmem : (T, v) ∈ (tabelas rows).processosTabela :=
    JSMap.mem_of_get_eq_some _ T v hv
  have hid : v.id = T :=
    processosTabela_id (paresMesTopico (auditoriasConsolidadas rows)) (T, v)
      (by rw [tabelas_eq] at hmem; exact hmem)
  refine ⟨formatarProcesso v, ?_, ?_, ?_⟩
  · rw [listarDashboard_of_ne_nil rows ano h]
    exact List.mem_map.2 ⟨v, List.mem_map.2 ⟨(T, v), hmem, rfl⟩, rfl⟩
  · simpa [formatarProcesso] using hid
  · unfold ProcessoFormatado.celula
    rw [campo_formatarProcesso v M hM, formatar_celula_spec rows T M v hv]

end MesesComDados

section Monotonia

theorem contar_pontos (qs : List Row) :
    ((Spec.contar Status.CF qs : ℚ) + (1 / 2) * (Spec.contar Status.PC qs : ℚ) =
        (qs.map (fun r => pontosStatus r.st_pergunta)).sum) ∧
      Spec.contar Status.CF qs + Spec.contar Status.PC qs + Spec.contar Status.NC qs =
        qs.countP (fun r => decide (respondida r.st_pergunta)) := by
  unfold Spec.contar
  induction qs with
  | nil => simp
  | cons q qs ih =>
    obtain ⟨ih1, ih2⟩ := ih
    rw [List.map_cons, List.sum_cons, ← ih1]
    simp only [List.countP_cons]
    rw [← ih2]
    rcases hq : q.st_pergunta with _ | s
    · simp [pontosStatus, respondida]
    · cases s
      · simp [pontosStatus, respondida]
        constructor
        · ring
        · omega
      · simp [pontosStatus, respondida]
        omega
      · simp [pontosStatus, respondida]
        constructor
        · ring
        · omega
      · simp [pontosStatus, respondida]

end Monotonia

section MonotoniaLinhas

theorem chave_map (f : Row → Row) (hf : melhoraLinhas f) (rows : List Row) :
    (rows.map f).map Row.chave = rows.map Row.chave := by
  rw [List.map_map]
  apply List.map_congr_left
  intro x _
  obtain ⟨h1, _, h3, h4, _⟩ := hf x
  simp [Row.chave, h1, h3, h4]

theorem topico_id_map (f : Row → Row) (hf : melhoraLinhas f) (rows : List Row) :
    (rows.map f).map (fun r => r.topico_id) = rows.map (fun r => r.topico_id) := by
  rw [List.map_map]
  apply List.map_congr_left
  intro x _
  exact (hf x).2.2.1

theorem mesAuditoria_map (f : Row → Row) (hf : melhoraLinhas f) (rows : List Row) (A : Nat) :
    Spec.mesAuditoria (rows.map f) A = Spec.mesAuditoria rows A := by
  unfold Spec.mesAuditoria
  induction rows with
  | nil => rfl
  | cons x rows ih =>
    rw [List.map_cons, List.find?_cons, List.find?_cons]
    obtain ⟨h1, h2, _⟩ := hf x
    rw [h1]
    by_cases hA : x.auditoria_id = A
    · simp [hA, h2]
    · simp only [hA, decide_False]
      exact ih

theorem filter_ids_map (f : Row → Row) (hf : melhoraLinhas f) (rows : List Row)
    (p : Nat → Option Nat → Bool) :
    (rows.map f).filter (fun r => p r.auditoria_id r.topico_id) =
      (rows.filter (fun r => p r.auditoria_id r.topico_id)).map f := by
  induction rows with
  | nil => rfl
  | cons x rows ih =>
    obtain ⟨h1, _, h3, _⟩ := hf x
    rw [List.map_cons, List.filter_cons, List.filter_cons, h1, h3]
    by_cases hp : p x.auditoria_id x.topico_id = true
    · rw [if_pos hp, if_pos hp, ih, List.map_cons]
    · rw [if_neg hp, if_neg hp, ih]

theorem perguntasDistintas_map (f : Row → Row) (hf : melhoraLinhas f) (rows : List Row)
    (hnd : (rows.map Row.chave).Nodup) (T : Option Nat) (A : Nat) :
    Spec.perguntasDistintas (rows.map f) T A = (Spec.perguntasDistintas rows T A).map f := by
  rw [perguntasDistintas_of_nodup rows T A hnd,
    perguntasDistintas_of_nodup (rows.map f) T A (by rw [chave_map f hf]; exact hnd)]
  exact filter_ids_map f hf rows (fun a t => decide (a = A ∧ t = T))

theorem auditoriasPorOrdem_map (f : Row → Row) (hf : melhoraLinhas f) (rows : List Row)
    (M : Nat) :
    Spec.auditoriasPorOrdem (rows.map f) M = Spec.auditoriasPorOrdem rows M := by
  unfold Spec.auditoriasPorOrdem
  have hids : (rows.map f).map (fun r => r.auditoria_id) =
      rows.map (fun r => r.auditoria_id) := by
    rw [List.map_map]
    apply List.map_congr_left
    intro x _
    exact (hf x).1
  rw [hids]
  apply List.filter_congr
  intro A _
  rw [mesAuditoria_map f hf]

theorem topicosPorOrdem_map (f : Row → Row) (hf : melhoraLinhas f) (rows : List Row)
    (A : Nat) :
    Spec.topicosPorOrdem (rows.map f) A = Spec.topicosPorOrdem rows A := by
  unfold Spec.topicosPorOrdem
  rw [filter_ids_map f hf rows (fun a _ => decide (a = A)), topico_id_map f hf]

theorem pontuarDouble_mono (acc acc' : ℚ × ℚ) (st st' : Option Status)
    (h1 : acc.1 ≤ acc'.1) (h2 : acc.2 = acc'.2) (h3 : fl acc.1 = acc.1)
    (hp : pontosStatus st ≤ pontosStatus st') (hr : respondida st' ↔ respondida st) :
    (Spec.pontuarDouble acc st).1 ≤ (Spec.pontuarDouble acc' st').1 ∧
      (Spec.pontuarDouble acc st).2 = (Spec.pontuarDouble acc' st').2 ∧
      fl (Spec.pontuarDouble acc st).1 = (Spec.pontuarDouble acc st).1 := by
  have h4 : acc.1 ≤ fl (acc'.1 + 1 / 2) :=
    le_trans (le_of_eq h3.symm) (fl_mono _ _ (by linarith))
  have h5 : acc.1 ≤ fl (acc'.1 + 1) :=
    le_trans (le_of_eq h3.symm) (fl_mono _ _ (by linarith))
  unfold respondida at hr
  rcases st with _ | st <;> rcases st' with _ | st'
  · exact ⟨h1, h2, h3⟩
  · cases st'
    · exact absurd hr (by decide)
    · exact absurd hr (by decide)
    · exact absurd hr (by decide)
    · exact ⟨h1, h2, h3⟩
  · cases st
    · exact absurd hr (by decide)
    · exact absurd hr (by decide)
    · exact absurd hr (by decide)
    · exact ⟨h1, h2, h3⟩
  · cases st <;> cases st'
    · exact ⟨fl_mono _ _ (by linarith), by simp only [Spec.pontuarDouble, h2], fl_fl _⟩
    · exact absurd hp (by norm_num [pontosStatus])
    · exact absurd hp (by norm_num [pontosStatus])
    · exact absurd hr (by decide)
    · exact ⟨h5, by simp only [Spec.pontuarDouble, h2], h3⟩
    · exact ⟨h1, by simp only [Spec.pontuarDouble, h2], h3⟩
    · exact ⟨h4, by simp only [Spec.pontuarDouble, h2], h3⟩
    · exact absurd hr (by decide)
    · exact ⟨fl_mono _ _ (by linarith), by simp only [Spec.pontuarDouble, h2], fl_fl _⟩
    · exact absurd hp (by norm_num [pontosStatus])
    · exact ⟨fl_mono _ _ (by linarith), by simp only [Spec.pontuarDouble, h2], fl_fl _⟩
    · exact absurd hr (by decide)
    · exact absurd hr (by decide)
    · exact absurd hr (by decide)
    · exact absurd hr (by decide)
    · exact ⟨h1, h2, h3⟩

theorem foldl_pontuarDouble_mono (f : Row → Row) (hf : melhoraLinhas f) (qs : List Row)
    (acc acc' : ℚ × ℚ) (h1 : acc.1 ≤ acc'.1) (h2 : acc.2 = acc'.2) (h3 : fl acc.1 = acc.1) :
    ((qs.map (fun r => r.st_pergunta)).foldl Spec.pontuarDouble acc).1 ≤
        (((qs.map f).map (fun r => r.st_pergunta)).foldl Spec.pontuarDouble acc').1 ∧
      ((qs.map (fun r => r.st_pergunta)).foldl Spec.pontuarDouble acc).2 =
        (((qs.map f).map (fun r => r.st_pergunta)).foldl Spec.pontuarDouble acc').2 := by
  induction qs generalizing acc acc' with
  | nil => exact ⟨h1, h2⟩
  | cons q qs ih =>
    simp only [List.map_cons, List.foldl_cons]
    obtain ⟨a, b, c⟩ := pontuarDouble_mono acc acc' q.st_pergunta (f q).st_pergunta h1 h2 h3
      (hf q).2.2.2.2.1 (hf q).2.2.2.2.2
    exact ih _ _ a b c

theorem TopicScoreDouble_mono (f : Row → Row) (hf : melhoraLinhas f) (rows : List Row)
    (hnd : (rows.map Row.chave).Nodup) (T : Option Nat) (A : Nat) :
    mesmoOuMaior (Spec.TopicScoreDouble rows T A) (Spec.TopicScoreDouble (rows.map f) T A) := by
  unfold Spec.TopicScoreDouble
  rw [perguntasDistintas_map f hf rows hnd]
  obtain ⟨hs, hc⟩ := foldl_pontuarDouble_mono f hf (Spec.perguntasDistintas rows T A)
    (0, 0) (0, 0) (le_refl _) rfl fl_zero
  simp only
  rw [← hc]
  unfold mesmoOuMaior
  by_cases h0 : 0 < ((List.map (fun r => r.st_pergunta)
      (Spec.perguntasDistintas rows T A)).foldl Spec.pontuarDouble (0, 0)).2
  · right
    rw [if_pos h0, if_pos h0]
    exact ⟨_, _, rfl, rfl, fl_mono _ _ (div_le_div_of_nonneg_right hs h0.le)⟩
  · left
    rw [if_neg h0, if_neg h0]
    exact ⟨rfl, rfl⟩

end MonotoniaLinhas

section MonotoniaMedias

theorem mathRound_mono (x y : ℚ) (h : x ≤ y) : mathRound x ≤ mathRound y := by
  unfold mathRound
  exact Int.floor_mono (by linarith)

theorem eq_nil_iff_of_length {α : Type} (l l' : List α) (hlen : l'.length = l.length) :
    l = [] ↔ l' = [] := by
  constructor
  · intro h
    rw [h] at hlen
    exact List.length_eq_zero.1 hlen
  · intro h
    rw [h] at hlen
    exact List.length_eq_zero.1 hlen.symm

theorem filterMap_forall₂ {α : Type} (l : List α) (g g' : α → Option ℚ)
    (h : ∀ a ∈ l, mesmoOuMaior (g a) (g' a)) :
    List.Forall₂ (fun x y : ℚ => x ≤ y) (l.filterMap g) (l.filterMap g') := by
  induction l with
  | nil => exact List.Forall₂.nil
  | cons a l ih =>
    have ih' := ih (fun x hx => h x (List.mem_cons_of_mem _ hx))
    rcases h a (List.mem_cons_self _ _) with ⟨h1, h2⟩ | ⟨x, y, h1, h2, hxy⟩
    · rw [List.filterMap_cons_none h1, List.filterMap_cons_none h2]
      exact ih'
    · rw [List.filterMap_cons_some h1, List.filterMap_cons_some h2]
      exact List.Forall₂.cons hxy ih'

theorem foldl_jsAdd_mono (l l' : List ℚ) (h : List.Forall₂ (fun x y : ℚ => x ≤ y) l l')
    (s s' : ℚ) (hs : s ≤ s') : l.foldl jsAdd s ≤ l'.foldl jsAdd s' := by
  induction h generalizing s s' with
  | nil => exact hs
  | cons hxy _ ih =>
    rw [List.foldl_cons, List.foldl_cons]
    exact ih _ _ (fl_mono _ _ (by linarith))

theorem foldl_contar_congr (l l' : List ℚ) (h : List.Forall₂ (fun x y : ℚ => x ≤ y) l l')
    (c : ℚ) : l.foldl (fun c _ => jsAdd c 1) c = l'.foldl (fun c _ => jsAdd c 1) c := by
  induction h generalizing c with
  | nil => rfl
  | cons _ _ ih =>
    rw [List.foldl_cons, List.foldl_cons]
    exact ih _

theorem mediaDouble_mono (l l' : List ℚ) (h : List.Forall₂ (fun x y : ℚ => x ≤ y) l l') :
    mesmoOuMaior (Spec.mediaDouble l) (Spec.mediaDouble l') := by
  unfold Spec.mediaDouble mesmoOuMaior
  have hlen := h.length_eq
  by_cases h0 : l = []
  · left
    rw [if_pos h0, if_pos ((eq_nil_iff_of_length l l' hlen.symm).1 h0)]
    exact ⟨rfl, rfl⟩
  · right
    rw [if_neg h0, if_neg (fun e => h0 ((eq_nil_iff_of_length l l' hlen.symm).2 e))]
    refine ⟨_, _, rfl, rfl, fl_mono _ _ ?_⟩
    have hc : Spec.contagemDouble l = Spec.contagemDouble l' := foldl_contar_congr l l' h 0
    rw [← hc]
    exact div_le_div_of_nonneg_right (foldl_jsAdd_mono l l' h 0 0 (le_refl _))
      (le_trans zero_le_one (contagemDouble_pos l h0))

theorem percentualDouble_mono (l l' : List ℚ)
    (h : List.Forall₂ (fun x y : ℚ => x ≤ y) l l') :
    naoDiminui (Spec.percentualDouble l) (Spec.percentualDouble l') := by
  unfold Spec.percentualDouble naoDiminui
  rcases mediaDouble_mono l l' h with ⟨h1, _⟩ | ⟨a, b, h1, h2, hab⟩
  · left
    rw [h1]
    rfl
  · right
    rw [h1, h2]
    exact ⟨_, _, rfl, rfl, mathRound_mono _ _ (fl_mono _ _ (by linarith))⟩

theorem mediaAuditoriaDouble_mono (f : Row → Row) (hf : melhoraLinhas f) (rows : List Row)
    (hnd : (rows.map Row.chave).Nodup) (A : Nat) :
    mesmoOuMaior (Spec.mediaAuditoriaDouble rows A)
      (Spec.mediaAuditoriaDouble (rows.map f) A) := by
  unfold Spec.mediaAuditoriaDouble
  rw [topicosPorOrdem_map f hf]
  exact mediaDouble_mono _ _ (filterMap_forall₂ (Spec.topicosPorOrdem rows A)
    (fun T => Spec.TopicScoreDouble rows T A)
    (fun T => Spec.TopicScoreDouble (rows.map f) T A)
    (fun T _ => TopicScoreDouble_mono f hf rows hnd T A))

theorem celulaDouble_mono (f : Row → Row) (hf : melhoraLinhas f) (rows : List Row)
    (hnd : (rows.map Row.chave).Nodup) (T : Option Nat) (M : Nat) :
    naoDiminui (Spec.celulaDouble rows T M) (Spec.celulaDouble (rows.map f) T M) := by
  unfold Spec.celulaDouble
  rw [auditoriasPorOrdem_map f hf]
  exact percentualDouble_mono _ _ (filterMap_forall₂ (Spec.auditoriasPorOrdem rows M)
    (Spec.TopicScoreDouble rows T) (Spec.TopicScoreDouble (rows.map f) T)
    (fun A _ => TopicScoreDouble_mono f hf rows hnd T A))

theorem resultadoMensalDouble_mono (f : Row → Row) (hf : melhoraLinhas f) (rows : List Row)
    (hnd : (rows.map Row.chave).Nodup) (M : Nat) :
    naoDiminui (Spec.resultadoMensalDouble rows M)
      (Spec.resultadoMensalDouble (rows.map f) M) := by
  unfold Spec.resultadoMensalDouble
  rw [auditoriasPorOrdem_map f hf]
  exact percentualDouble_mono _ _ (filterMap_forall₂ (Spec.auditoriasPorOrdem rows M)
    (Spec.mediaAuditoriaDouble rows) (Spec.mediaAuditoriaDouble (rows.map f))
    (fun A _ => mediaAuditoriaDouble_mono f hf rows hnd A))

theorem melhoraLinhas_trocar (r : Row) (s : Status) (hs : melhora r.st_pergunta s) :
    melhoraLinhas (trocar r (r.comStatus s)) := by
  intro x
  unfold trocar
  by_cases hx : x = r
  · rw [if_pos hx, hx]
    refine ⟨rfl, rfl, rfl, rfl, ?_, ?_⟩
    · rcases hs with ⟨h1, h2 | h2⟩ | ⟨h1, h2⟩ <;>
        simp only [Row.comStatus, h1, h2, pontosStatus] <;> norm_num
    · rcases hs with ⟨h1, h2 | h2⟩ | ⟨h1, h2⟩ <;>
        simp [Row.comStatus, h1, h2, respondida]
  · rw [if_neg hx]
    exact ⟨rfl, rfl, rfl, rfl, le_refl _, Iff.rfl⟩

theorem map_trocar_of_not_mem (r r' : Row) (l : List Row) (h : r ∉ l) :
    l.map (trocar r r') = l := by
  induction l with
  | nil => rfl
  | cons x l ih =>
    rw [List.map_cons, ih (fun hm => h (List.mem_cons_of_mem _ hm))]
    have hx : x ≠ r := fun e => h (e ▸ List.mem_cons_self _ _)
    simp only [trocar, if_neg hx]

theorem map_trocar (pre post : List Row) (r r' : Row)
    (hnd : ((pre ++ r :: post).map Row.chave).Nodup) :
    (pre ++ r :: post).map (trocar r r') = pre ++ r' :: post := by
  have hnd' : (pre ++ r :: post).Nodup := List.Nodup.of_map _ hnd
  rw [List.nodup_middle, List.nodup_cons] at hnd'
  have h1 : r ∉ pre := fun hm => hnd'.1 (List.mem_append_left _ hm)
  have h2 : r ∉ post := fun hm => hnd'.1 (List.mem_append_right _ hm)
  rw [List.map_append, List.map_cons, map_trocar_of_not_mem r r' pre h1,
    map_trocar_of_not_mem r r' post h2]
  simp only [trocar, if_true]

theorem celula_some_imp (rows : List Row) (ano : Nat) (h : rows ≠ []) (T : Option Nat)
    (M : Nat) (a : Option Int) (ha : (listarDashboard rows ano).celula T M = some a) :
    T ∈ rows.map (fun r => r.topico_id) ∧ M < 12 := by
  unfold Dashboard.celula at ha
  rw [processo_listarDashboard rows ano h] at ha
  constructor
  · rw [← mem_keys_tabelas, ← JSMap.get_isSome_iff]
    cases hg : JSMap.get (tabelas rows).processosTabela T with
    | none => rw [hg] at ha; simp at ha
    | some p => rfl
  · by_contra hM
    have hnone : meses[M]? = none := by
      rw [List.getElem?_eq_none_iff]
      simp only [meses, List.length_cons, List.length_nil]
      omega
    rw [hnone] at ha
    cases hg : JSMap.get (tabelas rows).processosTabela T with
    | none => rw [hg] at ha; simp at ha
    | some p => rw [hg] at ha; simp at ha

theorem resultado_some_imp (rows : List Row) (ano : Nat) (h : rows ≠ [])
    (M : Nat) (a : Option Int) (ha : (listarDashboard rows ano).resultado M = some a) :
    M < 12 := by
  unfold Dashboard.resultado at ha
  rw [listarDashboard_of_ne_nil rows ano h] at ha
  by_contra hM
  have hnone : (resultadosMensaisFormatados (tabelas rows).resultadosMensaisTabela ano)[M]? =
      none := by
    rw [List.getElem?_eq_none_iff]
    simp only [resultadosMensaisFormatados, List.length_map, List.enum_length, meses,
      List.length_cons, List.length_nil]
    omega
  simp only at ha
  rw [hnone] at ha
  simp at ha

end MonotoniaMedias

section Amendadas

theorem auditoriasPorOrdem_perm (rows : List Row) (M : Nat) :
    List.Perm (Spec.auditoriasPorOrdem rows M) (Spec.auditoriasDoMes rows M) := by
  unfold Spec.auditoriasPorOrdem Spec.auditoriasDoMes Spec.auditorias
  exact (chaves_perm_dedup _).filter _

theorem auditoriasPorOrdem_singleton (rows : List Row) (M A : Nat)
    (h : Spec.auditoriasDoMes rows M = [A]) : Spec.auditoriasPorOrdem rows M = [A] := by
  have hp := auditoriasPorOrdem_perm rows M
  rw [h] at hp
  exact List.perm_singleton.1 hp

theorem celulaDouble_CF_PC_NC (rows : List Row) (T : Option Nat) (M A : Nat)
    (hA : Spec.auditoriasDoMes rows M = [A])
    (hq : (Spec.perguntasDistintas rows T A).map (fun r => r.st_pergunta) =
      [some Status.CF, some Status.PC, some Status.NC]) :
    Spec.celulaDouble rows T M = some 50 := by
  have hs : Spec.TopicScoreDouble rows T A = some (1 / 2) := by
    unfold Spec.TopicScoreDouble
    simp only [hq]
    decide!
  unfold Spec.celulaDouble
  rw [auditoriasPorOrdem_singleton rows M A hA]
  simp only [List.filterMap_cons, hs, List.filterMap_nil]
  decide!

theorem resultadoMensalDouble_of_medias (rows : List Row) (M : Nat) (l : List ℚ)
    (h : (Spec.auditoriasPorOrdem rows M).filterMap (Spec.mediaAuditoriaDouble rows) = l) :
    Spec.resultadoMensalDouble rows M = Spec.percentualDouble l := by
  unfold Spec.resultadoMensalDouble
  rw [h]

theorem celula_none_iff_perm (rows₁ rows₂ : List Row) (ano : Nat)
    (hp : List.Perm rows₁ rows₂) (hnd : (rows₁.map Row.chave).Nodup) (hdt : mesmaData rows₁)
    (T : Option Nat) (M : Nat)
    (h : (listarDashboard rows₁ ano).celula T M = some none) :
    (listarDashboard rows₂ ano).celula T M = some none := by
  have h1 : rows₁ ≠ [] := by
    rintro rfl
    simp [listarDashboard, Dashboard.celula, Dashboard.processo] at h
  have h2 : rows₂ ≠ [] := by
    rintro rfl
    exact h1 hp.eq_nil
  obtain ⟨hT, hM⟩ := celula_some_imp rows₁ ano h1 T M none h
  have hT2 : T ∈ rows₂.map (fun r => r.topico_id) := (hp.map _).mem_iff.1 hT
  rw [celula_listarDashboard rows₁ ano h1 T hT M hM] at h
  rw [celula_listarDashboard rows₂ ano h2 T hT2 M hM]
  have hn := Option.some.inj h
  rw [celulaDouble_eq_none_iff_exato, celula_perm rows₁ rows₂ hp hnd hdt,
    ← celulaDouble_eq_none_iff_exato] at hn
  rw [hn]

theorem resultado_none_iff_perm (rows₁ rows₂ : List Row) (ano : Nat)
    (hp : List.Perm rows₁ rows₂) (hnd : (rows₁.map Row.chave).Nodup) (hdt : mesmaData rows₁)
    (M : Nat) (h : (listarDashboard rows₁ ano).resultado M = some none) :
    (listarDashboard rows₂ ano).resultado M = some none := by
  have h1 : rows₁ ≠ [] := by
    rintro rfl
    simp [listarDashboard, Dashboard.resultado] at h
  have h2 : rows₂ ≠ [] := by
    rintro rfl
    exact h1 hp.eq_nil
  have hM := resultado_some_imp rows₁ ano h1 M none h
  rw [resultado_listarDashboard rows₁ ano h1 M hM] at h
  rw [resultado_listarDashboard rows₂ ano h2 M hM]
  have hn := Option.some.inj h
  rw [resultadoMensalDouble_eq_none_iff_exato, resultadoMensal_perm rows₁ rows₂ hp hnd hdt,
    ← resultadoMensalDouble_eq_none_iff_exato] at hn
  rw [hn]

theorem mesmaData_perm (rows₁ rows₂ : List Row) (hp : List.Perm rows₁ rows₂)
    (h : mesmaData rows₁) : mesmaData rows₂ := by
  intro r hr r' hr' e
  exact h r (hp.mem_iff.2 hr) r' (hp.mem_iff.2 hr') e

theorem ids_processos_perm (rows₁ rows₂ : List Row) (ano : Nat)
    (hp : List.Perm rows₁ rows₂) :
    List.Perm ((listarDashboard rows₁ ano).processos.map (fun p => p.id))
      ((listarDashboard rows₂ ano).processos.map (fun p => p.id)) := by
  by_cases h1 : rows₁ = []
  · subst h1
    rw [← hp.nil_eq]
  · have h2 : rows₂ ≠ [] := by
      rintro rfl
      exact h1 hp.eq_nil
    rw [ids_processos rows₁ ano h1, ids_processos rows₂ ano h2,
      List.perm_ext_iff_of_nodup (keys_tabelas_nodup rows₁) (keys_tabelas_nodup rows₂)]
    intro T
    rw [mem_keys_tabelas, mem_keys_tabelas]
    exact (hp.map _).mem_iff

theorem nome_perm (rows₁ rows₂ : List Row) (ano : Nat)
    (hp : List.Perm rows₁ rows₂) (hnome : mesmoNome rows₁) (T : Option Nat) :
    ((listarDashboard rows₁ ano).processo T).map (fun p => p.nome_tema) =
      ((listarDashboard rows₂ ano).processo T).map (fun p => p.nome_tema) := by
  by_cases h1 : rows₁ = []
  · subst h1
    rw [← hp.nil_eq]
  · have h2 : rows₂ ≠ [] := by
      rintro rfl
      exact h1 hp.eq_nil
    rw [processo_listarDashboard rows₁ ano h1, processo_listarDashboard rows₂ ano h2]
    by_cases hT : T ∈ rows₁.map (fun r => r.topico_id)
    · have hT2 : T ∈ rows₂.map (fun r => r.topico_id) := (hp.map _).mem_iff.1 hT
      obtain ⟨p₁, hp₁⟩ := get_processosTabela_isSome rows₁ T hT
      obtain ⟨p₂, hp₂⟩ := get_processosTabela_isSome rows₂ T hT2
      rw [hp₁, hp₂]
      simp only [Option.map_some', Option.some.injEq, formatarProcesso]
      obtain ⟨r₁, hr₁, hr₁T, hn₁⟩ := nome_of_mesmoNome rows₁ T p₁ hp₁
      obtain ⟨r₂, hr₂, hr₂T, hn₂⟩ := nome_of_mesmoNome rows₂ T p₂ hp₂
      rw [← hn₁, ← hn₂]
      exact hnome r₁ hr₁ r₂ (hp.mem_iff.2 hr₂) (hr₁T.trans hr₂T.symm)
    · have hT2 : T ∉ rows₂.map (fun r => r.topico_id) := fun h => hT ((hp.map _).mem_iff.2 h)
      have hn₁ : JSMap.get (tabelas rows₁).processosTabela T = none := by
        rw [JSMap.get_eq_none_iff, mem_keys_tabelas]; exact hT
      have hn₂ : JSMap.get (tabelas rows₂).processosTabela T = none := by
        rw [JSMap.get_eq_none_iff, mem_keys_tabelas]; exact hT2
      rw [hn₁, hn₂]

end Amendadas

section PontosExatos

theorem fl_meios (k : Nat) (hk : k < 2 ^ 53) : fl ((k : ℚ) / 2) = (k : ℚ) / 2 := by
  rcases Nat.eq_zero_or_pos k with h0 | hpos
  · subst h0
    simp [fl_zero]
  have hx : (0 : ℚ) < (k : ℚ) / 2 := by positivity
  rw [fl_of_nonneg _ hx.le]
  have hlt : (k : ℚ) / 2 < (2 : ℚ) ^ (52 : Int) := by
    have hk' : (k : ℚ) < 9007199254740992 := by
      norm_num at hk
      exact_mod_cast hk
    norm_num
    linarith
  have he : Int.log 2 ((k : ℚ) / 2) < 52 :=
    (@Int.lt_zpow_iff_log_lt ℚ _ _ 2 (by norm_num) _ _ hx).1 (by exact_mod_cast hlt)
  obtain ⟨n, hn⟩ := Int.eq_ofNat_of_zero_le (show 0 ≤ 51 - Int.log 2 ((k : ℚ) / 2) by omega)
  have hu : ulp ((k : ℚ) / 2) = 1 / ((2 : ℚ) ^ n * 2) := by
    unfold ulp
    rw [show Int.log 2 ((k : ℚ) / 2) - 52 = -((n : Int) + 1) by omega, zpow_neg,
      zpow_add_one₀ (by norm_num : (2 : ℚ) ≠ 0), zpow_natCast]
    simp
  have hq : (k : ℚ) / 2 / ulp ((k : ℚ) / 2) = (((k * 2 ^ n : Nat) : Int) : ℚ) := by
    rw [hu]
    push_cast
    field_simp
    ring
  unfold flPos
  rw [hq, roundEven_intCast, hu]
  push_cast
  field_simp
  ring

theorem jsAdd_meios (a b : Nat) (h : a + b < 2 ^ 53) :
    jsAdd ((a : ℚ) / 2) ((b : ℚ) / 2) = ((a + b : Nat) : ℚ) / 2 := by
  unfold jsAdd
  rw [← fl_meios (a + b) h]
  congr 1
  push_cast
  ring

theorem pontuarDouble_exato (a c : Nat) (st : Option Status) (ha : a + 2 < 2 ^ 53)
    (hc : 2 * c + 2 < 2 ^ 53) :
    Spec.pontuarDouble ((a : ℚ) / 2, (c : ℚ)) st =
      (((a + (if st = some Status.CF then 2 else if st = some Status.PC then 1 else 0) : Nat) :
          ℚ) / 2,
        ((c + (if respondida st then 1 else 0) : Nat) : ℚ)) := by
  have h1 : jsAdd ((a : ℚ) / 2) 1 = ((a + 2 : Nat) : ℚ) / 2 := by
    have := jsAdd_meios a 2 ha
    norm_num at this ⊢
    exact this
  have h2 : jsAdd ((a : ℚ) / 2) (1 / 2) = ((a + 1 : Nat) : ℚ) / 2 := by
    have := jsAdd_meios a 1 (by omega)
    norm_num at this ⊢
    exact this
  have h3 : jsAdd (c : ℚ) 1 = ((c + 1 : Nat) : ℚ) := by
    have := jsAdd_meios (2 * c) 2 (by omega)
    have e1 : ((2 * c : Nat) : ℚ) / 2 = (c : ℚ) := by push_cast; ring
    have e2 : ((2 * c + 2 : Nat) : ℚ) / 2 = ((c + 1 : Nat) : ℚ) := by push_cast; ring
    rw [e1, e2] at this
    norm_num at this ⊢
    exact this
  unfold respondida
  rcases st with _ | st
  · simp [Spec.pontuarDouble]
  · cases st
    · simp only [Spec.pontuarDouble, h1, h3]
      simp
    · simp only [Spec.pontuarDouble, h3]
      simp
    · simp only [Spec.pontuarDouble, h2, h3]
      simp
    · simp [Spec.pontuarDouble]

theorem foldl_pontuarDouble_exato (sts : List (Option Status)) (a c : Nat)
    (ha : a + 2 * sts.length < 2 ^ 53) (hc : 2 * c + 2 * sts.length < 2 ^ 53) :
    sts.foldl Spec.pontuarDouble ((a : ℚ) / 2, (c : ℚ)) =
      (((a + 2 * sts.countP (fun st => decide (st = some Status.CF)) +
          sts.countP (fun st => decide (st = some Status.PC)) : Nat) : ℚ) / 2,
        ((c + sts.countP (fun st => decide (respondida st)) : Nat) : ℚ)) := by
  induction sts generalizing a c with
  | nil => simp
  | cons st sts ih =>
    simp only [List.length_cons] at ha hc
    have ha1 : a + 2 < 2 ^ 53 := by omega
    have hc1 : 2 * c + 2 < 2 ^ 53 := by omega
    have ha2 : ∀ d, d ≤ 2 → a + d + 2 * sts.length < 2 ^ 53 := by
      intro d hd
      omega
    have hc2 : ∀ d, d ≤ 1 → 2 * (c + d) + 2 * sts.length < 2 ^ 53 := by
      intro d hd
      omega
    rw [List.foldl_cons, pontuarDouble_exato a c st ha1 hc1]
    unfold respondida
    rcases st with _ | st
    · rw [ih _ _ (ha2 _ (by simp)) (hc2 _ (by simp))]
      simp [respondida]
    · cases st
      · rw [ih _ _ (ha2 _ (by simp)) (hc2 _ (by simp))]
        simp only [List.countP_cons, respondida]
        simp
        ring_nf
        simp
      · rw [ih _ _ (ha2 _ (by simp)) (hc2 _ (by simp))]
        simp only [List.countP_cons, respondida]
        simp
        ring
      · rw [ih _ _ (ha2 _ (by simp)) (hc2 _ (by simp))]
        simp only [List.countP_cons, respondida]
        simp
        constructor <;> ring
      · rw [ih _ _ (ha2 _ (by simp)) (hc2 _ (by simp))]
        simp [respondida]

theorem TopicScoreDouble_eq_fl (rows : List Row) (T : Option Nat) (A : Nat)
    (hlen : (Spec.perguntasDistintas rows T A).length < 2 ^ 51) :
    Spec.TopicScoreDouble rows T A = (Spec.TopicScore rows T A).map fl := by
  unfold Spec.TopicScoreDouble Spec.TopicScore
  simp only
  have h0 : ((0 : ℚ), (0 : ℚ)) = (((0 : Nat) : ℚ) / 2, ((0 : Nat) : ℚ)) := by simp
  rw [h0, foldl_pontuarDouble_exato _ 0 0 (by rw [List.length_map]; omega)
    (by rw [List.length_map]; omega)]
  obtain ⟨_, hcount⟩ := contar_pontos (Spec.perguntasDistintas rows T A)
  simp only [zero_add, List.countP_map, contar_eq] at hcount ⊢
  have hc : List.countP ((fun st => decide (respondida st)) ∘ fun r : Row => r.st_pergunta)
      (Spec.perguntasDistintas rows T A) =
      List.countP (fun r => decide (respondida r.st_pergunta))
        (Spec.perguntasDistintas rows T A) := rfl
  rw [hc, ← hcount]
  by_cases hz : List.countP ((fun st => decide (st = some Status.CF)) ∘
        fun r : Row => r.st_pergunta) (Spec.perguntasDistintas rows T A) +
      List.countP ((fun st => decide (st = some Status.PC)) ∘
        fun r : Row => r.st_pergunta) (Spec.perguntasDistintas rows T A) +
      List.countP ((fun st => decide (st = some Status.NC)) ∘
        fun r : Row => r.st_pergunta) (Spec.perguntasDistintas rows T A) = 0
  · rw [if_pos hz, if_neg (by rw [hz]; simp)]
    rfl
  · rw [if_neg hz, if_pos (by exact_mod_cast Nat.pos_of_ne_zero hz)]
    simp only [Option.map_some']
    congr 2
    push_cast
    ring

end PontosExatos

/-! ## The claims -/

/-- C1 (counterexample): for the empty row list and year 2024 `listarDashboard` returns an empty
`resultadosMensais`, not 12 entries. -/
theorem C1_empty_rows_no_months :
    (listarDashboard [] 2024).resultadosMensais = [] ∧
      (listarDashboard [] 2024).resultadosMensais.length ≠ 12 := by
  decide

/-- C1 (amended): for every non-empty row list and every year, `resultadosMensais` has exactly
12 entries whose `mes` values are JAN, FEV, ..., DEZ in calendar order, each followed by `/`
and the year string without its first two characters (`24` for 2024); for the empty row list
the result is `processos = []` and `resultadosMensais = []`. -/
theorem C1_resultadosMensais_twelve (rows : List Row) (ano : Nat) (h : rows ≠ []) :
    (listarDashboard rows ano).resultadosMensais.length = 12 ∧
      (listarDashboard rows ano).resultadosMensais.map (fun r => r.mes) =
        mesesMaiusculos.map (fun m => m ++ "/" ++ anoStr ano) ∧
      anoStr 2024 = "24" ∧
      listarDashboard [] ano = { processos := [], resultadosMensais := [] } := by
  rw [listarDashboard_of_ne_nil rows ano h]
  refine ⟨?_, ?_, by decide, rfl⟩
  · simp [resultadosMensaisFormatados, meses]
  · simp [resultadosMensaisFormatados, meses, mesesMaiusculos, List.enum, List.enumFrom,
      toUpperCase]

/-- C1 (witness): the rows of one January audit and year 2024. -/
theorem C1_resultadosMensais_twelve_witness :
    linhasCFPCNC ≠ [] ∧
      (listarDashboard linhasCFPCNC 2024).resultadosMensais.map (fun r => r.mes) =
        ["JAN/24", "FEV/24", "MAR/24", "ABR/24", "MAI/24", "JUN/24", "JUL/24", "AGO/24",
          "SET/24", "OUT/24", "NOV/24", "DEZ/24"] :=
  ⟨by decide, (C1_resultadosMensais_twelve linhasCFPCNC 2024 (by decide)).2.1.trans (by decide)⟩

/-- C2 (counterexample): one January audit whose topic has 11 answers CF, one PC and 8 NC.
The exact TopicScore is 23/40 and the spec's formula gives round(57.5) = 58, but the service
computes `(11.5 / 20) * 100` in doubles, which is 57.49999999999999, and returns 57. -/
theorem C2_half_percentage_rounds_down :
    Spec.TopicScore linhasMeioPonto (some 1) 1 = some (23 / 40) ∧
      Spec.celula linhasMeioPonto (some 1) 0 = some 58 ∧
      (listarDashboard linhasMeioPonto 2024).celula (some 1) 0 = some (some 57) := by
  decide!

/-- C2 (amended): for every non-empty row list, month index `M < 12` and topic `T` occurring
in the rows, the cell `processos[T][month M]` is the spec's formula evaluated in double
arithmetic in the service's order: each TopicScore is the double quotient of the points by
the count (with fewer than `2 ^ 51` distinct questions, the double nearest to the exact
TopicScore), the non-null TopicScores of the audits of month `M` are added one by one in
order of first appearance of the audits, the sum is divided by their number and multiplied by
100, each operation rounded to the nearest double, and `Math.round` takes the nearest
integer.  The cell is null exactly when the exact formula is null; when the month has a
single audit and the distinct questions of `T` in it are answered CF, PC, NC the cell is
50. -/
theorem C2_cell_is_double_rounded_mean (rows : List Row) (ano : Nat) (h : rows ≠ [])
    (M : Nat) (hM : M < 12) (T : Option Nat) (hT : T ∈ rows.map (fun r => r.topico_id)) :
    (listarDashboard rows ano).celula T M = some (Spec.celulaDouble rows T M) ∧
      (Spec.celulaDouble rows T M = none ↔ Spec.celula rows T M = none) ∧
      (∀ A, (Spec.perguntasDistintas rows T A).length < 2 ^ 51 →
        Spec.TopicScoreDouble rows T A = (Spec.TopicScore rows T A).map fl) ∧
      (∀ x : ℚ, mathRound x = round x) ∧
      (∀ A, Spec.auditoriasDoMes rows M = [A] →
        (Spec.perguntasDistintas rows T A).map (fun r => r.st_pergunta) =
          [some Status.CF, some Status.PC, some Status.NC] →
        (listarDashboard rows ano).celula T M = some (some 50)) := by
  refine ⟨celula_listarDashboard rows ano h T hT M hM, celulaDouble_eq_none_iff_exato rows T M,
    fun A hlen => TopicScoreDouble_eq_fl rows T A hlen, fun x => (round_eq x).symm, ?_⟩
  intro A hA hq
  rw [celula_listarDashboard rows ano h T hT M hM, celulaDouble_CF_PC_NC rows T M A hA hq]

/-- C2 (witness): one January audit whose topic 1 has the answers CF, PC, NC. -/
theorem C2_cell_is_double_rounded_mean_witness :
    linhasCFPCNC ≠ [] ∧ 0 < 12 ∧ some 1 ∈ linhasCFPCNC.map (fun r => r.topico_id) ∧
      Spec.auditoriasDoMes linhasCFPCNC 0 = [1] ∧
      (Spec.perguntasDistintas linhasCFPCNC (some 1) 1).map (fun r => r.st_pergunta) =
        [some Status.CF, some Status.PC, some Status.NC] ∧
      (listarDashboard linhasCFPCNC 2024).celula (some 1) 0 = some (some 50) :=
  ⟨by decide, by decide, by decide, by decide, by decide,
    (C2_cell_is_double_rounded_mean linhasCFPCNC 2024 (by decide) 0 (by decide)
      (some 1) (by decide)).2.2.2.2 1 (by decide) (by decide)⟩

/-- C3 (counterexample): two January audits whose own averages are 1/4 and 9/10.  The exact
mean is 23/40 and the spec's formula gives round(57.5) = 58, but the service computes
`(0.25 + 0.9) / 2 * 100` in doubles, which is 57.49999999999999, and returns 57. -/
theorem C3_half_percentage_rounds_down :
    (Spec.auditoriasDoMes linhasQuartoNoveDecimos 0).filterMap
        (Spec.mediaAuditoria linhasQuartoNoveDecimos) = [1 / 4, 9 / 10] ∧
      Spec.resultadoMensal linhasQuartoNoveDecimos 0 = some 58 ∧
      (listarDashboard linhasQuartoNoveDecimos 2024).resultado 0 = some (some 57) := by
  decide!

/-- C3 (amended): for every non-empty row list and month `M < 12`,
`resultadosMensais[M].resultado` is the spec's formula evaluated in double arithmetic in the
service's order: an audit's own average is the double mean of its non-null TopicScores
(topics in order of first appearance), the averages of the eligible audits of month `M` are
added one by one in order of first appearance of the audits, the sum is divided by their
number and multiplied by 100, each operation rounded to the nearest double, and `Math.round`
takes the nearest integer.  The result is null exactly when the exact formula is null; when
the audit averages of the month are the doubles 0.8 and 0.6 the result is 70, whatever the
number of topics of each audit. -/
theorem C3_monthly_is_double_mean_of_audit_averages (rows : List Row) (ano : Nat)
    (h : rows ≠ []) (M : Nat) (hM : M < 12) :
    (listarDashboard rows ano).resultado M = some (Spec.resultadoMensalDouble rows M) ∧
      (Spec.resultadoMensalDouble rows M = none ↔ Spec.resultadoMensal rows M = none) ∧
      ((Spec.auditoriasPorOrdem rows M).filterMap (Spec.mediaAuditoriaDouble rows) =
          [fl (4 / 5), fl (3 / 5)] →
        (listarDashboard rows ano).resultado M = some (some 70)) := by
  refine ⟨resultado_listarDashboard rows ano h M hM,
    resultadoMensalDouble_eq_none_iff_exato rows M, fun h2 => ?_⟩
  rw [resultado_listarDashboard rows ano h M hM, resultadoMensalDouble_of_medias rows M _ h2]
  decide!

/-- C3 (witness): two March audits with one and two topics and averages 0.8 and 0.6. -/
theorem C3_monthly_is_double_mean_of_audit_averages_witness :
    linhasDuasAuditorias ≠ [] ∧ 2 < 12 ∧
      (Spec.auditoriasPorOrdem linhasDuasAuditorias 2).filterMap
        (Spec.mediaAuditoriaDouble linhasDuasAuditorias) = [fl (4 / 5), fl (3 / 5)] ∧
      (listarDashboard linhasDuasAuditorias 2024).resultado 2 = some (some 70) :=
  ⟨by decide, by decide, by decide!,
    (C3_monthly_is_double_mean_of_audit_averages linhasDuasAuditorias 2024 (by decide) 2
      (by decide)).2.2 (by decide!)⟩

/-- C4: for every non-empty row list, topic `T` occurring in the rows and month `M < 12`, the
cell `processos[T][month M]` is null if and only if no audit dated in month `M` has, among the
distinct questions of `T`, one answered CF, PC or NC (on rows without repeated ids: no row of
such an audit for `T` is answered CF, PC or NC); a topic whose answers in an audit are all NE
has a null TopicScore there, a topic absent from the month's audits yields null, and a topic
answered only with NC in the month yields 0, not null. -/
theorem C4_cell_null_iff_no_answer (rows : List Row) (ano : Nat) (h : rows ≠ [])
    (T : Option Nat) (hT : T ∈ rows.map (fun r => r.topico_id)) (M : Nat) (hM : M < 12) :
    ((listarDashboard rows ano).celula T M = some none ↔
        ∀ A ∈ Spec.auditoriasDoMes rows M, ∀ q ∈ Spec.perguntasDistintas rows T A,
          ¬ respondida q.st_pergunta) ∧
      ((rows.map Row.chave).Nodup →
        ((listarDashboard rows ano).celula T M = some none ↔
          ∀ r ∈ rows, r.auditoria_id ∈ Spec.auditoriasDoMes rows M → r.topico_id = T →
            ¬ respondida r.st_pergunta)) ∧
      (∀ A, (∀ q ∈ Spec.perguntasDistintas rows T A, q.st_pergunta = some Status.NE) →
        Spec.TopicScore rows T A = none) ∧
      ((∀ r ∈ rows, r.auditoria_id ∈ Spec.auditoriasDoMes rows M → r.topico_id ≠ T) →
        (listarDashboard rows ano).celula T M = some none) ∧
      ((∃ A ∈ Spec.auditoriasDoMes rows M, ∃ q ∈ Spec.perguntasDistintas rows T A,
          q.st_pergunta = some Status.NC) →
        (∀ A ∈ Spec.auditoriasDoMes rows M, ∀ q ∈ Spec.perguntasDistintas rows T A,
          respondida q.st_pergunta → q.st_pergunta = some Status.NC) →
        (listarDashboard rows ano).celula T M = some (some 0)) := by
  rw [celula_listarDashboard rows ano h T hT M hM]
  simp only [Option.some.injEq]
  refine ⟨celulaDouble_eq_none_iff rows T M, ?_, ?_, ?_, ?_⟩
  · intro hnd
    rw [celulaDouble_eq_none_iff]
    simp only [perguntasDistintas_of_nodup rows T _ hnd, List.mem_filter, decide_eq_true_eq]
    constructor
    · intro hall r hr hA hrT
      exact hall r.auditoria_id hA r ⟨hr, rfl, hrT⟩
    · rintro hall A hA q ⟨hq, rfl, hqT⟩
      exact hall q hq hA hqT
  · intro A hA
    rw [TopicScore_eq_none_iff]
    intro q hq
    rw [hA q hq]
    unfold respondida
    decide
  · intro hall
    rw [celulaDouble_eq_none_iff]
    intro A hA q hq
    unfold Spec.perguntasDistintas at hq
    have hq' := mem_of_mem_primeirasPor _ _ q hq
    rw [List.mem_filter] at hq'
    simp only [decide_eq_true_eq] at hq'
    exact absurd hq'.2.2 (hall q hq'.1 (by rw [hq'.2.1]; exact hA))
  · intro hex hall
    exact celulaDouble_of_all_NC rows T M hex hall

/-- C4 (witness): an audit whose topic 1 has the answers NE, NE gives a null January cell; an
audit whose topic 1 has the answers NC, NC gives the January cell 0 and, having no audit in
February, a null February cell. -/
theorem C4_cell_null_iff_no_answer_witness :
    (linhasNENE ≠ [] ∧ some 1 ∈ linhasNENE.map (fun r => r.topico_id) ∧ 0 < 12 ∧
      (linhasNENE.map Row.chave).Nodup ∧
      (∀ r ∈ linhasNENE, r.auditoria_id ∈ Spec.auditoriasDoMes linhasNENE 0 →
        r.topico_id = some 1 → ¬ respondida r.st_pergunta) ∧
      (listarDashboard linhasNENE 2024).celula (some 1) 0 = some none) ∧
    (linhasNC ≠ [] ∧ some 1 ∈ linhasNC.map (fun r => r.topico_id) ∧
      (listarDashboard linhasNC 2024).celula (some 1) 0 = some (some 0) ∧
      (listarDashboard linhasNC 2024).celula (some 1) 1 = some none) :=
  ⟨⟨by decide, by decide, by decide, by decide, by decide,
    ((C4_cell_null_iff_no_answer linhasNENE 2024 (by decide) (some 1) (by decide) 0
      (by decide)).2.1 (by decide)).2 (by decide)⟩,
   ⟨by decide, by decide,
    (C4_cell_null_iff_no_answer linhasNC 2024 (by decide) (some 1) (by decide) 0
      (by decide)).2.2.2.2 (by decide) (by decide),
    (C4_cell_null_iff_no_answer linhasNC 2024 (by decide) (some 1) (by decide) 1
      (by decide)).2.2.2.1 (by decide)⟩⟩

/-- C5: for every row list and year, every month field of every `processos` entry and every
`resultado` of `resultadosMensais` is null or an integer from 0 to 100; a topic score, an audit
average and a formatted percentage exist only where the count they are divided by is positive
(every division of the model, `dividir`, takes the proof that its divisor is positive). -/
theorem C5_percentages_in_range (rows : List Row) (ano : Nat) :
    (∀ p ∈ (listarDashboard rows ano).processos, ∀ c ∈ p.campos, percentualValido c.2) ∧
      (∀ r ∈ (listarDashboard rows ano).resultadosMensais, percentualValido r.resultado) ∧
      (∀ (t : Topico) (s : ℚ), percentualTopico t = some s →
        0 < (t.perguntas.foldl pontuarPergunta (0, 0)).2) ∧
      (∀ (a : Auditoria) (m : ℚ), mediaAuditoria a = some m →
        0 < (percentuaisAuditoria a).length) ∧
      (∀ (r : Option Acc) (n : Int), formatarResultado r = some n →
        ∃ acc, r = some acc ∧ 0 < acc.count) := by
  refine ⟨campos_validos rows ano, resultados_validos rows ano, ?_, ?_, ?_⟩
  · intro t s h
    unfold percentualTopico at h
    dsimp only at h
    split at h
    · assumption
    · exact absurd h (by simp)
  · intro a m h
    unfold mediaAuditoria at h
    rw [mediaDe_acumulado] at h
    by_contra hlen
    have hnil : percentuaisAuditoria a = [] := List.length_eq_zero.1 (by omega)
    rw [hnil] at h
    exact absurd h (by simp [Spec.mediaDouble])
  · intro r n h
    cases r with
    | none => exact absurd h (by simp [formatarResultado])
    | some acc =>
      refine ⟨acc, rfl, ?_⟩
      by_cases hc : acc.count > 0
      · exact hc
      · exact absurd h (by simp [formatarResultado, hc])

/-- C6: for every non-empty row list, `processos` holds exactly one entry per distinct topic id
occurring in the rows (no id repeated, an id is present exactly when a row carries it, whatever
the answers), and every entry has the twelve fields jan, fev, ..., dez in this order, each
holding an integer or null. -/
theorem C6_one_entry_per_topic (rows : List Row) (ano : Nat) (h : rows ≠ []) :
    ((listarDashboard rows ano).processos.map (fun p => p.id)).Nodup ∧
      (∀ T, T ∈ (listarDashboard rows ano).processos.map (fun p => p.id) ↔
        T ∈ rows.map (fun r => r.topico_id)) ∧
      (∀ p ∈ (listarDashboard rows ano).processos,
        p.campos.map Prod.fst =
          ["jan", "fev", "mar", "abr", "mai", "jun", "jul", "ago", "set", "out", "nov", "dez"] ∧
        ∀ mes ∈ meses, ∃ v : Option Int, p.campo mes = some v) := by
  rw [ids_processos rows ano h]
  refine ⟨keys_tabelas_nodup rows, mem_keys_tabelas rows, ?_⟩
  intro p hp
  rw [listarDashboard_of_ne_nil rows ano h] at hp
  obtain ⟨p', _, rfl⟩ := List.mem_map.1 hp
  refine ⟨campos_nomes p', ?_⟩
  intro mes hmes
  simp only [meses, List.mem_cons, List.mem_singleton, List.not_mem_nil, or_false] at hmes
  rcases hmes with h | h | h | h | h | h | h | h | h | h | h | h <;> subst h <;>
    simp [ProcessoFormatado.campo, formatarProcesso, meses, List.enum, List.enumFrom]

/-- C6 (witness): the audit with two NC answers for topic 1 and an unanswered topic 2. -/
theorem C6_one_entry_per_topic_witness :
    linhasNC ≠ [] ∧
      (listarDashboard linhasNC 2024).processos.map (fun p => p.id) = [some 1, some 2] ∧
      ((listarDashboard linhasNC 2024).processos.map (fun p => p.id)).Nodup :=
  ⟨by decide, by decide!, (C6_one_entry_per_topic linhasNC 2024 (by decide)).1⟩

/-- C7 (failing input): the row of an audit without topic and question is not skipped; it adds
a `processos` entry with id null, so the output differs from the output on the well-formed
rows alone. -/
theorem C7_row_without_ids_not_skipped :
    (listarDashboard linhasComOrfa 2024).processos.map (fun p => p.id) = [some 1, none] ∧
      (listarDashboard (linhasComOrfa.filter Row.bemFormada) 2024).processos.map
        (fun p => p.id) = [some 1] ∧
      listarDashboard linhasComOrfa 2024 ≠
        listarDashboard (linhasComOrfa.filter Row.bemFormada) 2024 := by
  decide!

/-- C8 (counterexample): with the rows of two audits interleaved, the entry of topic 2 carries
the name of the first row of topic 2 in the first audit, not the name of the first row of
the input that has topic 2. -/
theorem C8_interleaved_rows_other_name :
    ((listarDashboard linhasIntercaladas 2024).processo (some 2)).map (fun p => p.nome_tema) =
        some "Nome A" ∧
      (linhasIntercaladas.find? (fun r => decide (r.topico_id = some 2))).map
        (fun r => r.nome_tema) = some "Nome B" := by
  decide!

/-- C8 (amended): for every non-empty row list, the `processos` entry of a topic id occurring in
the rows carries the `nome_tema` of the first row with that topic id in the rows regrouped by
audit (audits in order of first appearance, the rows of each audit in input order); when all
rows of the topic carry the same name, this is the name of the first row of the input with
that topic id. -/
theorem C8_name_of_first_row_by_audit (rows : List Row) (ano : Nat) (h : rows ≠ [])
    (T : Option Nat) (hT : T ∈ rows.map (fun r => r.topico_id)) :
    (∃ p, (listarDashboard rows ano).processo T = some p ∧ p.id = T) ∧
      ((listarDashboard rows ano).processo T).map (fun p => p.nome_tema) =
        ((Spec.porAuditoria rows).find? (fun r => decide (r.topico_id = T))).map
          (fun r => r.nome_tema) ∧
      ((∀ r ∈ rows, ∀ r' ∈ rows, r.topico_id = T → r'.topico_id = T →
          r.nome_tema = r'.nome_tema) →
        ((listarDashboard rows ano).processo T).map (fun p => p.nome_tema) =
          (rows.find? (fun r => decide (r.topico_id = T))).map (fun r => r.nome_tema)) := by
  refine ⟨?_, nome_processo rows ano h T, ?_⟩
  · obtain ⟨p, hp⟩ := get_processosTabela_isSome rows T hT
    refine ⟨formatarProcesso p, ?_, ?_⟩
    · rw [processo_listarDashboard rows ano h, hp]; rfl
    · rw [tabelas_eq] at hp
      exact (get_processosTabela_id _ T p hp).1
  · intro hsame
    rw [nome_processo rows ano h T]
    obtain ⟨r0, hr0, hr0T⟩ := List.mem_map.1 hT
    have h1 : ((Spec.porAuditoria rows).find? (fun r => decide (r.topico_id = T))).isSome := by
      rw [List.find?_isSome]
      exact ⟨r0, (mem_porAuditoria rows r0).2 hr0, by simpa using hr0T⟩
    have h2 : (rows.find? (fun r => decide (r.topico_id = T))).isSome := by
      rw [List.find?_isSome]
      exact ⟨r0, hr0, by simpa using hr0T⟩
    obtain ⟨a, ha⟩ := Option.isSome_iff_exists.1 h1
    obtain ⟨b, hb⟩ := Option.isSome_iff_exists.1 h2
    rw [ha, hb]
    simp only [Option.map_some', Option.some.injEq]
    have haT := List.find?_some ha
    have hbT := List.find?_some hb
    simp only [decide_eq_true_eq] at haT hbT
    exact hsame a ((mem_porAuditoria rows a).1 (List.mem_of_find?_eq_some ha)) b
      (List.mem_of_find?_eq_some hb) haT hbT

/-- C8 (witness): the interleaved rows, where the regrouped list puts the rows of audit 1
first; topic 1 has one name throughout. -/
theorem C8_name_of_first_row_by_audit_witness :
    linhasIntercaladas ≠ [] ∧ some 2 ∈ linhasIntercaladas.map (fun r => r.topico_id) ∧
      ((listarDashboard linhasIntercaladas 2024).processo (some 2)).map (fun p => p.nome_tema) =
        ((Spec.porAuditoria linhasIntercaladas).find?
          (fun r => decide (r.topico_id = some 2))).map (fun r => r.nome_tema) ∧
      ((Spec.porAuditoria linhasIntercaladas).find?
          (fun r => decide (r.topico_id = some 2))).map (fun r => r.nome_tema) = some "Nome A" ∧
      ((listarDashboard linhasIntercaladas 2024).processo (some 1)).map (fun p => p.nome_tema) =
        (linhasIntercaladas.find? (fun r => decide (r.topico_id = some 1))).map
          (fun r => r.nome_tema) :=
  ⟨by decide, by decide,
    (C8_name_of_first_row_by_audit linhasIntercaladas 2024 (by decide) (some 2)
      (by decide)).2.1, by decide,
    (C8_name_of_first_row_by_audit linhasIntercaladas 2024 (by decide) (some 1)
      (by decide)).2.2 (by decide)⟩

/-- C9: when several rows share the same audit id, topic id and question id, only the first of
them counts: the output on a row list equals the output on the list that keeps, of every
(audit id, topic id, question id), the first row only, whatever the answers of the deleted
rows; for instance a third row repeating the ids of the first with another answer is
deleted. -/
theorem C9_first_row_per_key_wins (rows : List Row) (ano : Nat) :
    listarDashboard rows ano = listarDashboard (Spec.primeirasPor Row.chave rows) ano ∧
      Spec.primeirasPor Row.chave linhasRepetidas =
        [linha 1 0 1 1 (some Status.CF), linha 1 0 1 2 (some Status.PC)] := by
  refine ⟨?_, by decide⟩
  exact listarDashboard_congr _ _ ano (primeirasPor_eq_nil_iff Row.chave rows).symm
    (auditoriasAgrupadas_primeirasPor rows).symm

/-- C10 (counterexample): three January audits scoring 2/3, 7/8 and 1/3, with distinct keys,
one date per audit and one name per topic.  Their exact mean is 5/8 (62.5, rounded 63) in
every order, but the service adds the doubles in order of first appearance: with the audits
in the order 1, 2, 3 the sum is 1.8749999999999998 and the result 62, in the order 1, 3, 2 the
sum is 1.875 and the result 63. -/
theorem C10_order_changes_rounded_value :
    List.Perm linhasTresAuditorias linhasTresAuditoriasPermutadas ∧
      (linhasTresAuditorias.map Row.chave).Nodup ∧
      mesmaData linhasTresAuditorias ∧ mesmoNome linhasTresAuditorias ∧
      Spec.resultadoMensal linhasTresAuditorias 0 = some 63 ∧
      (listarDashboard linhasTresAuditorias 2024).resultado 0 = some (some 62) ∧
      (listarDashboard linhasTresAuditoriasPermutadas 2024).resultado 0 = some (some 63) ∧
      (listarDashboard linhasTresAuditorias 2024).celula (some 1) 0 = some (some 62) ∧
      (listarDashboard linhasTresAuditoriasPermutadas 2024).celula (some 1) 0 =
        some (some 63) :=
  ⟨by decide!, by decide!, by unfold mesmaData; decide!, by unfold mesmoNome; decide!,
    by decide!, by decide!, by decide!, by decide!, by decide!⟩

/-- C10 (amended): for every row list in which each (audit id, topic id, question id) occurs
at most once, all rows of one audit carry the same date and all rows of one topic carry the
same name, every permutation of the rows gives the same topic ids (up to order), the same
name for each topic, the same null cells and null monthly results, and the same values of
the spec's formulas in exact arithmetic; and when on both row lists no rounding error
surfaces (each cell and monthly result equals the exact formula), it gives the same
`resultadosMensais` and, for each topic id, the same `processos` entry, the two `processos`
lists being permutations of each other.  With rounding the numbers may depend on the order
of the rows. -/
theorem C10_permutation_invariant_up_to_rounding (rows₁ rows₂ : List Row) (ano : Nat)
    (hp : List.Perm rows₁ rows₂) (hnd : (rows₁.map Row.chave).Nodup) (hdt : mesmaData rows₁)
    (hnome : mesmoNome rows₁) :
    List.Perm ((listarDashboard rows₁ ano).processos.map (fun p => p.id))
        ((listarDashboard rows₂ ano).processos.map (fun p => p.id)) ∧
      (∀ T, ((listarDashboard rows₁ ano).processo T).map (fun p => p.nome_tema) =
        ((listarDashboard rows₂ ano).processo T).map (fun p => p.nome_tema)) ∧
      (∀ T M, (listarDashboard rows₁ ano).celula T M = some none ↔
        (listarDashboard rows₂ ano).celula T M = some none) ∧
      (∀ M, (listarDashboard rows₁ ano).resultado M = some none ↔
        (listarDashboard rows₂ ano).resultado M = some none) ∧
      (∀ T M, Spec.celula rows₁ T M = Spec.celula rows₂ T M) ∧
      (∀ M, Spec.resultadoMensal rows₁ M = Spec.resultadoMensal rows₂ M) ∧
      (semErroDeArredondamento rows₁ ano → semErroDeArredondamento rows₂ ano →
        (listarDashboard rows₁ ano).resultadosMensais =
            (listarDashboard rows₂ ano).resultadosMensais ∧
          (∀ T, (listarDashboard rows₁ ano).processo T =
            (listarDashboard rows₂ ano).processo T) ∧
          List.Perm (listarDashboard rows₁ ano).processos
            (listarDashboard rows₂ ano).processos) := by
  have hnd₂ : (rows₂.map Row.chave).Nodup := ((hp.map Row.chave).nodup_iff).1 hnd
  have hdt₂ : mesmaData rows₂ := mesmaData_perm rows₁ rows₂ hp hdt
  refine ⟨ids_processos_perm rows₁ rows₂ ano hp, nome_perm rows₁ rows₂ ano hp hnome, ?_, ?_,
    fun T M => celula_perm rows₁ rows₂ hp hnd hdt T M,
    fun M => resultadoMensal_perm rows₁ rows₂ hp hnd hdt M, ?_⟩
  · intro T M
    exact ⟨celula_none_iff_perm rows₁ rows₂ ano hp hnd hdt T M,
      celula_none_iff_perm rows₂ rows₁ ano hp.symm hnd₂ hdt₂ T M⟩
  · intro M
    exact ⟨resultado_none_iff_perm rows₁ rows₂ ano hp hnd hdt M,
      resultado_none_iff_perm rows₂ rows₁ ano hp.symm hnd₂ hdt₂ M⟩
  · intro hex₁ hex₂
    exact ⟨resultadosMensais_perm rows₁ rows₂ ano hp hnd hdt hex₁ hex₂,
      processo_perm rows₁ rows₂ ano hp hnd hdt hnome hex₁ hex₂,
      processos_perm rows₁ rows₂ ano hp hnd hdt hnome hex₁ hex₂⟩

/-- C10 (witness): the rows of a January and a March audit in two orders, on which no
rounding error surfaces; the monthly results agree and the two topic entries appear in
opposite orders. -/
theorem C10_permutation_invariant_up_to_rounding_witness :
    List.Perm linhasMistas linhasMistasPermutadas ∧ (linhasMistas.map Row.chave).Nodup ∧
      mesmaData linhasMistas ∧ mesmoNome linhasMistas ∧
      semErroDeArredondamento linhasMistas 2024 ∧
      semErroDeArredondamento linhasMistasPermutadas 2024 ∧
      (listarDashboard linhasMistas 2024).resultadosMensais =
        (listarDashboard linhasMistasPermutadas 2024).resultadosMensais ∧
      (listarDashboard linhasMistas 2024).processos.map (fun p => p.id) = [some 1, some 2] ∧
      (listarDashboard linhasMistasPermutadas 2024).processos.map (fun p => p.id) =
        [some 2, some 1] :=
  ⟨by decide, by decide, by unfold mesmaData; decide, by unfold mesmoNome; decide,
    by decide!, by decide!,
    ((C10_permutation_invariant_up_to_rounding linhasMistas linhasMistasPermutadas 2024
      (by decide) (by decide) (by unfold mesmaData; decide)
      (by unfold mesmoNome; decide)).2.2.2.2.2.2 (by decide!) (by decide!)).1,
    by decide!, by decide!⟩

/-- C11: adding to a non-empty row list the rows of a further audit `A'` whose answers are all
NE or absent, wherever they are placed among the other rows, leaves `resultadosMensais` and
the twelve month fields of every `processos` entry of the original topics unchanged; and a
month all of whose audits have only NE or absent answers has `resultado` null. -/
theorem C11_audit_without_eligible_topics_is_neutral (rows todas : List Row) (ano A' : Nat)
    (hrows : todas.filter (fun r => decide (r.auditoria_id ≠ A')) = rows) (hne : rows ≠ [])
    (hA : ∀ r ∈ todas, r.auditoria_id = A' → ¬ respondida r.st_pergunta) :
    (listarDashboard todas ano).resultadosMensais =
        (listarDashboard rows ano).resultadosMensais ∧
      (∀ T ∈ rows.map (fun r => r.topico_id),
        ((listarDashboard todas ano).processo T).map (fun p => p.campos) =
          ((listarDashboard rows ano).processo T).map (fun p => p.campos)) ∧
      (∀ M, M < 12 →
        (∀ A ∈ Spec.auditoriasDoMes todas M, ∀ r ∈ todas, r.auditoria_id = A →
          ¬ respondida r.st_pergunta) →
        (listarDashboard todas ano).resultado M = some none) := by
  have hsub : ∀ r ∈ rows, r ∈ todas := by
    intro r hr
    rw [← hrows] at hr
    exact (List.mem_filter.1 hr).1
  have hne' : todas ≠ [] := by
    rintro rfl
    exact hne (by rw [← hrows]; rfl)
  subst hrows
  refine ⟨?_, ?_, ?_⟩
  · exact resultadosMensais_eq_of_spec _ _ ano hne' hne
      (fun M => resultadoMensalDouble_filter todas A' M hA)
  · intro T hT
    obtain ⟨r, hr, hrT⟩ := List.mem_map.1 hT
    exact campos_eq_of_spec _ _ ano hne' hne T (List.mem_map.2 ⟨r, hsub r hr, hrT⟩) hT
      (fun M => celulaDouble_filter todas A' M T hA)
  · intro M hM hall
    rw [resultado_listarDashboard todas ano hne' M hM,
      resultadoMensalDouble_none_of_sem_resposta todas M hall]

/-- C11 (witness): a January audit with answers CF, PC, NC, to which a January audit with
answers NE and absent, respectively a February audit of that kind, is added. -/
theorem C11_audit_without_eligible_topics_is_neutral_witness :
    ((linhasCFPCNC ++ linhasSemResposta).filter (fun r => decide (r.auditoria_id ≠ 3)) =
        linhasCFPCNC ∧ linhasCFPCNC ≠ [] ∧
      (∀ r ∈ linhasCFPCNC ++ linhasSemResposta, r.auditoria_id = 3 →
        ¬ respondida r.st_pergunta) ∧
      (listarDashboard (linhasCFPCNC ++ linhasSemResposta) 2024).resultadosMensais =
        (listarDashboard linhasCFPCNC 2024).resultadosMensais) ∧
    ((∀ A ∈ Spec.auditoriasDoMes (linhasCFPCNC ++ linhasFevereiroSemResposta) 1,
        ∀ r ∈ linhasCFPCNC ++ linhasFevereiroSemResposta, r.auditoria_id = A →
          ¬ respondida r.st_pergunta) ∧
      (listarDashboard (linhasCFPCNC ++ linhasFevereiroSemResposta) 2024).resultado 1 =
        some none) :=
  ⟨⟨by decide, by decide, by decide,
    (C11_audit_without_eligible_topics_is_neutral linhasCFPCNC
      (linhasCFPCNC ++ linhasSemResposta) 2024 3 (by decide) (by decide) (by decide)).1⟩,
   ⟨by decide,
    (C11_audit_without_eligible_topics_is_neutral linhasCFPCNC
      (linhasCFPCNC ++ linhasFevereiroSemResposta) 2024 5 (by decide) (by decide)
      (by decide)).2.2 1 (by decide) (by decide)⟩⟩

/-- C12: the monthly overall is not the flat mean of the topic scores of the month: for two
March audits, one with a topic scoring 4/5 and one with topics scoring 1/5 and 1,
`resultadosMensais` gives 70 for March while the rounded percentage of the mean of the three
TopicScores is 67. -/
theorem C12_monthly_is_not_flat_mean :
    ∃ rows M, M < 12 ∧ (Spec.auditoriasDoMes rows M).length = 2 ∧
      Spec.scoresDoMes rows M = [4 / 5, 1 / 5, 1] ∧
      Spec.resultadoPlano rows M = some 67 ∧
      ∀ ano, (listarDashboard rows ano).resultado M = some (some 70) ∧
        (listarDashboard rows ano).resultado M ≠ some (Spec.resultadoPlano rows M) := by
  refine ⟨linhasDuasAuditorias, 2, by decide, by decide, by decide!, by decide!, ?_⟩
  intro ano
  rw [resultado_listarDashboard linhasDuasAuditorias ano (by decide) 2 (by decide)]
  decide!

/-- C13: for every non-empty row list and every year from 1000 to 9999, entry `i` (0 to 11) of
`resultadosMensais` has `mes` equal to the upper-cased `i`-th abbreviation of jan, fev, ...,
dez, followed by `/` and the last two decimal digits of the year. -/
theorem C13_mes_label (rows : List Row) (ano : Nat) (h : rows ≠ []) (h1 : 1000 ≤ ano)
    (h2 : ano < 10000) (i : Nat) (hi : i < 12) :
    ((listarDashboard rows ano).resultadosMensais[i]?).map (fun r => r.mes) =
        (meses[i]?).map (fun m => toUpperCase m ++ "/" ++ ultimosDoisDigitos ano) ∧
      meses.map toUpperCase = mesesMaiusculos ∧
      (listarDashboard rows ano).resultadosMensais.map (fun r => r.mes) =
        mesesMaiusculos.map (fun m => m ++ "/" ++ ultimosDoisDigitos ano) := by
  refine ⟨?_, by decide, ?_⟩
  · rw [mes_resultadosMensais rows ano h i hi, anoStr_quatro ano h1 h2]
  · rw [listarDashboard_of_ne_nil rows ano h, ← anoStr_quatro ano h1 h2]
    simp [resultadosMensaisFormatados, meses, mesesMaiusculos, List.enum, List.enumFrom,
      toUpperCase]

/-- C13 (witness): year 2024, entry 11 is DEZ/24. -/
theorem C13_mes_label_witness :
    linhasCFPCNC ≠ [] ∧ 1000 ≤ 2024 ∧ 2024 < 10000 ∧ 11 < 12 ∧
      ((listarDashboard linhasCFPCNC 2024).resultadosMensais[11]?).map (fun r => r.mes) =
        some "DEZ/24" :=
  ⟨by decide, by decide, by decide, by decide,
    (C13_mes_label linhasCFPCNC 2024 (by decide) (by decide) (by decide) 11
      (by decide)).1.trans (by decide)⟩

/-- C14: `listaAuditoriaPorID` returns the no-data sentinel `null` (and is total: it never
raises) when the row list is empty and when the first row lacks both the audit id and the
client id. -/
theorem C14_null_on_empty_or_missing_ids :
    listaAuditoriaPorID [] = none ∧
      ∀ (r0 : LinhaDetalhe) (rest : List LinhaDetalhe), r0.id_auditoria = none →
        r0.id_cliente = none → listaAuditoriaPorID (r0 :: rest) = none := by
  refine ⟨rfl, ?_⟩
  intro r0 rest h1 h2
  simp [listaAuditoriaPorID, h1, truthy]

/-- C14 (witness): a single row without audit id and client id. -/
theorem C14_null_on_empty_or_missing_ids_witness :
    (linhasSemIds.map (fun r => (r.id_auditoria, r.id_cliente)) = [(none, none)]) ∧
      listaAuditoriaPorID linhasSemIds = none :=
  ⟨by decide,
    C14_null_on_empty_or_missing_ids.2 _ [] (by decide) (by decide)⟩

/-- C15 (counterexample): with equal display orders, a topic first mentioned by a skipped row
(no question id) does not keep that position: topic 2 occurs first in the rows but comes
back after topic 1. -/
theorem C15_skipped_row_is_no_occurrence :
    (listaAuditoriaPorID linhasOrdemIgual).map
        (fun d => d.topicos.map (fun t => (t.id, t.ordem_topico))) =
        some [(some 1, 1), (some 2, 1)] ∧
      linhasOrdemIgual.map (fun r => (r.id_topico, r.ordem_topico)) =
        [(some 2, 1), (some 1, 1), (some 2, 1)] := by
  decide

/-- C15 (amended): for every accepted row list (display orders are numbers), the returned
`topicos` are in ascending `ordem_topico` and the `perguntas` of each topic in ascending
`ordem_pergunta`; topics with equal display order keep the order of their first occurrence
in the valid rows (rows with both ids, the others being skipped), and questions with equal
display order keep the order of their first occurrence in the valid rows of their topic;
rows for topic ids [2, 1] with display orders 2 and 1 come back as topics [1, 2]. -/
theorem C15_sorted_and_stable (dados : List LinhaDetalhe) (d : Detalhe)
    (h : listaAuditoriaPorID dados = some d) :
    d.topicos.Pairwise (fun a b => a.ordem_topico ≤ b.ordem_topico) ∧
      (∀ t ∈ d.topicos, t.perguntas.Pairwise (fun p q => p.ordem_pergunta ≤ q.ordem_pergunta)) ∧
      (∀ a ∈ d.topicos, ∀ b ∈ d.topicos, a.ordem_topico = b.ordem_topico →
        List.Sublist [a.id, b.id] (chaves ((linhasValidas dados).map (fun r => r.id_topico))) →
        List.Sublist [a.id, b.id] (d.topicos.map (fun t => t.id))) ∧
      (∀ t ∈ d.topicos, ∀ p ∈ t.perguntas, ∀ q ∈ t.perguntas,
        p.ordem_pergunta = q.ordem_pergunta →
        List.Sublist [p.id, q.id]
          (chaves ((linhasValidasTopico dados t.id).map (fun r => r.id_pergunta))) →
        List.Sublist [p.id, q.id] (t.perguntas.map (fun p => p.id))) ∧
      (listaAuditoriaPorID linhasTopicos21).map (fun d => d.topicos.map (fun t => t.id)) =
        some [some 1, some 2] := by
  refine ⟨topicos_sorted dados d h, ?_, ?_, ?_, by decide⟩
  · intro t ht
    obtain ⟨T, _, rfl⟩ := (mem_topicos dados d h t).1 ht
    exact sortPorOrdem_sorted (fun p : PerguntaDetalhe => p.ordem_pergunta) _
  · intro a ha b hb hab hsub
    exact topicos_stable dados d h a b ha hb hab.le hsub
  · intro t ht p hp q hq hpq hsub
    obtain ⟨T, _, rfl⟩ := (mem_topicos dados d h t).1 ht
    exact perguntas_stable dados T p q hp hq hpq.le hsub

/-- C15 (witness): the rows for topic ids [2, 1] with display orders 2 and 1. -/
theorem C15_sorted_and_stable_witness :
    listaAuditoriaPorID linhasTopicos21 = some detalheTopicos21 ∧
      detalheTopicos21.topicos.map (fun t => (t.id, t.ordem_topico)) =
        [(some 1, 1), (some 2, 2)] ∧
      detalheTopicos21.topicos.Pairwise (fun a b => a.ordem_topico ≤ b.ordem_topico) :=
  ⟨by decide, by decide,
    (C15_sorted_and_stable linhasTopicos21 detalheTopicos21 (by decide)).1⟩

/-- C16 (counterexample): a topic does not carry the values of a skipped row that mentions its
id first (topic 1 gets the name `Y` of the second row, the first row having no question id),
and a question listed under two topics carries, in the second topic, the text of its first
row of that topic (`B`), not of the first row with that question id (`A`). -/
theorem C16_first_row_must_be_valid_and_of_the_topic :
    ((listaAuditoriaPorID linhasNomeDiferente).map
        (fun d => d.topicos.map (fun t => (t.id, t.nome_tema))) = some [(some 1, "Y")] ∧
      (linhasNomeDiferente.find? (fun r => decide (r.id_topico = some 1))).map
        (fun r => r.nome_tema) = some "X") ∧
    ((listaAuditoriaPorID linhasPerguntaDoisTopicos).map
        (fun d => d.topicos.map
          (fun t => (t.id, t.perguntas.map (fun p => (p.id, p.descricao_pergunta))))) =
        some [(some 1, [(some 1, "A")]), (some 2, [(some 1, "B")])] ∧
      (linhasPerguntaDoisTopicos.find? (fun r => decide (r.id_pergunta = some 1))).map
        (fun r => r.descricao_pergunta) = some "A") := by
  decide

/-- C16 (amended): for every accepted row list, the returned `topicos` contain each topic id
occurring in a valid row (both ids present) exactly once, and each topic's `perguntas`
contain each question id of the valid rows of that topic exactly once; each topic (name,
requirements, display order) carries the values of the first valid row with its id, and each
question (text, display order) those of the first valid row of its topic with its id. -/
theorem C16_dedup_first_valid_row (dados : List LinhaDetalhe) (d : Detalhe)
    (h : listaAuditoriaPorID dados = some d) :
    (d.topicos.map (fun t => t.id)).Nodup ∧
      (∀ T, T ∈ d.topicos.map (fun t => t.id) ↔
        ∃ r ∈ dados, r.valida = true ∧ r.id_topico = T) ∧
      (∀ t ∈ d.topicos,
        (∃ r, (linhasValidas dados).find? (fun r => decide (r.id_topico = t.id)) = some r ∧
          t.nome_tema = r.nome_tema ∧ t.requisitos = r.requisitos ∧
          t.ordem_topico = r.ordem_topico) ∧
        (t.perguntas.map (fun p => p.id)).Nodup ∧
        (∀ q, q ∈ t.perguntas.map (fun p => p.id) ↔
          ∃ r ∈ dados, r.valida = true ∧ r.id_topico = t.id ∧ r.id_pergunta = q) ∧
        (∀ p ∈ t.perguntas,
          ∃ r, (linhasValidasTopico dados t.id).find?
              (fun r => decide (r.id_pergunta = p.id)) = some r ∧
            p.descricao_pergunta = r.descricao_pergunta ∧
            p.ordem_pergunta = r.ordem_pergunta)) := by
  refine ⟨((ids_topicos_perm dados d h).nodup_iff).2 (nodup_chaves _),
    mem_ids_topicos dados d h, ?_⟩
  intro t ht
  obtain ⟨T, hT, rfl⟩ := (mem_topicos dados d h t).1 ht
  refine ⟨campos_topicoDetalheDe dados T hT,
    ((ids_perguntas_ordenarPerguntas_perm dados T).nodup_iff).2 (nodup_chaves _), ?_, ?_⟩
  · intro q
    rw [(ids_perguntas_ordenarPerguntas_perm dados T).mem_iff, mem_chaves, List.mem_map]
    constructor
    · rintro ⟨r, hr, rfl⟩
      have := (mem_linhasValidasTopico dados T r).1 hr
      exact ⟨r, this.1, this.2.1, this.2.2, rfl⟩
    · rintro ⟨r, hr, hv, hrT, rfl⟩
      exact ⟨r, (mem_linhasValidasTopico dados T r).2 ⟨hr, hv, hrT⟩, rfl⟩
  · intro p hp
    rw [mem_perguntas_ordenarPerguntas] at hp
    exact campos_perguntaDetalhe dados T p hp

/-- C16 (witness): the rows for topic ids [2, 1]; topic 1 has the questions 4 and 3. -/
theorem C16_dedup_first_valid_row_witness :
    listaAuditoriaPorID linhasTopicos21 = some detalheTopicos21 ∧
      detalheTopicos21.topicos.map (fun t => (t.id, t.perguntas.map (fun p => p.id))) =
        [(some 1, [some 3, some 4]), (some 2, [some 5])] ∧
      (detalheTopicos21.topicos.map (fun t => t.id)).Nodup :=
  ⟨by decide, by decide,
    (C16_dedup_first_valid_row linhasTopicos21 detalheTopicos21 (by decide)).1⟩

/-- C17 (counterexample): question 4 appears in the returned `topicos` and its row carries no
answer status; `observacoes` and `fotos` have an entry for it, `respostas` has none. -/
theorem C17_respostas_has_no_entry_without_answer :
    detalheTopicos21.topicos.map (fun t => t.perguntas.map (fun p => p.id)) =
        [[some 3, some 4], [some 5]] ∧
      JSMap.get detalheTopicos21.respostas (some 4) = none ∧
      JSMap.get detalheTopicos21.observacoes (some 4) = some "" ∧
      JSMap.get detalheTopicos21.fotos (some 4) = some [] := by
  decide

/-- C17 (amended): for every accepted row list and every question id of the returned
`topicos`, `observacoes` and `fotos` have an entry, and `respostas` has an entry exactly when
some valid row of the question carries an answer status; for a question whose valid rows
carry no answer status `respostas` has no entry (reading it gives `undefined`) and the
entries of `observacoes` and `fotos` are the empty string and the empty list. -/
theorem C17_entries_for_every_question (dados : List LinhaDetalhe) (d : Detalhe)
    (h : listaAuditoriaPorID dados = some d) (t : TopicoDetalhe) (ht : t ∈ d.topicos)
    (p : PerguntaDetalhe) (hp : p ∈ t.perguntas) :
    (JSMap.get d.observacoes p.id).isSome = true ∧ (JSMap.get d.fotos p.id).isSome = true ∧
      ((JSMap.get d.respostas p.id).isSome = true ↔
        ∃ r ∈ dados, r.valida = true ∧ r.id_pergunta = p.id ∧ r.st_pergunta ≠ none) ∧
      ((∀ r ∈ dados, r.valida = true → r.id_pergunta = p.id → r.st_pergunta = none) →
        JSMap.get d.respostas p.id = none ∧ JSMap.get d.observacoes p.id = some "" ∧
          JSMap.get d.fotos p.id = some []) := by
  have hpres := presenca_entradas dados d h t ht p hp
  refine ⟨hpres.1, hpres.2, ?_, sem_status_estadoFinal dados d h t ht p hp⟩
  rw [(listaAuditoriaPorID_some_iff dados d h).2.1]
  exact respostas_isSome_iff dados p.id

/-- C17 (witness): question 4 of topic 1, whose only row has no answer status. -/
theorem C17_entries_for_every_question_witness :
    listaAuditoriaPorID linhasTopicos21 = some detalheTopicos21 ∧
      (∀ r ∈ linhasTopicos21, r.valida = true → r.id_pergunta = some 4 →
        r.st_pergunta = none) ∧
      JSMap.get detalheTopicos21.respostas (some 4) = none ∧
      JSMap.get detalheTopicos21.observacoes (some 4) = some "" ∧
      JSMap.get detalheTopicos21.fotos (some 4) = some [] :=
  ⟨by decide, by decide,
    (C17_entries_for_every_question linhasTopicos21 detalheTopicos21 (by decide)
      (ordenarPerguntas (topicoDetalheDe linhasTopicos21 (some 1))) (by decide)
      { id := some 4, descricao_pergunta := "Pergunta", ordem_pergunta := 2 }
      (by decide)).2.2.2 (by decide)⟩

/-- C18: a row after the first that lacks a topic id or a question id is skipped: the result
on a row list equals the result on the list with every such row after the first removed
(whether "lacks" means `null` or, as the code tests it, falsy), so such a row adds no topic,
no question and no entry to `respostas`, `observacoes` or `fotos`. -/
theorem C18_rows_without_ids_are_skipped (r0 : LinhaDetalhe) (rest : List LinhaDetalhe) :
    listaAuditoriaPorID (r0 :: rest) =
        listaAuditoriaPorID (r0 :: rest.filter (fun r => r.temIds)) ∧
      listaAuditoriaPorID (r0 :: rest) =
        listaAuditoriaPorID (r0 :: rest.filter (fun r => r.valida)) ∧
      listaAuditoriaPorID linhasComInvalidas =
        listaAuditoriaPorID [linhaDetalhe 1 1 1 1 (some Status.CF) none none] := by
  refine ⟨?_, ?_, by decide⟩
  · exact listaAuditoriaPorID_filter _ r0 rest (fun r _ hr => valida_of_temIds_false r hr)
  · exact listaAuditoriaPorID_filter _ r0 rest (fun r _ hr => hr)

/-- C19: `overallResult` is, for every dashboard, the rounded mean (`Math.round`, nearest
integer) of the `resultado` values that are numbers, null when there is none and null while
no dashboard is loaded; when every numeric `resultado` is from 0 to 100, so is the score. -/
theorem C19_overall_is_rounded_mean (d : Dashboard) :
    overallResult (some d) =
        (if Spec.resultadosNumericos d = [] then none
          else some (mathRound (Spec.media
            ((Spec.resultadosNumericos d).map (fun n : Int => (n : ℚ)))))) ∧
      overallResult none = none ∧
      (∀ x : ℚ, mathRound x = round x) ∧
      ((∀ n ∈ Spec.resultadosNumericos d, 0 ≤ n ∧ n ≤ 100) →
        ∀ s, overallResult (some d) = some s → 0 ≤ s ∧ s ≤ 100) :=
  ⟨overallResult_eq d, rfl, fun x => (round_eq x).symm, overallResult_bounds d⟩

/-- C19 (witness): monthly results 70, null, 61 give the score 66 (the mean 65.5 rounded). -/
theorem C19_overall_is_rounded_mean_witness :
    (∀ n ∈ Spec.resultadosNumericos dashboardExemplo, 0 ≤ n ∧ n ≤ 100) ∧
      overallResult (some dashboardExemplo) = some 66 ∧ (0 : Int) ≤ 66 ∧ (66 : Int) ≤ 100 :=
  ⟨by decide, by decide!,
    (C19_overall_is_rounded_mean dashboardExemplo).2.2.2 (by decide) 66 (by decide!)⟩

/-- C20: for every accepted row list with exactly one row per question id, and every question
of the returned `topicos` with its row: when the row's answer status is not null,
`respostas[q]` is that status, `observacoes[q]` is the row's comment (the empty string when
the comment is null or empty) and `fotos[q]` is the photo path string split at every comma
(the empty list when the string is null or empty); when the status is null, `respostas[q]`
is absent, `observacoes[q]` is the empty string and `fotos[q]` the empty list, whatever
comment or photo paths the row carries. -/
theorem C20_answer_comment_photos (dados : List LinhaDetalhe) (d : Detalhe)
    (h : listaAuditoriaPorID dados = some d)
    (hnd : (dados.map (fun r => r.id_pergunta)).Nodup)
    (t : TopicoDetalhe) (ht : t ∈ d.topicos) (p : PerguntaDetalhe) (hp : p ∈ t.perguntas)
    (r : LinhaDetalhe) (hr : r ∈ dados) (hq : r.id_pergunta = p.id) :
    (∀ s, r.st_pergunta = some s →
        JSMap.get d.respostas p.id = some s ∧
        JSMap.get d.observacoes p.id = some (comentarioOuVazio r.comentario) ∧
        JSMap.get d.fotos p.id = some (fotosDe r.caminhos_fotos)) ∧
      (r.st_pergunta = none →
        JSMap.get d.respostas p.id = none ∧ JSMap.get d.observacoes p.id = some "" ∧
        JSMap.get d.fotos p.id = some []) ∧
      (comentarioOuVazio none = "" ∧ comentarioOuVazio (some "") = "" ∧
        ∀ c, c ≠ "" → comentarioOuVazio (some c) = c) ∧
      (fotosDe none = [] ∧ fotosDe (some "") = [] ∧
        ∀ c, c ≠ "" → fotosDe (some c) = jsSplit c) ∧
      (∀ c : String, (∀ piece ∈ jsSplit c, ',' ∉ piece.data) ∧
        List.intercalate [','] ((jsSplit c).map (fun piece => piece.data)) = c.data) := by
  have hinj := List.inj_on_of_nodup_map hnd
  have hunico : ∀ r' ∈ dados, r'.id_pergunta = p.id → r' = r := by
    intro r' hr' hq'
    exact hinj hr' hr (hq'.trans hq.symm)
  have hv : r.valida = true := by
    obtain ⟨T, hT, rfl⟩ := (mem_topicos dados d h t).1 ht
    rw [mem_perguntas_ordenarPerguntas] at hp
    have hmem : p.id ∈ (topicoDetalheDe dados T).perguntas.map (fun p => p.id) :=
      List.mem_map.2 ⟨p, hp, rfl⟩
    rw [ids_perguntas_topicoDetalheDe, mem_chaves] at hmem
    obtain ⟨r', hr', hq'⟩ := List.mem_map.1 hmem
    have h3 := (mem_linhasValidasTopico dados T r').1 hr'
    rw [← hunico r' h3.1 hq']
    exact h3.2.1
  refine ⟨?_, ?_, ⟨rfl, rfl, ?_⟩, ⟨rfl, rfl, ?_⟩, ?_⟩
  · intro s hs
    obtain ⟨pre, post, rfl⟩ := List.append_of_mem hr
    have hne := not_mem_map_of_nodup_middle (fun r : LinhaDetalhe => r.id_pergunta) pre post r hnd
    have hval := valores_respondida pre post r s hv hs
      (fun r' hr' hc => hne r' (List.mem_append_right _ hr') hc.2)
    obtain ⟨_, e1, e2, e3⟩ := listaAuditoriaPorID_some_iff _ d h
    rw [e1, e2, e3, ← hq]
    exact hval
  · intro hs
    apply sem_status_estadoFinal dados d h t ht p hp
    intro r' hr' _ hq'
    rw [hunico r' hr' hq']
    exact hs
  · intro c hc
    simp [comentarioOuVazio, hc]
  · intro c hc
    simp [fotosDe, hc]
  · intro c
    unfold jsSplit
    constructor
    · intro piece hpiece
      obtain ⟨cs, hcs, rfl⟩ := List.mem_map.1 hpiece
      exact splitVirgula_sem_virgula c.data cs hcs
    · rw [List.map_map]
      have : ((fun piece : String => piece.data) ∘ String.mk) = id := by
        funext cs; rfl
      rw [this, List.map_id]
      exact intercalate_splitVirgula c.data

/-- C20 (witness): question 5 of topic 2, answered CF with comment `ok` and two photos. -/
theorem C20_answer_comment_photos_witness :
    listaAuditoriaPorID linhasTopicos21 = some detalheTopicos21 ∧
      (linhasTopicos21.map (fun r => r.id_pergunta)).Nodup ∧
      JSMap.get detalheTopicos21.respostas (some 5) = some Status.CF ∧
      JSMap.get detalheTopicos21.observacoes (some 5) = some "ok" ∧
      JSMap.get detalheTopicos21.fotos (some 5) = some ["a.jpg", "b.jpg"] :=
  ⟨by decide, by decide,
    ((C20_answer_comment_photos linhasTopicos21 detalheTopicos21 (by decide) (by decide)
      (ordenarPerguntas (topicoDetalheDe linhasTopicos21 (some 2))) (by decide)
      { id := some 5, descricao_pergunta := "Pergunta", ordem_pergunta := 1 } (by decide)
      (linhaDetalhe 2 2 5 1 (some Status.CF) (some "ok") (some "a.jpg,b.jpg")) (by decide)
      rfl).1 Status.CF rfl).1,
    (by decide), (by decide)⟩

/-- C21: `listaAuditoriaPorID` returns `null` if and only if the row list is empty or the
audit id or the client id of the first row is falsy (`null`, `undefined` or 0); every other
row list yields the record, whose `auditoriaInfo.id` and `clienteInfo.id` are the two ids of
the first row.  So a first row with only one of the two ids, or with an id equal to 0,
yields `null`. -/
theorem C21_null_iff_empty_or_falsy_id (dados : List LinhaDetalhe) :
    (listaAuditoriaPorID dados = none ↔
      dados = [] ∨ ∃ infoRow, dados.head? = some infoRow ∧
        (idFalsy infoRow.id_auditoria ∨ idFalsy infoRow.id_cliente)) ∧
    ((∃ d, listaAuditoriaPorID dados = some d ∧
        some d.auditoriaInfo.id = dados.head?.map (fun r => r.id_auditoria) ∧
        some d.clienteInfo.id = dados.head?.map (fun r => r.id_cliente)) ↔
      ∃ infoRow, dados.head? = some infoRow ∧
        ¬ idFalsy infoRow.id_auditoria ∧ ¬ idFalsy infoRow.id_cliente) ∧
    listaAuditoriaPorID linhasSoAuditoria = none ∧
    listaAuditoriaPorID linhasClienteZero = none := by
  refine ⟨listaAuditoriaPorID_eq_none_iff dados, ?_, by decide, by decide⟩
  cases dados with
  | nil => simp [listaAuditoriaPorID]
  | cons r0 rest =>
    simp only [List.head?_cons, Option.some.injEq, exists_eq_left', Option.map_some']
    constructor
    · rintro ⟨d, hd, -, -⟩
      have hn : listaAuditoriaPorID (r0 :: rest) ≠ none := by rw [hd]; simp
      rw [Ne, listaAuditoriaPorID_eq_none_iff] at hn
      simp only [List.head?_cons, Option.some.injEq, exists_eq_left', reduceCtorEq,
        false_or, not_or] at hn
      exact hn
    · rintro ⟨h1, h2⟩
      rw [← truthy_eq_true_iff] at h1 h2
      rw [listaAuditoriaPorID_eq_some r0 rest h1 h2]
      exact ⟨_, rfl, rfl, rfl⟩

/-- C22: `listarDashboard` is monotone in the answers.  For rows with at most one row per
(audit, topic, question), replacing the status of one row, NC by PC or CF, or PC by CF,
leaves every `processos` cell and every `resultadosMensais` result present, never lowers it
and never turns a number into `null`. -/
theorem C22_monotone_in_answers (pre post : List Row) (r : Row) (s : Status) (ano : Nat)
    (hnd : ((pre ++ r :: post).map Row.chave).Nodup) (hs : melhora r.st_pergunta s) :
    (∀ T M a, (listarDashboard (pre ++ r :: post) ano).celula T M = some a →
      ∃ b, (listarDashboard (pre ++ r.comStatus s :: post) ano).celula T M = some b ∧
        naoDiminui a b) ∧
    (∀ M a, (listarDashboard (pre ++ r :: post) ano).resultado M = some a →
      ∃ b, (listarDashboard (pre ++ r.comStatus s :: post) ano).resultado M = some b ∧
        naoDiminui a b) := by
  have hf := melhoraLinhas_trocar r s hs
  have hmap := map_trocar pre post r (r.comStatus s) hnd
  have hne : pre ++ r :: post ≠ [] := by simp
  have hne' : pre ++ r.comStatus s :: post ≠ [] := by simp
  constructor
  · intro T M a ha
    obtain ⟨hT, hM⟩ := celula_some_imp _ ano hne T M a ha
    have hT' : T ∈ (pre ++ r.comStatus s :: post).map (fun x => x.topico_id) := by
      rw [← hmap, topico_id_map _ hf]
      exact hT
    rw [celula_listarDashboard _ ano hne T hT M hM] at ha
    rw [celula_listarDashboard _ ano hne' T hT' M hM]
    refine ⟨_, rfl, ?_⟩
    rw [← Option.some.inj ha, ← hmap]
    exact celulaDouble_mono _ hf _ hnd T M
  · intro M a ha
    have hM := resultado_some_imp _ ano hne M a ha
    rw [resultado_listarDashboard _ ano hne M hM] at ha
    rw [resultado_listarDashboard _ ano hne' M hM]
    refine ⟨_, rfl, ?_⟩
    rw [← Option.some.inj ha, ← hmap]
    exact resultadoMensalDouble_mono _ hf _ hnd M

/-- C22 (witness): in a January audit with the answers CF and NC, replacing NC by PC raises
the cell of the topic and the monthly result from 50 to 75. -/
theorem C22_monotone_in_answers_witness :
    (([linha 1 0 1 1 (some Status.CF)] ++ linha 1 0 1 2 (some Status.NC) :: []).map
        Row.chave).Nodup ∧
      melhora (linha 1 0 1 2 (some Status.NC)).st_pergunta Status.PC ∧
      ((∀ T M a, (listarDashboard
            ([linha 1 0 1 1 (some Status.CF)] ++ linha 1 0 1 2 (some Status.NC) :: [])
            2024).celula T M = some a →
          ∃ b, (listarDashboard
            ([linha 1 0 1 1 (some Status.CF)] ++
              (linha 1 0 1 2 (some Status.NC)).comStatus Status.PC :: [])
            2024).celula T M = some b ∧ naoDiminui a b) ∧
        (∀ M a, (listarDashboard
            ([linha 1 0 1 1 (some Status.CF)] ++ linha 1 0 1 2 (some Status.NC) :: [])
            2024).resultado M = some a →
          ∃ b, (listarDashboard
            ([linha 1 0 1 1 (some Status.CF)] ++
              (linha 1 0 1 2 (some Status.NC)).comStatus Status.PC :: [])
            2024).resultado M = some b ∧ naoDiminui a b)) ∧
      (listarDashboard
        ([linha 1 0 1 1 (some Status.CF)] ++ linha 1 0 1 2 (some Status.NC) :: [])
        2024).celula (some 1) 0 = some (some 50) ∧
      (listarDashboard
        ([linha 1 0 1 1 (some Status.CF)] ++
          (linha 1 0 1 2 (some Status.NC)).comStatus Status.PC :: [])
        2024).celula (some 1) 0 = some (some 75) ∧
      (listarDashboard
        ([linha 1 0 1 1 (some Status.CF)] ++ linha 1 0 1 2 (some Status.NC) :: [])
        2024).resultado 0 = some (some 50) ∧
      (listarDashboard
        ([linha 1 0 1 1 (some Status.CF)] ++
          (linha 1 0 1 2 (some Status.NC)).comStatus Status.PC :: [])
        2024).resultado 0 = some (some 75) :=
  ⟨by decide, by decide,
    C22_monotone_in_answers [linha 1 0 1 1 (some Status.CF)] []
      (linha 1 0 1 2 (some Status.NC)) Status.PC 2024 (by decide) (by decide),
    by decide!, by decide!, by decide!, by decide!⟩

/-- C23: for every non-empty row list and every month `M`, `resultadosMensais[M].resultado`
is `null` if and only if the month-`M` field of every entry of `processos` is `null`. -/
theorem C23_months_with_data_agree (rows : List Row) (ano : Nat) (h : rows ≠ [])
    (M : Nat) (hM : M < 12) :
    (listarDashboard rows ano).resultado M = some none ↔
      ∀ p ∈ (listarDashboard rows ano).processos, p.celula M = some none := by
  rw [resultado_listarDashboard rows ano h M hM]
  simp only [Option.some.injEq]
  rw [resultadoMensalDouble_none_iff_celulas]
  constructor
  · intro hc p hp
    obtain ⟨T, hT, _, hcel⟩ := celula_of_mem_processos rows ano h p hp M hM
    rw [hcel, hc T hT]
  · intro hp T hT
    obtain ⟨p, hmem, _, hcel⟩ := exists_mem_processos rows ano h T hT M hM
    have := hp p hmem
    rw [hcel] at this
    simpa using this

/-- C23 (witness): with a January audit and a March audit, February has neither a monthly
result nor a cell, and January has both. -/
theorem C23_months_with_data_agree_witness :
    linhasMistas ≠ [] ∧
      ((listarDashboard linhasMistas 2024).resultado 1 = some none ↔
        ∀ p ∈ (listarDashboard linhasMistas 2024).processos, p.celula 1 = some none) ∧
      (listarDashboard linhasMistas 2024).resultado 1 = some none ∧
      (listarDashboard linhasMistas 2024).resultado 0 = some (some 50) ∧
      (listarDashboard linhasMistas 2024).processos.map (fun p => (p.celula 0, p.celula 1)) =
        [(some (some 50), some none), (some none, some none)] :=
  ⟨by decide, C23_months_with_data_agree linhasMistas 2024 (by decide) 1 (by decide),
    by decide!, by decide!, by decide!⟩

end RtoAuditorias
